import Mathlib

/-!
# Viua VM: assembler verifier, disassembler, linker and call protocol

A shallow embedding of parts of the Viua virtual machine sources:

* `src/cg/assembler/verify.cpp` (frame balance verifier),
* `src/cg/disassembler/disassembler.cpp` with `include/viua/bytecode/maps.h`,
* `src/front/asm/generate.cpp` (static linking of modules),
* `src/cpu/instr/general.cpp` (the call protocol of the engine).

C++ strings are Lean strings, byte buffers are lists of natural numbers below 256,
machine integers are `Nat`/`Int` with explicit wrap-around where the source can wrap,
and a C++ exception is the `none`/`error` result of the embedded function.
-/

namespace Viua

/-! ## String support (`viua/support/string.h`) -/

namespace str

/-- Modelled from the spec: the characters `str::lstrip` and `str::chunk` treat as blanks
(`viua/support/string.h` is not among the sources): space, tab, vertical tab, newline. -/
def isBlank (c : Char) : Bool :=
  c == ' ' || c == '\t' || c == Char.ofNat 11 || c == '\n'

/-- Modelled from the spec: `str::lstrip` is not among the sources; the expansion step
"strips" each line, that is, removes its leading blanks. -/
def lstrip (s : String) : String :=
  String.mk (s.data.dropWhile isBlank)

/-- Modelled from the spec: `str::chunk` is not among the sources; it yields the first
blank-delimited token of a line (leading blanks ignored). -/
def chunk (s : String) : String :=
  String.mk ((lstrip s).data.takeWhile (fun c => !isBlank c))

end str

/-! ## Frame balance verifier (`assembler::verify::frameBalance`) -/

namespace assembler
namespace verify

/-- The value streamed for `expanded_lines_to_source_lines.at(i)+1` (an `unsigned`). -/
def lineNo (src : Nat) : String :=
  toString ((src + 1) % 2 ^ 32)

/-- Lines 64-66 of `verify.cpp`: the mnemonics that consume a frame. -/
def isCallFamily (instruction : String) : Bool :=
  instruction == "call" || instruction == "excall" || instruction == "fcall" ||
    instruction == "msg"

/-- Line 60 of `verify.cpp`: the mnemonics the verifier looks at. -/
def isTracked (instruction : String) : Bool :=
  instruction == "call" || instruction == "excall" || instruction == "fcall" ||
    instruction == "frame" || instruction == "msg" || instruction == "end"

/-- The body of the `for` loop of `frameBalance`, from expanded index `i` on, with the
running `balance` and `previous_frame_spawnline`. The map is a partial function; `at` on
a missing key throws `std::out_of_range`, which is the result `none`. -/
def frameBalanceFrom (m : Nat → Option Nat) :
    List String → Nat → Int → Nat → Option String
  | [], _, _, _ => some ""
  | line :: rest, i, balance, prev =>
    if line.length = 0 then frameBalanceFrom m rest (i + 1) balance prev
    else
      let instruction := str.chunk (str.lstrip line)
      if !isTracked instruction then frameBalanceFrom m rest (i + 1) balance prev
      else
        let balance1 := if isCallFamily instruction then balance - 1 else balance
        let balance2 := if instruction == "frame" then balance1 + 1 else balance1
        if balance2 < 0 then
          (m i).map (fun n =>
            "fatal: call with '" ++ instruction ++ "' without a frame at line " ++ lineNo n)
        else if balance2 > 1 then
          (m i).bind (fun n => (m prev).map (fun p =>
            "fatal: excess frame spawned at line " ++ lineNo n ++
              " (unused frame spawned at line " ++ lineNo p ++ ")"))
        else if instruction == "end" && decide (balance2 > 0) then
          (m i).bind (fun n => (m prev).map (fun p =>
            "fatal: leftover frame at line " ++ lineNo n ++
              " (spawned at line " ++ lineNo p ++ ")"))
        else
          frameBalanceFrom m rest (i + 1) balance2
            (if instruction == "frame" then i else prev)

/-- The function `assembler::verify::frameBalance(lines, expanded_lines_to_source_lines)`. -/
def frameBalance (lines : List String) (m : Nat → Option Nat) : Option String :=
  frameBalanceFrom m lines 0 0 0

end verify
end assembler

/-! ### The balance property of section 8 -/

/-- The mnemonic of a line, as the verifier reads it. -/
def mnemonic (line : String) : String :=
  if line.length = 0 then "" else str.chunk (str.lstrip line)

/-- Number of `frame` instructions in a list of lines. -/
def frameCount (lines : List String) : Nat :=
  lines.countP (fun l => mnemonic l == "frame")

/-- Number of `call`, `fcall` and `msg` instructions in a list of lines. -/
def callCount (lines : List String) : Nat :=
  lines.countP (fun l => mnemonic l == "call" || mnemonic l == "fcall" || mnemonic l == "msg")

/-- Number of frame-consuming instructions as the verifier counts them: `call`, `excall`,
`fcall` and `msg`. -/
def consumerCount (lines : List String) : Nat :=
  lines.countP (fun l => assembler.verify.isCallFamily (mnemonic l))

/-- The property as section 8 words it: after every prefix the difference of frames and
calls (`call`, `fcall`, `msg`) is 0 or 1, and it is 0 after the whole body. -/
def BalancedToTheEnd (lines : List String) : Prop :=
  (∀ k, k ≤ lines.length →
      (frameCount (lines.take k) : Int) - callCount (lines.take k) = 0 ∨
      (frameCount (lines.take k) : Int) - callCount (lines.take k) = 1) ∧
    (frameCount lines : Int) - callCount lines = 0

/-- The property the verifier decides: after every prefix the difference of frames and
frame consumers (`call`, `excall`, `fcall`, `msg`) is 0 or 1, and it is 0 after every
prefix that ends in an `end` instruction. -/
def BalancedAtEveryEnd (lines : List String) : Prop :=
  (∀ k, k ≤ lines.length →
      (frameCount (lines.take k) : Int) - consumerCount (lines.take k) = 0 ∨
      (frameCount (lines.take k) : Int) - consumerCount (lines.take k) = 1) ∧
    (∀ k l, lines[k]? = some l → mnemonic l = "end" →
      (frameCount (lines.take (k + 1)) : Int) - consumerCount (lines.take (k + 1)) = 0)

/-- The change of the balance caused by one mnemonic. -/
def delta (ins : String) : Int :=
  (if ins == "frame" then 1 else 0) - (if assembler.verify.isCallFamily ins then 1 else 0)

/-- Frames minus frame consumers of a list of lines. -/
def pending (lines : List String) : Int :=
  (frameCount lines : Int) - consumerCount lines

/-- The balance property relative to a starting balance `b`. -/
def BalancedFrom (b : Int) (lines : List String) : Prop :=
  (∀ k, k ≤ lines.length → b + pending (lines.take k) = 0 ∨ b + pending (lines.take k) = 1) ∧
  (∀ k l, lines[k]? = some l → mnemonic l = "end" → b + pending (lines.take (k + 1)) = 0)

/-- The identity line map: expanded line `i` comes from source line `i`. -/
def idLineMap (i : Nat) : Option Nat := some i

/-! ## Opcode tables (`include/viua/bytecode/maps.h`) -/

/-- The enumeration `OPCODE` (`viua/bytecode/opcodes.h` is not among the sources): one
constructor per key of `OP_NAMES`, and `ENTER`, which `disassembler.cpp` names. The
numeric values of the enumerators are not modelled. -/
inductive OPCODE
  | NOP
  | IZERO
  | ISTORE
  | IADD
  | ISUB
  | IMUL
  | IDIV
  | IINC
  | IDEC
  | ILT
  | ILTE
  | IGT
  | IGTE
  | IEQ
  | FSTORE
  | FADD
  | FSUB
  | FMUL
  | FDIV
  | FLT
  | FLTE
  | FGT
  | FGTE
  | FEQ
  | BSTORE
  | BADD
  | BSUB
  | BINC
  | BDEC
  | BLT
  | BLTE
  | BGT
  | BGTE
  | BEQ
  | ITOF
  | FTOI
  | STOI
  | STOF
  | STRSTORE
  | STREQ
  | VEC
  | VINSERT
  | VPUSH
  | VPOP
  | VAT
  | VLEN
  | BOOL
  | NOT
  | AND
  | OR
  | MOVE
  | COPY
  | REF
  | PTR
  | DEPTR
  | SWAP
  | FREE
  | EMPTY
  | ISNULL
  | ISPTR
  | RESS
  | TMPRI
  | TMPRO
  | PRINT
  | ECHO
  | CLBIND
  | CLOSURE
  | FUNCTION
  | FCALL
  | FRAME
  | PARAM
  | PAPTR
  | PAREF
  | CALL
  | ARG
  | ARGC
  | JUMP
  | BRANCH
  | THROW
  | CATCH
  | PULL
  | TRYFRAME
  | TRY
  | LEAVE
  | IMPORT
  | LINK
  | CLASS
  | PROTOTYPE
  | DERIVE
  | ATTACH
  | REGISTER
  | NEW
  | MSG
  | END
  | HALT
  | ENTER
  deriving DecidableEq, Repr

/-- Result of `sizeof(byte)`. -/
def sizeof_byte : Nat := 1

/-- Result of `sizeof(bool)`. -/
def sizeof_bool : Nat := 1

/-- Result of `sizeof(int)`. -/
def sizeof_int : Nat := 4

/-- Result of `sizeof(float)`. -/
def sizeof_float : Nat := 4

/-- The table `OP_SIZES`, in the order of its initialiser. -/
def OP_SIZES : List (String × Nat) :=
  [ ("nop", sizeof_byte),
    ("izero", sizeof_byte + sizeof_bool + sizeof_int),
    ("istore", sizeof_byte + 2 * sizeof_bool + 2 * sizeof_int),
    ("iadd", sizeof_byte + 3 * sizeof_bool + 3 * sizeof_int),
    ("isub", sizeof_byte + 3 * sizeof_bool + 3 * sizeof_int),
    ("imul", sizeof_byte + 3 * sizeof_bool + 3 * sizeof_int),
    ("idiv", sizeof_byte + 3 * sizeof_bool + 3 * sizeof_int),
    ("iinc", sizeof_byte + sizeof_bool + sizeof_int),
    ("idec", sizeof_byte + sizeof_bool + sizeof_int),
    ("ilt", sizeof_byte + 3 * sizeof_bool + 3 * sizeof_int),
    ("ilte", sizeof_byte + 3 * sizeof_bool + 3 * sizeof_int),
    ("igt", sizeof_byte + 3 * sizeof_bool + 3 * sizeof_int),
    ("igte", sizeof_byte + 3 * sizeof_bool + 3 * sizeof_int),
    ("ieq", sizeof_byte + 3 * sizeof_bool + 3 * sizeof_int),
    ("fstore", sizeof_byte + sizeof_bool + sizeof_int + sizeof_float),
    ("fadd", sizeof_byte + 3 * sizeof_bool + 3 * sizeof_int),
    ("fsub", sizeof_byte + 3 * sizeof_bool + 3 * sizeof_int),
    ("fmul", sizeof_byte + 3 * sizeof_bool + 3 * sizeof_int),
    ("fdiv", sizeof_byte + 3 * sizeof_bool + 3 * sizeof_int),
    ("flt", sizeof_byte + 3 * sizeof_bool + 3 * sizeof_int),
    ("flte", sizeof_byte + 3 * sizeof_bool + 3 * sizeof_int),
    ("fgt", sizeof_byte + 3 * sizeof_bool + 3 * sizeof_int),
    ("fgte", sizeof_byte + 3 * sizeof_bool + 3 * sizeof_int),
    ("feq", sizeof_byte + 3 * sizeof_bool + 3 * sizeof_int),
    ("bstore", sizeof_byte + 2 * sizeof_bool + sizeof_int + sizeof_byte),
    ("badd", sizeof_byte + 3 * sizeof_bool + 3 * sizeof_int),
    ("bsub", sizeof_byte + 3 * sizeof_bool + 3 * sizeof_int),
    ("binc", sizeof_byte + sizeof_bool + sizeof_int),
    ("bdec", sizeof_byte + sizeof_bool + sizeof_int),
    ("blt", sizeof_byte + 3 * sizeof_bool + 3 * sizeof_int),
    ("blte", sizeof_byte + 3 * sizeof_bool + 3 * sizeof_int),
    ("bgt", sizeof_byte + 3 * sizeof_bool + 3 * sizeof_int),
    ("bgte", sizeof_byte + 3 * sizeof_bool + 3 * sizeof_int),
    ("beq", sizeof_byte + 3 * sizeof_bool + 3 * sizeof_int),
    ("itof", sizeof_byte + 2 * sizeof_bool + 2 * sizeof_int),
    ("ftoi", sizeof_byte + 2 * sizeof_bool + 2 * sizeof_int),
    ("stoi", sizeof_byte + 2 * sizeof_bool + 2 * sizeof_int),
    ("stof", sizeof_byte + 2 * sizeof_bool + 2 * sizeof_int),
    ("strstore", sizeof_byte + sizeof_bool + sizeof_int),
    ("streq", sizeof_byte + 3 * sizeof_bool + 3 * sizeof_int),
    ("vec", sizeof_byte + sizeof_bool + sizeof_int),
    ("vinsert", sizeof_byte + 3 * sizeof_bool + 3 * sizeof_int),
    ("vpush", sizeof_byte + 2 * sizeof_bool + 2 * sizeof_int),
    ("vpop", sizeof_byte + 3 * sizeof_bool + 3 * sizeof_int),
    ("vat", sizeof_byte + 3 * sizeof_bool + 3 * sizeof_int),
    ("vlen", sizeof_byte + 2 * sizeof_bool + 2 * sizeof_int),
    ("bool", sizeof_byte + sizeof_bool + sizeof_int),
    ("not", sizeof_byte + sizeof_bool + sizeof_int),
    ("and", sizeof_byte + 3 * sizeof_bool + 3 * sizeof_int),
    ("or", sizeof_byte + 3 * sizeof_bool + 3 * sizeof_int),
    ("move", sizeof_byte + 2 * sizeof_bool + 2 * sizeof_int),
    ("copy", sizeof_byte + 2 * sizeof_bool + 2 * sizeof_int),
    ("ref", sizeof_byte + 2 * sizeof_bool + 2 * sizeof_int),
    ("ptr", sizeof_byte + 2 * sizeof_bool + 2 * sizeof_int),
    ("deptr", sizeof_byte + 2 * sizeof_bool + 2 * sizeof_int),
    ("swap", sizeof_byte + 2 * sizeof_bool + 2 * sizeof_int),
    ("free", sizeof_byte + sizeof_bool + sizeof_int),
    ("empty", sizeof_byte + sizeof_bool + sizeof_int),
    ("isnull", sizeof_byte + 2 * sizeof_bool + 2 * sizeof_int),
    ("isptr", sizeof_byte + 2 * sizeof_bool + 2 * sizeof_int),
    ("ress", sizeof_byte + sizeof_int),
    ("tmpri", sizeof_byte + sizeof_bool + sizeof_int),
    ("tmpro", sizeof_byte + sizeof_bool + sizeof_int),
    ("print", sizeof_byte + sizeof_bool + sizeof_int),
    ("echo", sizeof_byte + sizeof_bool + sizeof_int),
    ("clbind", sizeof_byte + sizeof_bool + sizeof_int),
    ("closure", sizeof_byte + sizeof_bool + sizeof_int),
    ("function", sizeof_byte + sizeof_bool + sizeof_int),
    ("fcall", sizeof_byte + 2 * sizeof_bool + 2 * sizeof_int),
    ("frame", sizeof_byte + 2 * sizeof_bool + 2 * sizeof_int),
    ("param", sizeof_byte + 2 * sizeof_bool + 2 * sizeof_int),
    ("paref", sizeof_byte + 2 * sizeof_bool + 2 * sizeof_int),
    ("paptr", sizeof_byte + 2 * sizeof_bool + 2 * sizeof_int),
    ("call", sizeof_byte + sizeof_bool + sizeof_int),
    ("arg", sizeof_byte + 2 * sizeof_bool + 2 * sizeof_int),
    ("argc", sizeof_byte + sizeof_bool + sizeof_int),
    ("jump", sizeof_byte + sizeof_int),
    ("branch", sizeof_byte + sizeof_bool + 3 * sizeof_int),
    ("throw", sizeof_byte + sizeof_int + sizeof_bool),
    ("catch", sizeof_byte),
    ("pull", sizeof_byte + sizeof_bool + sizeof_int),
    ("tryframe", sizeof_byte),
    ("try", sizeof_byte),
    ("leave", sizeof_byte),
    ("import", sizeof_byte),
    ("link", sizeof_byte),
    ("class", sizeof_byte + sizeof_bool + sizeof_int),
    ("prototype", sizeof_byte + sizeof_bool + sizeof_int),
    ("derive", sizeof_byte + sizeof_bool + sizeof_int),
    ("attach", sizeof_byte + sizeof_bool + sizeof_int),
    ("register", sizeof_byte + sizeof_bool + sizeof_int),
    ("new", sizeof_byte + sizeof_bool + sizeof_int),
    ("msg", sizeof_byte + sizeof_bool + sizeof_int),
    ("end", sizeof_byte),
    ("halt", sizeof_byte) ]

/-- The table `OP_NAMES`, in the order of its initialiser. -/
def OP_NAMES : List (OPCODE × String) :=
  [ (OPCODE.NOP, "nop"),
    (OPCODE.IZERO, "izero"),
    (OPCODE.ISTORE, "istore"),
    (OPCODE.IADD, "iadd"),
    (OPCODE.ISUB, "isub"),
    (OPCODE.IMUL, "imul"),
    (OPCODE.IDIV, "idiv"),
    (OPCODE.IINC, "iinc"),
    (OPCODE.IDEC, "idec"),
    (OPCODE.ILT, "ilt"),
    (OPCODE.ILTE, "ilte"),
    (OPCODE.IGT, "igt"),
    (OPCODE.IGTE, "igte"),
    (OPCODE.IEQ, "ieq"),
    (OPCODE.FSTORE, "fstore"),
    (OPCODE.FADD, "fadd"),
    (OPCODE.FSUB, "fsub"),
    (OPCODE.FMUL, "fmul"),
    (OPCODE.FDIV, "fdiv"),
    (OPCODE.FLT, "flt"),
    (OPCODE.FLTE, "flte"),
    (OPCODE.FGT, "fgt"),
    (OPCODE.FGTE, "fgte"),
    (OPCODE.FEQ, "feq"),
    (OPCODE.BSTORE, "bstore"),
    (OPCODE.BADD, "badd"),
    (OPCODE.BSUB, "bsub"),
    (OPCODE.BINC, "binc"),
    (OPCODE.BDEC, "bdec"),
    (OPCODE.BLT, "blt"),
    (OPCODE.BLTE, "blte"),
    (OPCODE.BGT, "bgt"),
    (OPCODE.BGTE, "bgte"),
    (OPCODE.BEQ, "beq"),
    (OPCODE.ITOF, "itof"),
    (OPCODE.FTOI, "ftoi"),
    (OPCODE.STOI, "stoi"),
    (OPCODE.STOF, "stof"),
    (OPCODE.STRSTORE, "strstore"),
    (OPCODE.STREQ, "streq"),
    (OPCODE.VEC, "vec"),
    (OPCODE.VINSERT, "vinsert"),
    (OPCODE.VPUSH, "vpush"),
    (OPCODE.VPOP, "vpop"),
    (OPCODE.VAT, "vat"),
    (OPCODE.VLEN, "vlen"),
    (OPCODE.BOOL, "bool"),
    (OPCODE.NOT, "not"),
    (OPCODE.AND, "and"),
    (OPCODE.OR, "or"),
    (OPCODE.MOVE, "move"),
    (OPCODE.COPY, "copy"),
    (OPCODE.REF, "ref"),
    (OPCODE.PTR, "ptr"),
    (OPCODE.DEPTR, "deptr"),
    (OPCODE.SWAP, "swap"),
    (OPCODE.FREE, "free"),
    (OPCODE.EMPTY, "empty"),
    (OPCODE.ISNULL, "isnull"),
    (OPCODE.ISPTR, "isptr"),
    (OPCODE.RESS, "ress"),
    (OPCODE.TMPRI, "tmpri"),
    (OPCODE.TMPRO, "tmpro"),
    (OPCODE.PRINT, "print"),
    (OPCODE.ECHO, "echo"),
    (OPCODE.CLBIND, "clbind"),
    (OPCODE.CLOSURE, "closure"),
    (OPCODE.FUNCTION, "function"),
    (OPCODE.FCALL, "fcall"),
    (OPCODE.FRAME, "frame"),
    (OPCODE.PARAM, "param"),
    (OPCODE.PAPTR, "paptr"),
    (OPCODE.PAREF, "paref"),
    (OPCODE.CALL, "call"),
    (OPCODE.ARG, "arg"),
    (OPCODE.ARGC, "argc"),
    (OPCODE.JUMP, "jump"),
    (OPCODE.BRANCH, "branch"),
    (OPCODE.THROW, "throw"),
    (OPCODE.CATCH, "catch"),
    (OPCODE.PULL, "pull"),
    (OPCODE.TRYFRAME, "tryframe"),
    (OPCODE.TRY, "try"),
    (OPCODE.LEAVE, "leave"),
    (OPCODE.IMPORT, "import"),
    (OPCODE.LINK, "link"),
    (OPCODE.CLASS, "class"),
    (OPCODE.PROTOTYPE, "prototype"),
    (OPCODE.DERIVE, "derive"),
    (OPCODE.ATTACH, "attach"),
    (OPCODE.REGISTER, "register"),
    (OPCODE.NEW, "new"),
    (OPCODE.MSG, "msg"),
    (OPCODE.END, "end"),
    (OPCODE.HALT, "halt") ]

/-- The vector `OP_VARIABLE_LENGTH`. -/
def OP_VARIABLE_LENGTH : List OPCODE :=
  [ OPCODE.STRSTORE,
    OPCODE.CLOSURE,
    OPCODE.FUNCTION,
    OPCODE.CALL,
    OPCODE.CATCH,
    OPCODE.TRY,
    OPCODE.IMPORT,
    OPCODE.LINK,
    OPCODE.CLASS,
    OPCODE.PROTOTYPE,
    OPCODE.DERIVE,
    OPCODE.ATTACH,
    OPCODE.NEW,
    OPCODE.MSG ]

/-! ## Byte buffers -/

/-- The byte at offset `p`; a read past the end of the modelled buffer yields 0. -/
def byteAt (buf : List Nat) (p : Nat) : Nat :=
  buf.getD p 0

/-- The read `*(bool*)ptr`. -/
def readBool (buf : List Nat) (p : Nat) : Bool :=
  byteAt buf p != 0

/-- The unsigned value of the four bytes at `p`, little-endian. -/
def readU32 (buf : List Nat) (p : Nat) : Nat :=
  byteAt buf p % 256 + 256 * (byteAt buf (p + 1) % 256) +
    65536 * (byteAt buf (p + 2) % 256) + 16777216 * (byteAt buf (p + 3) % 256)

/-- The signed reading of a 32-bit pattern. -/
def toSigned32 (u : Nat) : Int :=
  if u % 2 ^ 32 < 2 ^ 31 then (u % 2 ^ 32 : Nat) else ((u % 2 ^ 32 : Nat) : Int) - 2 ^ 32

/-- The 32-bit pattern of an `int` (conversion to `unsigned`). -/
def toUnsigned32 (i : Int) : Nat :=
  (i % 2 ^ 32).toNat

/-- The read `*(int*)ptr`. -/
def readInt (buf : List Nat) (p : Nat) : Int :=
  toSigned32 (readU32 buf p)

/-- The four little-endian bytes of a 32-bit pattern. -/
def le32 (u : Nat) : List Nat :=
  [u % 256, u / 256 % 256, u / 65536 % 256, u / 16777216 % 256]

/-- The bytes of the C string starting at `p`: everything before the first NUL. -/
def cstring (buf : List Nat) (p : Nat) : List Nat :=
  (buf.drop p).takeWhile (fun b => b != 0)

/-- The characters of a byte string. -/
def text (bytes : List Nat) : String :=
  String.mk (bytes.map Char.ofNat)

/-! ## Disassembler (`src/cg/disassembler/disassembler.cpp`) -/

namespace str

/-- Modelled from the spec: `str::enquote` is not among the sources; the disassembler
"quotes string literals". -/
def enquote (s : String) : String :=
  "\"" ++ s ++ "\""

end str

namespace disassembler

/-- The function `disassembler::intop`. -/
def intop (buf : List Nat) (p : Nat) : String :=
  (if readBool buf p then "@" else "") ++ toString (readInt buf (p + sizeof_bool))

/-- Output of `oss << hex << *(int*)ptr`: the 32-bit pattern in lower-case hexadecimal. -/
def hexInt (buf : List Nat) (p : Nat) : String :=
  String.mk (Nat.toDigits 16 (readU32 buf p))

/-- The value `int(*ptr)` of one byte; `byte` is `char`, taken as signed. -/
def byteAsInt (buf : List Nat) (p : Nat) : Int :=
  if byteAt buf p % 256 < 128 then (byteAt buf p % 256 : Nat) else ((byteAt buf p % 256 : Nat) : Int) - 256

/-- Lines 36-98 of `disassembler.cpp`: the text written and the offset of `bptr`
(relative to the byte after the opcode byte) for the variable-length part. `none` is the
`std::out_of_range` of `OP_SIZES.at`. -/
def scanLength (op : OPCODE) (opname : String) (buf : List Nat) : Option (String × Nat) :=
  if !(OP_VARIABLE_LENGTH.contains op) then
    (OP_SIZES.lookup opname).map (fun size => (opname, size - 1))
  else if op = .STRSTORE then
    let oss := opname ++ " " ++ intop buf 0
    let bptr := sizeof_bool + sizeof_int
    let s := cstring buf bptr
    some (oss ++ " " ++ str.enquote (text s), bptr + s.length + 1)
  else if op = .CALL ∨ op = .CLOSURE ∨ op = .FUNCTION ∨ op = .CLASS ∨ op = .NEW ∨
      op = .DERIVE ∨ op = .MSG then
    let oss := opname ++ " " ++ intop buf 0
    let bptr := sizeof_bool + sizeof_int
    let fn_name := cstring buf bptr
    some (oss ++ " " ++ text fn_name, bptr + fn_name.length + 1)
  else if op = .IMPORT ∨ op = .ENTER ∨ op = .LINK then
    let s := cstring buf 0
    some (opname ++ " " ++ (if op = .IMPORT then str.enquote (text s) else text s),
      s.length + 1)
  else if op = .CATCH then
    let s := cstring buf 0
    let oss := opname ++ " " ++ str.enquote (text s)
    let bptr := s.length + 1
    let s2 := cstring buf bptr
    some (oss ++ " " ++ text s2, bptr + s2.length + 1)
  else if op = .ATTACH then
    let oss := opname ++ " " ++ intop buf 0
    let bptr := sizeof_bool + sizeof_int
    let fn_name := cstring buf bptr
    let oss := oss ++ " " ++ text fn_name
    let bptr := bptr + fn_name.length + 1
    let md_name := cstring buf bptr
    some (oss ++ " " ++ text md_name, bptr + md_name.length + 1)
  else
    some (opname, 0)

/-- The step `sizeof(bool) + sizeof(int)` by which the `switch` advances `ptr`. -/
def intopSize : Nat := sizeof_bool + sizeof_int

/-- Lines 105-264 of `disassembler.cpp`: the operands the `switch` appends. The text of a
`float` is produced by `showFloat` from the four bytes of the operand. -/
def operandText (showFloat : Nat → String) (op : OPCODE) (buf : List Nat) : String :=
  match op with
  | .IZERO | .IINC | .IDEC | .BINC | .BDEC | .PRINT | .ECHO | .BOOL | .NOT | .FREE
  | .EMPTY | .TMPRI | .TMPRO | .VEC | .CLBIND | .ARGC | .THROW | .PULL | .REGISTER =>
    " " ++ intop buf 0
  | .ISTORE | .ITOF | .FTOI | .STOI | .STOF | .FRAME | .ARG | .PARAM | .PAREF | .MOVE
  | .COPY | .REF | .SWAP | .ISNULL | .VPUSH | .VLEN | .FCALL =>
    " " ++ intop buf 0 ++ " " ++ intop buf intopSize
  | .IADD | .ISUB | .IMUL | .IDIV | .ILT | .ILTE | .IGT | .IGTE | .IEQ
  | .FADD | .FSUB | .FMUL | .FDIV | .FLT | .FLTE | .FGT | .FGTE | .FEQ
  | .BADD | .BSUB | .BLT | .BLTE | .BGT | .BGTE | .BEQ | .STREQ | .AND | .OR
  | .VINSERT | .VPOP | .VAT =>
    " " ++ intop buf 0 ++ " " ++ intop buf intopSize ++ " " ++ intop buf (2 * intopSize)
  | .JUMP => " 0x" ++ hexInt buf 0
  | .BRANCH =>
    " " ++ intop buf 0 ++ " 0x" ++ hexInt buf intopSize ++
      " 0x" ++ hexInt buf (intopSize + sizeof_int)
  | .FSTORE => " " ++ intop buf 0 ++ " " ++ showFloat (readU32 buf intopSize)
  | .BSTORE => " " ++ intop buf 0 ++ " " ++ toString (byteAsInt buf (intopSize + sizeof_bool))
  | .RESS =>
    " " ++ (match byteAsInt buf 0 with
      | 0 => "global"
      | 1 => "local"
      | 2 => "static"
      | 3 => "temp"
      | _ => "")
  | _ => ""

/-- The function `disassembler::instruction(ptr)`: `op` is `OPCODE(*ptr)` and `buf` holds
the bytes from `ptr + 1` on. The result is the text and the number of bytes of the
instruction; an error is a thrown exception. -/
def instruction (showFloat : Nat → String) (op : OPCODE) (buf : List Nat) :
    Except String (String × Nat) :=
  match OP_NAMES.lookup op with
  | none => .error "could not find name for opcode"
  | some opname =>
    match scanLength op opname buf with
    | none => .error "std::out_of_range"
    | some (oss, bptr) => .ok (oss ++ operandText showFloat op buf, bptr + 1)

end disassembler

/-! ### Instructions and their encoding (section 4.1) -/

/-- An operand of an instruction: a register operand `int_op` or a trailing string. -/
inductive Operand
  | reg (by_reference : Bool) (index : Int)
  | name (s : List Nat)
  deriving DecidableEq, Repr

/-- An instruction: an opcode with its operands in declaration order. -/
structure Instruction where
  op : OPCODE
  operands : List Operand
  deriving DecidableEq, Repr

/-- Section 4.1: a register operand is a 1-byte reference flag and a 4-byte index, a
string is followed by a NUL byte. -/
def encodeOperand : Operand → List Nat
  | .reg r i => (if r then 1 else 0) :: le32 (toUnsigned32 i)
  | .name s => s ++ [0]

/-- The bytes that follow the opcode byte in the encoding of an instruction. -/
def encodeOperands (i : Instruction) : List Nat :=
  (i.operands.map encodeOperand).flatten

/-- The text of an operand: `@` marks a by-reference register operand. -/
def renderOperand : Operand → String
  | .reg r i => (if r then "@" else "") ++ toString i
  | .name s => text s

/-- The canonical line of an instruction: the mnemonic followed by its operands. -/
def render (mnemonic : String) (i : Instruction) : String :=
  i.operands.foldl (fun acc o => acc ++ " " ++ renderOperand o) mnemonic

/-- The size of section 8: `op_size_table(mnemonic)` plus `len(s) + 1` for each
trailing string. -/
def encodedSize (opSize : Nat) (i : Instruction) : Nat :=
  opSize + (i.operands.map (fun o => match o with
    | .reg _ _ => 0
    | .name s => s.length + 1)).sum

/-! ## Operand shapes of the fixed-size opcodes (section 4.1, C25) -/

/-- The kinds of operand section 4.1 lists: a register operand (`int_op`: flag and
index), a plain `int32`, a `float32`, and a byte. `flaggedByte` is the byte operand as
`OP_SIZES` and the disassembler lay it out: a 1-byte flag followed by the byte. -/
inductive OperandKind
  | reg
  | int32
  | float32
  | byte
  | flaggedByte
  deriving DecidableEq, Repr

/-- Encoded size of an operand kind. -/
def OperandKind.size : OperandKind → Nat
  | .reg => sizeof_bool + sizeof_int
  | .int32 => sizeof_int
  | .float32 => sizeof_float
  | .byte => sizeof_byte
  | .flaggedByte => sizeof_bool + sizeof_byte

/-- One opcode byte plus the sizes of the operands. -/
def shapeSize (shape : List OperandKind) : Nat :=
  1 + (shape.map OperandKind.size).sum

/-- The operand shape of each fixed-size mnemonic, read off the operands that the
`switch` of `disassembler::instruction` decodes and, for `ptr`, `deptr`, `isptr` and
`paptr`, off the builder calls of `compile` in `generate.cpp`. -/
def operandShape (m : String) : Option (List OperandKind) :=
  if m ∈ ["nop", "tryframe", "leave", "end", "halt"] then some []
  else if m ∈ ["izero", "iinc", "idec", "binc", "bdec", "print", "echo", "bool", "not",
      "free", "empty", "tmpri", "tmpro", "vec", "clbind", "argc", "throw", "pull",
      "register"] then some [.reg]
  else if m ∈ ["istore", "itof", "ftoi", "stoi", "stof", "frame", "arg", "param", "paref",
      "move", "copy", "ref", "swap", "isnull", "vpush", "vlen", "fcall", "ptr", "deptr",
      "isptr", "paptr"] then some [.reg, .reg]
  else if m ∈ ["iadd", "isub", "imul", "idiv", "ilt", "ilte", "igt", "igte", "ieq",
      "fadd", "fsub", "fmul", "fdiv", "flt", "flte", "fgt", "fgte", "feq",
      "badd", "bsub", "blt", "blte", "bgt", "bgte", "beq", "streq", "and", "or",
      "vinsert", "vpop", "vat"] then some [.reg, .reg, .reg]
  else if m = "fstore" then some [.reg, .float32]
  else if m = "bstore" then some [.reg, .flaggedByte]
  else if m = "jump" then some [.int32]
  else if m = "branch" then some [.reg, .int32, .int32]
  else if m = "ress" then some [.int32]
  else none

/-- Whether a mnemonic names an opcode of `OP_VARIABLE_LENGTH`. -/
def isVariableLength (m : String) : Bool :=
  OP_VARIABLE_LENGTH.any (fun op => OP_NAMES.lookup op == some m)

/-! ## More string support and the other verifier passes (`verify.cpp`) -/

namespace str

/-- Modelled from the spec: `str::sub(s, b)` is not among the sources; it is the part of
`s` from position `b` on (as `std::string::substr`). -/
def sub (s : String) (b : Nat) : String :=
  String.mk (s.data.drop b)

/-- Modelled from the spec: `str::startswith(s, w)` is not among the sources; it tells
whether `s` begins with `w`. -/
def startswith (s w : String) : Bool :=
  w.data.isPrefixOf s.data

/-- Modelled from the spec: `str::startswithchunk(s, w)` is not among the sources; it tells
whether the first token of `s` is `w`. -/
def startswithchunk (s w : String) : Bool :=
  chunk s == w

end str

namespace assembler
namespace verify

/-- The name a `call` line is checked for (lines 24-31 of `verify.cpp`); `line` is the
stripped line. The return register is optional: with one operand, that operand is the
function name. -/
def calledFunction (line : String) : String :=
  let line1 := str.lstrip (str.sub line 4)
  let return_register := str.chunk line1
  let line2 := str.lstrip (str.sub line1 return_register.length)
  let function := str.chunk line2
  if function.length ≠ 0 then function else return_register

/-- Lines 33-37 of `verify.cpp`: neither defined nor declared by a signature. -/
def isUndefinedIn (names signatures : List String) (name : String) : Bool :=
  !names.contains name && !signatures.contains name

/-- The loop of `functionCallsAreDefined`, from expanded index `i` on. -/
def functionCallsAreDefinedFrom (m : Nat → Option Nat)
    (function_names function_signatures : List String) : List String → Nat → Option String
  | [], _ => some ""
  | l :: rest, i =>
    let line := str.lstrip l
    if !str.startswith line "call" then
      functionCallsAreDefinedFrom m function_names function_signatures rest (i + 1)
    else
      let check_function := calledFunction line
      if isUndefinedIn function_names function_signatures check_function then
        (m i).map (fun n =>
          "fatal: call to undefined function '" ++ check_function ++ "' at line " ++ lineNo n)
      else functionCallsAreDefinedFrom m function_names function_signatures rest (i + 1)

/-- The function `assembler::verify::functionCallsAreDefined`. -/
def functionCallsAreDefined (lines : List String) (m : Nat → Option Nat)
    (function_names function_signatures : List String) : Option String :=
  functionCallsAreDefinedFrom m function_names function_signatures lines 0

/-- The loop of `blockTries`, from expanded index `i` on, with the report written so
far (the loop has no `break`). -/
def blockTriesFrom (m : Nat → Option Nat) (block_names block_signatures : List String) :
    List String → Nat → String → Option String
  | [], _, report => some report
  | l :: rest, i, report =>
    let line := str.lstrip l
    if !str.startswithchunk line "enter" then
      blockTriesFrom m block_names block_signatures rest (i + 1) report
    else
      let block := str.chunk (str.lstrip (str.sub line (str.chunk line).length))
      if isUndefinedIn block_names block_signatures block then
        (m i).bind (fun n =>
          blockTriesFrom m block_names block_signatures rest (i + 1)
            (report ++ "fatal: cannot enter undefined block '" ++ block ++ "' at line " ++
              lineNo n))
      else blockTriesFrom m block_names block_signatures rest (i + 1) report

/-- The function `assembler::verify::blockTries`. -/
def blockTries (lines : List String) (m : Nat → Option Nat)
    (block_names block_signatures : List String) : Option String :=
  blockTriesFrom m block_names block_signatures lines 0 ""

/-- The vector `legal_register_sets` of `ressInstructions`. -/
def legal_register_sets : List String :=
  ["global", "local", "static", "temp"]

/-- The second token of a stripped line:
`str::chunk(str::lstrip(str::sub(line, str::chunk(line).size())))`. -/
def secondToken (line : String) : String :=
  str.chunk (str.lstrip (str.sub line (str.chunk line).length))

/-- The loop of `ressInstructions`, from expanded index `i` on, with the name of the
function whose `.function:` line was seen last. -/
def ressInstructionsFrom (m : Nat → Option Nat) (as_lib : Bool) :
    List String → Nat → String → Option String
  | [], _, _ => some ""
  | l :: rest, i, function =>
    let line := str.lstrip l
    if str.startswith line ".function:" then
      ressInstructionsFrom m as_lib rest (i + 1) (secondToken line)
    else if !str.startswith line "ress" then
      ressInstructionsFrom m as_lib rest (i + 1) function
    else
      let registerset_name := secondToken line
      if !legal_register_sets.contains registerset_name then
        (m i).map (fun n =>
          "fatal: illegal register set name in ress instruction: '" ++ registerset_name ++
            "' at line " ++ lineNo n)
      else if registerset_name == "global" && as_lib && function != "main" then
        (m i).map (fun n =>
          "fatal: global registers used in library function at line " ++ lineNo n)
      else ressInstructionsFrom m as_lib rest (i + 1) function

/-- The function `assembler::verify::ressInstructions`. -/
def ressInstructions (lines : List String) (m : Nat → Option Nat) (as_lib : Bool) :
    Option String :=
  ressInstructionsFrom m as_lib lines 0 ""

/-- The directives line 225 of `verify.cpp` accepts. -/
def knownDirectives : List String :=
  [".function:", ".signature:", ".bsignature:", ".block:", ".end", ".name:", ".mark:",
    ".main:", ".type:", ".class:"]

/-- The loop of `directives`, from expanded index `i` on. -/
def directivesFrom (m : Nat → Option Nat) : List String → Nat → Option String
  | [], _ => some ""
  | l :: rest, i =>
    let line := str.lstrip l
    if line.length = 0 || line.data.head? != some '.' then directivesFrom m rest (i + 1)
    else
      let token := str.chunk line
      if !knownDirectives.contains token then
        (m i).map (fun n =>
          "fatal: unrecognised assembler directive on line " ++ lineNo n ++ ": `" ++ token ++
            "`")
      else directivesFrom m rest (i + 1)

/-- The function `assembler::verify::directives`. -/
def directives (lines : List String) (m : Nat → Option Nat) : Option String :=
  directivesFrom m lines 0

end verify
end assembler

/-! ### Scans that stop at the first report -/

/-- A scan over the lines that stops at the first line for which `check` yields a
report; the report is completed with the text of the line number. -/
def scanFrom (m : Nat → Option Nat) (check : String → Option (String → String)) :
    List String → Nat → Option String
  | [], _ => some ""
  | l :: rest, i =>
    match check l with
    | some msg => (m i).map (fun n => msg (assembler.verify.lineNo n))
    | none => scanFrom m check rest (i + 1)

/-- The report of `directives` for one line, if the line is an unknown directive. -/
def directiveCheck (l : String) : Option (String → String) :=
  let line := str.lstrip l
  if line.length = 0 || line.data.head? != some '.' then none
  else if !assembler.verify.knownDirectives.contains (str.chunk line) then
    some (fun t =>
      "fatal: unrecognised assembler directive on line " ++ t ++ ": `" ++ str.chunk line ++ "`")
  else none

/-- The report of `functionCallsAreDefined` for one line, if the line calls an
undefined function. -/
def callCheck (names signatures : List String) (l : String) : Option (String → String) :=
  let line := str.lstrip l
  if !str.startswith line "call" then none
  else if assembler.verify.isUndefinedIn names signatures (assembler.verify.calledFunction line) then
    some (fun t =>
      "fatal: call to undefined function '" ++ assembler.verify.calledFunction line ++
        "' at line " ++ t)
  else none

/-- A line whose first non-blank character is `.` and whose first token is not one of
the known directives. -/
def UnknownDirective (l : String) : Prop :=
  (str.lstrip l).data.head? = some '.' ∧
    str.chunk (str.lstrip l) ∉ assembler.verify.knownDirectives

/-- A line beginning with `call` that names a function neither defined nor declared. -/
def UndefinedCall (names signatures : List String) (l : String) : Prop :=
  str.startswith (str.lstrip l) "call" = true ∧
    assembler.verify.calledFunction (str.lstrip l) ∉ names ∧
    assembler.verify.calledFunction (str.lstrip l) ∉ signatures

/-! ### The function a `ress` line belongs to, as `ressInstructions` tracks it -/

/-- The function name after one more line: a `.function:` line sets it to its second
token, every other line leaves it. -/
def trackStep (function : String) (l : String) : String :=
  if str.startswith (str.lstrip l) ".function:" then assembler.verify.secondToken (str.lstrip l)
  else function

/-- The function name in force after the given lines, starting from `function`. -/
def trackFunction (function : String) (lines : List String) : String :=
  lines.foldl trackStep function

/-- The function enclosing the line at index `k`: the name on the last `.function:` line
above it, and the empty name when there is none. -/
def enclosingFunction (lines : List String) (k : Nat) : String :=
  trackFunction "" (lines.take k)

/-- A line beginning with `ress` that `ressInstructions` rejects when `function` is the
enclosing function: the register set name is not one of the four legal names, or it is
`global` in a library function other than `main`. -/
def BadRess (as_lib : Bool) (function : String) (l : String) : Prop :=
  str.startswith (str.lstrip l) "ress" = true ∧
    (assembler.verify.secondToken (str.lstrip l) ∉ assembler.verify.legal_register_sets ∨
      (assembler.verify.secondToken (str.lstrip l) = "global" ∧ as_lib = true ∧
        function ≠ "main"))

/-! ## Environment support (`src/support/env.cpp`) -/

namespace support
namespace env

/-- The function `support::env::getvar`: an unset variable reads as the empty string. -/
def getvar (value : Option String) : String :=
  value.getD ""

/-- The `while` loop of `getpaths` over the characters of `PATH` that are still to be
read, with the current `path` and the `paths` collected so far. After a `:` that closes a
non-empty path the loop skips the `:` and appends the next character without looking at
it; when there is none, that character is `PATH[PATH.size()]`, the NUL character. -/
def getpathsLoop : List Char → List Char → List String → List String
  | [], path, paths => if path.length ≠ 0 then paths ++ [String.mk path] else paths
  | c :: rest, path, paths =>
    if c = ':' ∧ path.length ≠ 0 then
      match rest with
      | [] => paths ++ [String.mk path] ++ [String.mk [Char.ofNat 0]]
      | d :: rest2 => getpathsLoop rest2 [d] (paths ++ [String.mk path])
    else getpathsLoop rest (path ++ [c]) paths

/-- The function `support::env::getpaths`, given the value of the variable. -/
def getpaths (value : Option String) : List String :=
  getpathsLoop (getvar value).data [] []

end env
end support

/-- The non-empty segments of `s` between `:` characters, in order. -/
def colonSegments (s : String) : List String :=
  ((s.data.splitOn ':').filter (fun seg => seg.length ≠ 0)).map String.mk

/-! ## Jump resolution (`resolvejump`, `generate.cpp`) -/

/-- The value of a run of decimal digits. -/
def decimalValue (ds : List Char) : Nat :=
  ds.foldl (fun acc c => 10 * acc + (c.toNat - '0'.toNat)) 0

/-- The value of one hexadecimal digit. -/
def hexDigitValue (c : Char) : Nat :=
  if c.isDigit then c.toNat - '0'.toNat
  else if 'a'.toNat ≤ c.toNat ∧ c.toNat ≤ 'f'.toNat then c.toNat - 'a'.toNat + 10
  else c.toNat - 'A'.toNat + 10

/-- Whether a character is a hexadecimal digit. -/
def isHexDigit (c : Char) : Bool :=
  c.isDigit || ('a'.toNat ≤ c.toNat && c.toNat ≤ 'f'.toNat) ||
    ('A'.toNat ≤ c.toNat && c.toNat ≤ 'F'.toNat)

/-- The value of a run of hexadecimal digits. -/
def hexValue (hs : List Char) : Nat :=
  hs.foldl (fun acc c => 16 * acc + hexDigitValue c) 0

namespace str

/-- Modelled from the spec: `str::isnum(s, negatives)` is not among the sources; a
"numeric" operand is a non-empty run of decimal digits, after an optional leading `-`
when negatives are allowed (the default). -/
def isnum (s : String) (negatives : Bool) : Bool :=
  let body := if negatives && s.data.head? == some '-' then s.data.drop 1 else s.data
  body.length != 0 && body.all Char.isDigit

end str

/-- The function `isspace` of the C locale: space, tab, newline, vertical tab, form feed
and carriage return. -/
def isspace (c : Char) : Bool :=
  c == ' ' || c == '\t' || c == '\n' || c == Char.ofNat 11 || c == Char.ofNat 12 || c == '\r'

/-- The function `std::stoi`: leading white space (`isspace`), an optional sign, then
decimal digits; `invalid_argument` without a digit, `out_of_range` outside the range of
`int`. -/
def stoi (s : String) : Except String Int :=
  let t := s.data.dropWhile isspace
  let negative := t.head? == some '-'
  let u := if t.head? == some '-' || t.head? == some '+' then t.drop 1 else t
  let ds := u.takeWhile Char.isDigit
  if ds.length = 0 then .error "std::invalid_argument"
  else
    let v : Int := if negative then - (decimalValue ds : Int) else (decimalValue ds : Int)
    if v < -(2 ^ 31) ∨ 2 ^ 31 ≤ v then .error "std::out_of_range" else .ok v

/-- The extraction `ss << hex << jmp; ss >> addr` for a `jmp` that begins with `0x`: the
hexadecimal digits after `0x` are read; a value beyond the range of `int` leaves
`INT_MAX` in `addr`. -/
def readHexInt (jmp : String) : Int :=
  let v := hexValue ((jmp.data.drop 2).takeWhile isHexDigit)
  if 2 ^ 31 ≤ v then 2 ^ 31 - 1 else (v : Int)

/-- The enumeration `JUMPTYPE` (`viua/program.h` is not among the sources): the three
enumerators that `generate.cpp` names. -/
inductive JUMPTYPE
  | JMP_RELATIVE
  | JMP_ABSOLUTE
  | JMP_TO_BYTE
  deriving DecidableEq, Repr

/-- Addition of two `int` values, wrapping at 32 bits. -/
def addInt32 (a b : Int) : Int :=
  toSigned32 (toUnsigned32 (a + b))

/-- The function `resolvejump(jmp, marks, instruction_index)`. An error is a thrown
exception or, for a label that begins with `.`, the `exit(1)` of the source. -/
def resolvejump (jmp : String) (marks : List (String × Int)) (instruction_index : Int) :
    Except String (Int × JUMPTYPE) :=
  if str.isnum jmp false then
    (stoi jmp).map (fun addr => (addr, JUMPTYPE.JMP_RELATIVE))
  else if jmp.data.head? == some '.' && str.isnum (str.sub jmp 1) true then
    (stoi (str.sub jmp 1)).map (fun addr => (addr, JUMPTYPE.JMP_ABSOLUTE))
  else if jmp.data.take 2 == "0x".data then
    .ok (readHexInt jmp, JUMPTYPE.JMP_TO_BYTE)
  else if jmp.data.head? == some '-' then
    if instruction_index < 0 then .error ("invalid use of relative jump: " ++ jmp)
    else
      match stoi jmp with
      | .error e => .error e
      | .ok v =>
        if addInt32 instruction_index v < 0 then
          .error "use of relative jump results in a jump to negative index"
        else .ok (addInt32 instruction_index v, JUMPTYPE.JMP_RELATIVE)
  else if jmp.data.head? == some '+' then
    if instruction_index < 0 then .error ("invalid use of relative jump: " ++ jmp)
    else
      (stoi (str.sub jmp 1)).map (fun v =>
        (addInt32 instruction_index v, JUMPTYPE.JMP_RELATIVE))
  else if jmp.data.head? == some '.' then
    .error "exit(1): global marker jumps (jumps to functions) are not implemented yet"
  else
    match marks.lookup jmp with
    | some addr => .ok (addr, JUMPTYPE.JMP_RELATIVE)
    | none => .error ("jump to unrecognised marker: " ++ jmp)

/-! ## Filtering instruction lines and the entry function (`generate.cpp`) -/

/-- The name `ENTRY_FUNCTION_NAME`. -/
def ENTRY_FUNCTION_NAME : String := "__entry"

/-- Line 167 of `generate.cpp`: a line that produces no bytecode. -/
def isSkippedDirective (line : String) : Bool :=
  str.startswith line ".mark:" || str.startswith line ".name:" ||
    str.startswith line ".main:" || str.startswith line ".link:" ||
    str.startswith line ".signature:" || str.startswith line ".bsignature:" ||
    str.startswith line ".type:"

/-- Lines 185 and 190 of `generate.cpp`: a line that opens a definition. -/
def opensDefinition (line : String) : Bool :=
  str.startswith line ".function:" || str.startswith line ".block:" ||
    str.startswith line ".class:"

/-- The loop of `filter`; `skipping` is set while the inner loop
`while (lines[++i] != ".end");` is running. Reaching the end of the list while skipping
indexes past the end of the vector: the result `none`. -/
def filterFrom : Bool → List String → Option (List String)
  | true, [] => none
  | false, [] => some []
  | true, line :: rest => if line = ".end" then filterFrom false rest else filterFrom true rest
  | false, line :: rest =>
    if isSkippedDirective line then filterFrom false rest
    else if opensDefinition line then filterFrom true rest
    else (filterFrom false rest).map (fun filtered => line :: filtered)

/-- The function `filter(lines)`. -/
def filter (lines : List String) : Option (List String) :=
  filterFrom false lines

/-- Lines 785-794 of `generate.cpp`: the lines of the entry function, built around the
instruction lines `ilines` of the source. -/
def entryLines (ilines : List String) (main_function : String) : List String :=
  "ress local" :: ilines ++
    ["frame 1", "param 0 1", "call 1 " ++ main_function, "move 0 1", "halt"]

/-- Lines 797-803 of `generate.cpp`: the number added to `bytes` for the entry function;
`none` is the `std::out_of_range` of `OP_SIZES.at`. -/
def entryBytes (main_function : String) : Option Nat :=
  (OP_SIZES.lookup "ress").bind fun ress =>
  (OP_SIZES.lookup "frame").bind fun frame =>
  (OP_SIZES.lookup "param").bind fun param =>
  (OP_SIZES.lookup "call").bind fun call =>
  (OP_SIZES.lookup "move").bind fun move =>
  (OP_SIZES.lookup "halt").map fun halt =>
    ress + frame + param + call + (main_function.length + 1) + move + halt

/-! ## Address mapping (`mapInvokableAddresses`, `generate.cpp`) -/

/-- The structure `invocables_t` (`viua/front/asm.h` is not among the sources): the
members `generate.cpp` uses. A `std::map` is a list of pairs read with `List.lookup`. -/
structure invocables_t where
  names : List String
  signatures : List String
  bodies : List (String × List String)

/-- The loop of `mapInvokableAddresses`: `addresses[name] = starting_instruction` puts the
pair in front (a lookup finds the latest assignment), then `starting_instruction`, a
`uint16_t`, is advanced by `Program::countBytes(sources.at(name))`. `none` is the
exception thrown for a name without a body. `Program::countBytes` is not among the
sources and is a parameter. -/
def mapInvokableAddressesLoop (countBytes : List String → Nat)
    (sources : List (String × List String)) :
    List String → Nat → List (String × Nat) → Option (List (String × Nat) × Nat)
  | [], starting_instruction, addresses => some (addresses, starting_instruction)
  | name :: rest, starting_instruction, addresses =>
    match sources.lookup name with
    | none => none
    | some body =>
      mapInvokableAddressesLoop countBytes sources rest
        ((starting_instruction + countBytes body) % 2 ^ 16)
        ((name, starting_instruction) :: addresses)

/-- The function `mapInvokableAddresses(starting_instruction, names, sources)`: the map of
addresses and the new value of `starting_instruction`. -/
def mapInvokableAddresses (countBytes : List String → Nat) (starting_instruction : Nat)
    (names : List String) (sources : List (String × List String)) :
    Option (List (String × Nat) × Nat) :=
  mapInvokableAddressesLoop countBytes sources names starting_instruction []

/-- Lines 763-768 of `generate.cpp`: blocks are mapped first, functions second, with the
same running `starting_instruction`. The result is `block_addresses`,
`function_addresses` and the final `starting_instruction`. -/
def mapAddresses (countBytes : List String → Nat) (blocks functions : invocables_t) :
    Option (List (String × Nat) × List (String × Nat) × Nat) :=
  (mapInvokableAddresses countBytes 0 blocks.names blocks.bodies).bind fun b =>
  (mapInvokableAddresses countBytes b.2 functions.names functions.bodies).map fun f =>
    (b.1, f.1, f.2)

/-- The sizes of the bodies of the given names, in order. -/
def bodySizes (countBytes : List String → Nat) (sources : List (String × List String))
    (names : List String) : List Nat :=
  names.map (fun name => countBytes ((sources.lookup name).getD []))

/-- Modelled from the spec: `Program::countBytes` is not among the sources; for lines of
fixed-size instructions it is the sum of `op_size(mnemonic)` over the lines. -/
def countBytesFixed (lines : List String) : Nat :=
  (lines.map (fun l => (OP_SIZES.lookup (str.chunk l)).getD 0)).sum

/-! ## Static linking and emission (`generate`, `generate.cpp`) -/

/-- What `generate` reads from a `Loader` after `load()` (`viua/loader.h` is not among
the sources): the results of `getJumps`, `getFunctionAddresses`, `getFunctions`,
`getBytecodeSize` and `getBytecode`, with the name the module was linked under. -/
structure LoadedModule where
  name : String
  jumps : List Nat
  function_addresses : List (String × Nat)
  functions : List String
  bytecode_size : Nat
  bytecode : List Nat

/-- The variables that the loop over `links` (lines 822-852) updates. A `std::map` is a
list of pairs read with `List.lookup`; an assignment puts a pair in front. -/
structure Gathered where
  linked_libs_jumptables : List (String × List Nat)
  function_addresses : List (String × Nat)
  linked_function_names : List String
  linked_libs_bytecode : List (String × Nat × List Nat)
  bytes : Nat

/-- Lines 842-848: the loop over the functions of one module. Every address is offset
by `current_link_offset` and stored as a `uint16_t`; `none` is the `std::out_of_range` of
`fn_addresses.at(fn)`. -/
def gatherFunctions (current_link_offset : Nat) (fn_addresses : List (String × Nat)) :
    List String → List (String × Nat) → List String →
      Option (List (String × Nat) × List String)
  | [], function_addresses, linked_function_names =>
    some (function_addresses, linked_function_names)
  | fn :: rest, function_addresses, linked_function_names =>
    match fn_addresses.lookup fn with
    | none => none
    | some a =>
      gatherFunctions current_link_offset fn_addresses rest
        ((fn, (a + current_link_offset) % 2 ^ 16) :: function_addresses)
        (linked_function_names ++ [fn])

/-- Lines 822-852: the loop over `links`. `current_link_offset` is set once, before the
loop (line 814), and is not changed by it. -/
def gatherLinksLoop (current_link_offset : Nat) : List LoadedModule → Gathered → Option Gathered
  | [], g => some g
  | lnk :: rest, g =>
    match gatherFunctions current_link_offset lnk.function_addresses lnk.functions
        g.function_addresses g.linked_function_names with
    | none => none
    | some (function_addresses, linked_function_names) =>
      gatherLinksLoop current_link_offset rest
        { linked_libs_jumptables := (lnk.name, lnk.jumps) :: g.linked_libs_jumptables
          function_addresses := function_addresses
          linked_function_names := linked_function_names
          linked_libs_bytecode :=
            g.linked_libs_bytecode ++ [(lnk.name, lnk.bytecode_size, lnk.bytecode)]
          bytes := (g.bytes + lnk.bytecode_size) % 2 ^ 16 }

/-- Lines 809-852: gathering the links, from the size `bytes` of the local bytecode and
the addresses of the local functions. -/
def gatherLinks (bytes : Nat) (function_addresses : List (String × Nat))
    (links : List LoadedModule) : Option Gathered :=
  gatherLinksLoop bytes links
    { linked_libs_jumptables := []
      function_addresses := function_addresses
      linked_function_names := []
      linked_libs_bytecode := []
      bytes := bytes }

/-- Storing a 32-bit pattern at offset `p`, little-endian; a write past the end of the
modelled buffer is dropped. -/
def writeU32 (buf : List Nat) (p : Nat) (v : Nat) : List Nat :=
  (((buf.set p (v % 256)).set (p + 1) (v / 256 % 256)).set (p + 2) (v / 65536 % 256)).set
    (p + 3) (v / 16777216 % 256)

/-- Lines 1276-1283: `*((int*)(linked_bytecode+jmp)) += bytes_offset` for every entry of
the jump table of the module. -/
def adjustJumps (bytes_offset : Nat) : List Nat → List Nat → List Nat
  | [], linked_bytecode => linked_bytecode
  | jmp :: rest, linked_bytecode =>
    adjustJumps bytes_offset rest
      (writeU32 linked_bytecode jmp ((readU32 linked_bytecode jmp + bytes_offset) % 2 ^ 32))

/-- Lines 1285-1287: `program_bytecode[program_bytecode_used+i] = linked_bytecode[i]` for
`i` below `linked_size`. -/
def copyBytes (program_bytecode : List Nat) (program_bytecode_used : Nat)
    (linked_bytecode : List Nat) (linked_size : Nat) : List Nat :=
  (List.range linked_size).foldl
    (fun pb i => pb.set (program_bytecode_used + i) (byteAt linked_bytecode i)) program_bytecode

/-- Lines 1257-1289: the loop that writes the linked modules. `bytes_offset` is set once,
before the loop (line 1256), and is not changed by it. The result is the final
`program_bytecode` and `program_bytecode_used`. -/
def writeLinkedLoop (bytes_offset : Nat) (linked_libs_jumptables : List (String × List Nat)) :
    List (String × Nat × List Nat) → List Nat → Nat → List Nat × Nat
  | [], program_bytecode, program_bytecode_used => (program_bytecode, program_bytecode_used)
  | (lib_name, linked_size, linked_bytecode) :: rest, program_bytecode,
      program_bytecode_used =>
    let linked_jumptable := (linked_libs_jumptables.lookup lib_name).getD []
    let adjusted := adjustJumps bytes_offset linked_jumptable linked_bytecode
    writeLinkedLoop bytes_offset linked_libs_jumptables rest
      (copyBytes program_bytecode program_bytecode_used adjusted linked_size)
      (program_bytecode_used + linked_size)

/-- The two bytes of a `uint16_t`, little-endian. -/
def u16le (v : Nat) : List Nat :=
  [v % 256, v / 256 % 256]

/-- The bytes of a name followed by the terminating NUL. -/
def nameBytes (s : String) : List Nat :=
  s.data.map Char.toNat ++ [0]

/-- Lines 1184-1192: the entries of the function-id table for the linked functions. -/
def linkedFunctionIds (function_addresses : List (String × Nat)) (names : List String) :
    List Nat :=
  (names.map (fun name =>
    nameBytes name ++ u16le ((function_addresses.lookup name).getD 0))).flatten

/-- Line 1197: `out.write((const char*)&bytes, 16)` writes sixteen bytes starting at the
address of `bytes`: the two bytes of the `uint16_t` and the fourteen bytes that follow it
in memory, given by `adjacent`. -/
def writeBytecodeSize (bytes : Nat) (adjacent : Nat → Nat) : List Nat :=
  (List.range 16).map (fun i => if i < 2 then (u16le bytes).getD i 0 else adjacent (i - 2))

/-- Lines 1197 and 1291: what `generate` writes after the function-id table: the size
field and `bytes` bytes of `program_bytecode`. -/
def writeImage (bytes : Nat) (adjacent : Nat → Nat) (program_bytecode : List Nat) :
    List Nat :=
  writeBytecodeSize bytes adjacent ++ (List.range bytes).map (byteAt program_bytecode)

/-- Lines 1090-1097 and 1137-1142: the size written before a table of ids, a
`uint16_t`. -/
def idsSectionSize (names : List String) : Nat :=
  ((names.map String.length).sum + 2 * names.length + names.length) % 2 ^ 16

/-- A module of one byte with function `a` at address 0 and no jumps. -/
def moduleA : LoadedModule :=
  { name := "a.vlib", jumps := [], function_addresses := [("a", 0)], functions := ["a"],
    bytecode_size := 1, bytecode := [94] }

/-- A module of six bytes, a jump to offset 5 and one more instruction, with function `b`
at address 0 and the jump field at position 1 listed in its jump table. -/
def moduleB : LoadedModule :=
  { name := "b.vlib", jumps := [1], function_addresses := [("b", 0)], functions := ["b"],
    bytecode_size := 6, bytecode := [75, 5, 0, 0, 0, 94] }

/-! ## Disassembler front-end (`src/front/dis.cpp`) -/

/-- Lines 146-175 of `dis.cpp`: the lines emitted for one function, given the texts of
its decoded instructions: `.def: <name> 1`, the indented instructions, `.end`. -/
def disassembledFunction (name : String) (decoded : List String) : List String :=
  (".def: " ++ name ++ " 1") :: decoded.map (fun instruction => "    " ++ instruction) ++
    [".end"]

/-! ## The engine: values, register sets, frames (`include/viua/cpu/`) -/

/-- Modelled from the spec: the abstract `Value` of section 3.3 (`viua/types/type.h` and
the concrete types are not among the sources). A value is a tree, so `copy` is a deep
clone. -/
inductive Value
  | Integer (value : Int)
  | Boolean (value : Bool)
  | String (value : String)
  | Prototype (name : String)
  | Other (type_name : String) (text : String)
  deriving DecidableEq, Repr

/-- The flags of a register slot (section 4.2): `REFERENCE` and `KEEP`. -/
structure Mask where
  reference : Bool
  keep : Bool
  deriving DecidableEq, Repr

/-- One slot of a register set: the pointer it holds (`none` is the null pointer) and its
flags. A pointer is the index of an object in the heap of the machine. -/
structure Register where
  object : Option Nat
  mask : Mask
  deriving DecidableEq, Repr

/-- The empty mask. -/
def Mask.none : Mask := ⟨false, false⟩

/-- The mask `REFERENCE`. -/
def Mask.REFERENCE : Mask := ⟨true, false⟩

/-- The mask `KEEP`. -/
def Mask.KEEP : Mask := ⟨false, true⟩

/-- The union of two masks (`mask | filter`). -/
def Mask.or (a b : Mask) : Mask := ⟨a.reference || b.reference, a.keep || b.keep⟩

/-- An empty slot: "slots default to null". -/
def Register.empty : Register := ⟨Option.none, Mask.none⟩

/-- Modelled from the spec: the class `RegisterSet` of sections 3.4 and 4.2
(`viua/cpu/registerset.h` is not among the sources): a fixed-capacity array of slots. -/
abbrev RegisterSet := List Register

namespace RegisterSet

/-- Modelled from the spec: the constructor `RegisterSet(size)`; slots default to null. -/
def create (size : Nat) : RegisterSet :=
  List.replicate size Register.empty

/-- Modelled from the spec: `size()`. -/
def size (rs : RegisterSet) : Nat := rs.length

/-- Modelled from the spec: `at(i)`, the pointer in slot `i`, which may be null;
out-of-bounds accesses fail (section 4.2). -/
def at_ (rs : RegisterSet) (index : Nat) : Except String (Option Nat) :=
  match rs[index]? with
  | some r => .ok r.object
  | Option.none => .error "register access out of bounds: read"

/-- Modelled from the spec: `get(i)`, the object in slot `i`; out-of-bounds accesses
fail (section 4.2). Reading an empty slot fails as well (the `NullDeref` kind of
section 7): the handlers dereference the result of `get` without a test, while they test
the result of `at`. -/
def get (rs : RegisterSet) (index : Nat) : Except String Nat :=
  match rs[index]? with
  | some r =>
    match r.object with
    | some p => .ok p
    | Option.none => .error "read from null register"
  | Option.none => .error "register access out of bounds: read"

/-- Modelled from the spec: `set(i, v)` overwrites the pointer of slot `i` and leaves its
flags (freeing the previous value is not modelled: the heap only grows); out-of-bounds
accesses fail. -/
def set (rs : RegisterSet) (index : Nat) (object : Nat) : Except String RegisterSet :=
  match rs[index]? with
  | some r => .ok (List.set rs index { r with object := some object })
  | Option.none => .error "register access out of bounds: write"

/-- Modelled from the spec: `flag(i, f)` adds flags to slot `i`. -/
def flag (rs : RegisterSet) (index : Nat) (filter : Mask) : Except String RegisterSet :=
  match rs[index]? with
  | some r => .ok (List.set rs index { r with mask := r.mask.or filter })
  | Option.none => .error "register access out of bounds: mask_enable"

/-- Modelled from the spec: `clear(i)` removes all flags of slot `i`. -/
def clear (rs : RegisterSet) (index : Nat) : Except String RegisterSet :=
  match rs[index]? with
  | some r => .ok (List.set rs index { r with mask := Mask.none })
  | Option.none => .error "register access out of bounds: mask_clear"

/-- Modelled from the spec: `isflagged(i, REFERENCE)`. -/
def isReference (rs : RegisterSet) (index : Nat) : Except String Bool :=
  match rs[index]? with
  | some r => .ok r.mask.reference
  | Option.none => .error "register access out of bounds: mask_isenabled"

/-- Modelled from the spec: `getmask(i)`. -/
def getmask (rs : RegisterSet) (index : Nat) : Except String Mask :=
  match rs[index]? with
  | some r => .ok r.mask
  | Option.none => .error "register access out of bounds: mask_get"

/-- Modelled from the spec: `setmask(i, mask)` replaces the flags of slot `i`. -/
def setmask (rs : RegisterSet) (index : Nat) (mask : Mask) : Except String RegisterSet :=
  match rs[index]? with
  | some r => .ok (List.set rs index { r with mask := mask })
  | Option.none => .error "register access out of bounds: mask_set"

/-- Modelled from the spec: `move(a, b)`: slot `b` receives the value of `a`, slot `a`
becomes null (section 4.2). -/
def move (rs : RegisterSet) (a b : Nat) : Except String RegisterSet :=
  match rs[a]?, rs[b]? with
  | some ra, some rb =>
    .ok (List.set (List.set rs b { rb with object := ra.object }) a
      { ra with object := Option.none })
  | _, _ => .error "register access out of bounds: move"

/-- Modelled from the spec: `swap(a, b)` swaps values and flags (section 4.2). -/
def swap (rs : RegisterSet) (a b : Nat) : Except String RegisterSet :=
  match rs[a]?, rs[b]? with
  | some ra, some rb => .ok (List.set (List.set rs a rb) b ra)
  | _, _ => .error "register access out of bounds: swap"

end RegisterSet

/-- The class `Frame` (`frame.h`); `return_address` is an offset into the bytecode. -/
structure Frame where
  return_address : Nat
  args : RegisterSet
  regset : RegisterSet
  place_return_value_in : Int
  resolve_return_value_register : Bool
  function_name : String
  deriving DecidableEq, Repr

/-- The constructor `Frame(ra, argsize, regsize)`. -/
def Frame.create (ra : Nat) (argsize regsize : Nat) : Frame :=
  { return_address := ra, args := RegisterSet.create argsize,
    regset := RegisterSet.create regsize, place_return_value_in := 0,
    resolve_return_value_register := false, function_name := "" }

/-- Modelled from the spec: the class `TryFrame` of section 3.6 (`tryframe.h` is not
among the sources); `associated_frame` is the depth of the call stack at `TRY`, a catcher
is the pair of a type name and the address of its block. -/
structure TryFrame where
  return_address : Nat
  associated_frame : Nat
  block_name : String
  catchers : List (String × String × Nat)
  deriving DecidableEq, Repr

/-- Which register set the pointer `uregset` designates: the global one, the local one of
the top frame, the static one of a function, or no register set (the null pointer). -/
inductive RegisterSetId
  | globalSet
  | localSet
  | staticSet (function_name : String)
  | null
  deriving DecidableEq, Repr

/-- The constant `MAX_STACK_SIZE` of `cpu.h`. -/
def MAX_STACK_SIZE : Nat := 8192

/-- The state of the class `CPU` (`cpu.h`) that the handlers of `general.cpp` use. A
pointer to bytecode is an offset from `bytecode`; `heap` holds the objects that `Type*`
pointers designate; `frames` has its top frame last. -/
structure CPU where
  bytecode : List Nat
  heap : List Value
  regset : RegisterSet
  uregset : RegisterSetId
  tmp : Option Nat
  static_registers : List (String × RegisterSet)
  frames : List Frame
  frame_new : Option Frame
  tryframes : List TryFrame
  try_frame_new : Option TryFrame
  function_addresses : List (String × Nat)
  block_addresses : List (String × Nat)
  thrown : Option Nat
  caught : Option Nat
  deriving DecidableEq, Repr

/-- How a handler ends: it returns the next instruction pointer (an offset from
`bytecode`) or throws; `before d` is a returned pointer that lies `d` bytes before
`bytecode`, which only `CPU::jump` can produce. -/
inductive Outcome
  | next (addr : Nat)
  | raised (what : String)
  | before (distance : Nat)
  deriving DecidableEq, Repr

/-- The result of a handler: the state it leaves (also when it throws) and its outcome. -/
structure Step where
  cpu : CPU
  outcome : Outcome
  deriving DecidableEq, Repr

namespace CPU

/-- The register set `uregset` points at. -/
def current (cpu : CPU) : Option RegisterSet :=
  match cpu.uregset with
  | .globalSet => some cpu.regset
  | .localSet => cpu.frames.getLast?.map (fun f => f.regset)
  | .staticSet name => cpu.static_registers.lookup name
  | .null => Option.none

/-- Storing a new content into the register set `uregset` points at. -/
def setCurrent (cpu : CPU) (rs : RegisterSet) : CPU :=
  match cpu.uregset with
  | .globalSet => { cpu with regset := rs }
  | .localSet =>
    match cpu.frames.getLast? with
    | some f => { cpu with frames := cpu.frames.dropLast ++ [{ f with regset := rs }] }
    | Option.none => cpu
  | .staticSet name =>
    { cpu with static_registers :=
        cpu.static_registers.map (fun p => if p.1 = name then (name, rs) else p) }
  | .null => cpu

/-- An `int` converted to the `unsigned` index of a register. -/
def index (i : Int) : Nat := toUnsigned32 i

/-- Modelled from the spec: `CPU::fetch(index)` (`cpu.cpp` is not among the sources): the
object in slot `index` of the current register set. -/
def fetch (cpu : CPU) (i : Int) : Except String Nat :=
  match cpu.current with
  | some rs => RegisterSet.get rs (index i)
  | Option.none => .error "null register set"

/-- Modelled from the spec: `CPU::place(index, object)` (`cpu.cpp` is not among the
sources): the object is put into slot `index` of the current register set. -/
def place (cpu : CPU) (i : Int) (object : Nat) : Except String CPU :=
  match cpu.current with
  | some rs => (RegisterSet.set rs (index i) object).map cpu.setCurrent
  | Option.none => .error "null register set"

/-- The expression `static_cast<Integer*>(fetch(reg))->value()`; the cast of an object
that is not an `Integer` is undefined in the source and fails here. -/
def fetchInteger (cpu : CPU) (reg : Int) : Except String Int :=
  match cpu.fetch reg with
  | .ok p =>
    match cpu.heap[p]? with
    | some (Value.Integer v) => .ok v
    | _ => .error "object is not an Integer"
  | .error e => .error e

/-- Section 4.4.2: a register operand; with the reference flag the index is read from
the `Integer` in the register. -/
def operand (cpu : CPU) (ref : Bool) (reg : Int) : Except String Int :=
  if ref then cpu.fetchInteger reg else .ok reg

/-- The call `->copy()` on the object `p`: a new object with the same value. The result
is the new heap and the pointer to the copy. -/
def copyObject (cpu : CPU) (p : Nat) : Except String (CPU × Nat) :=
  match cpu.heap[p]? with
  | some v => .ok ({ cpu with heap := cpu.heap ++ [v] }, cpu.heap.length)
  | Option.none => .error "invalid pointer"

/-- The expression `new T(...)`: a new object. -/
def newObject (cpu : CPU) (v : Value) : CPU × Nat :=
  ({ cpu with heap := cpu.heap ++ [v] }, cpu.heap.length)

/-- Modelled from the spec: `CPU::dropFrame()` (`cpu.cpp` is not among the sources): the
top frame is popped and destroyed; the current register set becomes the local one of the
new top frame, or the global one when no frame is left. -/
def dropFrame (cpu : CPU) : CPU :=
  { cpu with frames := cpu.frames.dropLast,
             uregset := if cpu.frames.dropLast.length ≠ 0 then .localSet else .globalSet }

/-- Modelled from the spec: `CPU::pushFrame()` (`cpu.cpp` is not among the sources):
`frame_new` is pushed, the slot is cleared and the current register set becomes the local
one of the new frame; pushing beyond `MAX_STACK_SIZE` fails (section 4.3). -/
def pushFrame (cpu : CPU) : Except String CPU :=
  match cpu.frame_new with
  | Option.none => .error "no frame to push"
  | some f =>
    if cpu.frames.length ≥ MAX_STACK_SIZE then .error "stack size exceeded"
    else .ok { cpu with frames := cpu.frames ++ [f], frame_new := Option.none, uregset := .localSet }

/-- Modelled from the spec: `CPU::requestNewFrame(a, r)` (`cpu.cpp` is not among the
sources): "allocate a pending frame with `a` argument slots and `r` local registers; fail
if `frame_new` is already populated". -/
def requestNewFrame (cpu : CPU) (arguments local_registers : Int) : Except String CPU :=
  match cpu.frame_new with
  | some _ => .error "requested new frame while last one is unused"
  | Option.none =>
    let frame := Frame.create 0 (index arguments) (index local_registers)
    .ok { cpu with frame_new := some frame }

end CPU

/-! ## The handlers of `src/cpu/instr/general.cpp` -/

namespace CPU

/-- The size `sizeof(bool) + sizeof(int)` of a register operand. -/
def operandSize : Nat := sizeof_bool + sizeof_int

/-- The flag and the index of the register operand stored at `addr`. -/
def readOperand (cpu : CPU) (addr : Nat) : Bool × Int :=
  (readBool cpu.bytecode addr, readInt cpu.bytecode (addr + sizeof_bool))

/-- The C string stored at `addr`. -/
def readString (cpu : CPU) (addr : Nat) : String :=
  text (cstring cpu.bytecode addr)

/-- The two resolved operands of a two-operand handler: `a` is resolved first, then
`b`. -/
def resolve2 (cpu : CPU) (a b : Bool × Int) : Except String (Int × Int) :=
  match cpu.operand a.1 a.2 with
  | .error e => .error e
  | .ok ra =>
    match cpu.operand b.1 b.2 with
    | .error e => .error e
    | .ok rb => .ok (ra, rb)

/-- The body of `CPU::move` for given operands: `uregset->move(a, b)`. -/
def moveWith (cpu : CPU) (a b : Bool × Int) (next : Nat) : Step :=
  match cpu.resolve2 a b with
  | .error e => ⟨cpu, .raised e⟩
  | .ok (ra, rb) =>
    match cpu.current with
    | Option.none => ⟨cpu, .raised "null register set"⟩
    | some rs =>
      match RegisterSet.move rs (index ra) (index rb) with
      | .error e => ⟨cpu, .raised e⟩
      | .ok rs2 => ⟨cpu.setCurrent rs2, .next next⟩

/-- The handler `CPU::move`. -/
def move (cpu : CPU) (addr : Nat) : Step :=
  cpu.moveWith (cpu.readOperand addr) (cpu.readOperand (addr + operandSize))
    (addr + 2 * operandSize)

/-- The body of `CPU::copy` for given operands: `place(b, fetch(a)->copy())`. -/
def copyWith (cpu : CPU) (a b : Bool × Int) (next : Nat) : Step :=
  match cpu.resolve2 a b with
  | .error e => ⟨cpu, .raised e⟩
  | .ok (ra, rb) =>
    match cpu.fetch ra with
    | .error e => ⟨cpu, .raised e⟩
    | .ok p =>
      match cpu.copyObject p with
      | .error e => ⟨cpu, .raised e⟩
      | .ok (cpu1, q) =>
        match cpu1.place rb q with
        | .error e => ⟨cpu1, .raised e⟩
        | .ok cpu2 => ⟨cpu2, .next next⟩

/-- The handler `CPU::copy`. -/
def copy (cpu : CPU) (addr : Nat) : Step :=
  cpu.copyWith (cpu.readOperand addr) (cpu.readOperand (addr + operandSize))
    (addr + 2 * operandSize)

/-- The body of `CPU::ref` for given operands: `uregset->set(b, uregset->get(a))`, then
`uregset->flag(b, REFERENCE)`. -/
def refWith (cpu : CPU) (a b : Bool × Int) (next : Nat) : Step :=
  match cpu.resolve2 a b with
  | .error e => ⟨cpu, .raised e⟩
  | .ok (ra, rb) =>
    match cpu.current with
    | Option.none => ⟨cpu, .raised "null register set"⟩
    | some rs =>
      match RegisterSet.get rs (index ra) with
      | .error e => ⟨cpu, .raised e⟩
      | .ok p =>
        match RegisterSet.set rs (index rb) p with
        | .error e => ⟨cpu, .raised e⟩
        | .ok rs1 =>
          match RegisterSet.flag rs1 (index rb) Mask.REFERENCE with
          | .error e => ⟨cpu.setCurrent rs1, .raised e⟩
          | .ok rs2 => ⟨cpu.setCurrent rs2, .next next⟩

/-- The handler `CPU::ref`. -/
def ref (cpu : CPU) (addr : Nat) : Step :=
  cpu.refWith (cpu.readOperand addr) (cpu.readOperand (addr + operandSize))
    (addr + 2 * operandSize)

/-- The body of `CPU::swap` for given operands: `uregset->swap(a, b)`. -/
def swapWith (cpu : CPU) (a b : Bool × Int) (next : Nat) : Step :=
  match cpu.resolve2 a b with
  | .error e => ⟨cpu, .raised e⟩
  | .ok (ra, rb) =>
    match cpu.current with
    | Option.none => ⟨cpu, .raised "null register set"⟩
    | some rs =>
      match RegisterSet.swap rs (index ra) (index rb) with
      | .error e => ⟨cpu, .raised e⟩
      | .ok rs2 => ⟨cpu.setCurrent rs2, .next next⟩

/-- The handler `CPU::swap`. -/
def swap (cpu : CPU) (addr : Nat) : Step :=
  cpu.swapWith (cpu.readOperand addr) (cpu.readOperand (addr + operandSize))
    (addr + 2 * operandSize)

/-- The body of `CPU::isnull` for given operands:
`place(b, new Boolean(uregset->at(a) == 0))`. -/
def isnullWith (cpu : CPU) (a b : Bool × Int) (next : Nat) : Step :=
  match cpu.resolve2 a b with
  | .error e => ⟨cpu, .raised e⟩
  | .ok (ra, rb) =>
    match cpu.current with
    | Option.none => ⟨cpu, .raised "null register set"⟩
    | some rs =>
      match RegisterSet.at_ rs (index ra) with
      | .error e => ⟨cpu, .raised e⟩
      | .ok o =>
        match (cpu.newObject (Value.Boolean o.isNone)).1.place rb
            (cpu.newObject (Value.Boolean o.isNone)).2 with
        | .error e => ⟨(cpu.newObject (Value.Boolean o.isNone)).1, .raised e⟩
        | .ok cpu2 => ⟨cpu2, .next next⟩

/-- The handler `CPU::isnull`. -/
def isnull (cpu : CPU) (addr : Nat) : Step :=
  cpu.isnullWith (cpu.readOperand addr) (cpu.readOperand (addr + operandSize))
    (addr + 2 * operandSize)

/-- Modelled from the spec: `CPU::ensureStaticRegisters(name)` (`cpu.cpp` is not among
the sources): the static register set of a function is created on first use, with the
default capacity 16 of a local register set. -/
def ensureStaticRegisters (cpu : CPU) (function_name : String) : CPU :=
  match cpu.static_registers.lookup function_name with
  | some _ => cpu
  | Option.none =>
    { cpu with static_registers :=
        cpu.static_registers ++ [(function_name, RegisterSet.create 16)] }

/-- The handler `CPU::ress`. With an empty call stack `frames.back()` is undefined in the
source and fails here. -/
def ress (cpu : CPU) (addr : Nat) : Step :=
  let to_register_set := readInt cpu.bytecode addr
  if to_register_set = 0 then ⟨{ cpu with uregset := .globalSet }, .next (addr + sizeof_int)⟩
  else if to_register_set = 1 then
    match cpu.frames.getLast? with
    | Option.none => ⟨cpu, .raised "no frame on stack"⟩
    | some _ => ⟨{ cpu with uregset := .localSet }, .next (addr + sizeof_int)⟩
  else if to_register_set = 2 then
    match cpu.frames.getLast? with
    | Option.none => ⟨cpu, .raised "no frame on stack"⟩
    | some f =>
      ⟨{ cpu.ensureStaticRegisters f.function_name with
          uregset := .staticSet f.function_name }, .next (addr + sizeof_int)⟩
  else ⟨cpu, .raised "illegal register set ID in ress instruction"⟩

/-- The handler `CPU::frame`. -/
def frame (cpu : CPU) (addr : Nat) : Step :=
  match cpu.resolve2 (cpu.readOperand addr) (cpu.readOperand (addr + operandSize)) with
  | .error e => ⟨cpu, .raised e⟩
  | .ok (arguments, local_registers) =>
    match cpu.requestNewFrame arguments local_registers with
    | .error e => ⟨cpu, .raised e⟩
    | .ok cpu1 => ⟨cpu1, .next (addr + 2 * operandSize)⟩

/-- The message of `CPU::param` and `CPU::paref` for an index beyond the arguments. -/
def paramOutOfBounds : String :=
  "parameter register index out of bounds (greater than arguments set size) while adding parameter"

/-- The body of `CPU::param` for given operands. A null `frame_new` is dereferenced in the
source and fails here. -/
def paramWith (cpu : CPU) (a b : Bool × Int) (next : Nat) : Step :=
  match cpu.resolve2 a b with
  | .error e => ⟨cpu, .raised e⟩
  | .ok (ra, rb) =>
    match cpu.frame_new with
    | Option.none => ⟨cpu, .raised "null frame"⟩
    | some f =>
      if index ra ≥ RegisterSet.size f.args then ⟨cpu, .raised paramOutOfBounds⟩
      else
        match cpu.fetch rb with
        | .error e => ⟨cpu, .raised e⟩
        | .ok p =>
          match cpu.copyObject p with
          | .error e => ⟨cpu, .raised e⟩
          | .ok (cpu1, q) =>
            match RegisterSet.set f.args (index ra) q with
            | .error e => ⟨cpu1, .raised e⟩
            | .ok args1 =>
              match RegisterSet.clear args1 (index ra) with
              | .error e => ⟨{ cpu1 with frame_new := some { f with args := args1 } }, .raised e⟩
              | .ok args2 =>
                ⟨{ cpu1 with frame_new := some { f with args := args2 } }, .next next⟩

/-- The handler `CPU::param`. -/
def param (cpu : CPU) (addr : Nat) : Step :=
  cpu.paramWith (cpu.readOperand addr) (cpu.readOperand (addr + operandSize))
    (addr + 2 * operandSize)

/-- The body of `CPU::paref` for given operands. -/
def parefWith (cpu : CPU) (a b : Bool × Int) (next : Nat) : Step :=
  match cpu.resolve2 a b with
  | .error e => ⟨cpu, .raised e⟩
  | .ok (ra, rb) =>
    match cpu.frame_new with
    | Option.none => ⟨cpu, .raised "null frame"⟩
    | some f =>
      if index ra ≥ RegisterSet.size f.args then ⟨cpu, .raised paramOutOfBounds⟩
      else
        match cpu.fetch rb with
        | .error e => ⟨cpu, .raised e⟩
        | .ok p =>
          match RegisterSet.set f.args (index ra) p with
          | .error e => ⟨cpu, .raised e⟩
          | .ok args1 =>
            match RegisterSet.flag args1 (index ra) Mask.REFERENCE with
            | .error e => ⟨{ cpu with frame_new := some { f with args := args1 } }, .raised e⟩
            | .ok args2 =>
              ⟨{ cpu with frame_new := some { f with args := args2 } }, .next next⟩

/-- The handler `CPU::paref`. -/
def paref (cpu : CPU) (addr : Nat) : Step :=
  cpu.parefWith (cpu.readOperand addr) (cpu.readOperand (addr + operandSize))
    (addr + 2 * operandSize)

end CPU

namespace CPU

/-- The handler `CPU::arg`. With an empty call stack `frames.back()` is undefined in the
source and fails here. -/
def arg (cpu : CPU) (addr : Nat) : Step :=
  match cpu.resolve2 (cpu.readOperand addr) (cpu.readOperand (addr + operandSize)) with
  | .error e => ⟨cpu, .raised e⟩
  | .ok (a, b) =>
    match cpu.frames.getLast? with
    | Option.none => ⟨cpu, .raised "no frame on stack"⟩
    | some f =>
      if index a ≥ RegisterSet.size f.args then
        ⟨cpu, .raised ("invalid read: read from argument register out of bounds: " ++
          toString a)⟩
      else
        match RegisterSet.isReference f.args (index a), RegisterSet.get f.args (index a),
            RegisterSet.getmask f.args (index a), cpu.current with
        | .ok isref, .ok p, .ok mask, some _ =>
          match (if isref then .ok (cpu, p) else cpu.copyObject p) with
          | .error e => ⟨cpu, .raised e⟩
          | .ok (cpu1, q) =>
            match cpu1.current with
            | Option.none => ⟨cpu1, .raised "null register set"⟩
            | some rs1 =>
              match RegisterSet.set rs1 (index b) q with
              | .error e => ⟨cpu1, .raised e⟩
              | .ok rs2 =>
                match RegisterSet.setmask rs2 (index b) mask with
                | .error e => ⟨cpu1.setCurrent rs2, .raised e⟩
                | .ok rs3 => ⟨cpu1.setCurrent rs3, .next (addr + 2 * operandSize)⟩
        | .error e, _, _, _ => ⟨cpu, .raised e⟩
        | _, .error e, _, _ => ⟨cpu, .raised e⟩
        | _, _, .error e, _ => ⟨cpu, .raised e⟩
        | _, _, _, Option.none => ⟨cpu, .raised "null register set"⟩

/-- The message of `CPU::call` for a call without a pending frame. -/
def callWithoutFrame : String :=
  "function call without a frame: use `frame 0' in source code if the function takes no parameters"

/-- The handler `CPU::call`. It reads the name at `addr` first and the register operand
after the terminating NUL of the name. -/
def call (cpu : CPU) (addr : Nat) : Step :=
  let call_name := cpu.readString addr
  match cpu.function_addresses.lookup call_name with
  | Option.none => ⟨cpu, .raised "std::out_of_range"⟩
  | some call_address =>
    let addr1 := addr + (call_name.length + 1)
    let return_address := addr1 + sizeof_bool + sizeof_int
    match cpu.frame_new with
    | Option.none => ⟨cpu, .raised callWithoutFrame⟩
    | some f =>
      let f1 : Frame :=
        { f with function_name := call_name, return_address := return_address,
                 resolve_return_value_register := readBool cpu.bytecode addr1,
                 place_return_value_in := readInt cpu.bytecode (addr1 + sizeof_bool) }
      let cpu1 := { cpu with frame_new := some f1 }
      match cpu1.pushFrame with
      | .error e => ⟨cpu1, .raised e⟩
      | .ok cpu2 => ⟨cpu2, .next call_address⟩

/-- Lines 470-481 of `general.cpp`: the value `END` returns to the caller, read from
register 0 of the current register set: the pointer to return, whether it is a
reference, and the machine (grown by the copy when one is made). -/
def returnedValue (cpu : CPU) : Except String (CPU × Nat × Bool) :=
  match cpu.current with
  | Option.none => .error "null register set"
  | some rs =>
    match RegisterSet.at_ rs 0 with
    | .error e => .error e
    | .ok Option.none =>
      .error "return value requested by frame but function did not set return register"
    | .ok (some p) =>
      match RegisterSet.isReference rs 0 with
      | .error e => .error e
      | .ok true => .ok (cpu, p, true)
      | .ok false => (cpu.copyObject p).map (fun r => (r.1, r.2, false))

/-- Lines 485-494 of `general.cpp`: placing the returned value in the register set that
is current after the frame was dropped. -/
def placeReturned (cpu : CPU) (return_value_register : Int)
    (resolve_return_value_register : Bool) (returned : Nat) (returned_is_reference : Bool) :
    CPU × Except String Unit :=
  match cpu.operand resolve_return_value_register return_value_register with
  | .error e => (cpu, .error e)
  | .ok r =>
    match cpu.place r returned with
    | .error e => (cpu, .error e)
    | .ok cpu1 =>
      if returned_is_reference then
        match cpu1.current with
        | Option.none => (cpu1, .error "null register set")
        | some rs =>
          match RegisterSet.flag rs (index r) Mask.REFERENCE with
          | .error e => (cpu1, .error e)
          | .ok rs1 => (cpu1.setCurrent rs1, .ok ())
      else (cpu1, .ok ())

/-- The handler `CPU::end`. -/
def end_ (cpu : CPU) (_addr : Nat) : Step :=
  match cpu.frames.getLast? with
  | Option.none => ⟨cpu, .raised "no frame on stack: nothing to end"⟩
  | some top =>
    if top.place_return_value_in ≠ 0 then
      match cpu.returnedValue with
      | .error e => ⟨cpu, .raised e⟩
      | .ok (cpu1, returned, returned_is_reference) =>
        let cpu2 := cpu1.dropFrame
        if cpu2.frames.length > 0 then
          match cpu2.placeReturned top.place_return_value_in
              top.resolve_return_value_register returned returned_is_reference with
          | (cpu3, .error e) => ⟨cpu3, .raised e⟩
          | (cpu3, .ok _) => ⟨cpu3, .next top.return_address⟩
        else ⟨cpu2, .next top.return_address⟩
    else ⟨cpu.dropFrame, .next top.return_address⟩

/-- The handler `CPU::jump`; `addr` is the address of the operand. There is no test of the
sign: for a negative target the pointer `bytecode + target` lies before the bytecode,
differs from `addr`, and is returned. -/
def jump (cpu : CPU) (addr : Nat) : Step :=
  let target := readInt cpu.bytecode addr
  if target < 0 then ⟨cpu, .before (-target).toNat⟩
  else if target.toNat = addr then
    ⟨cpu, .raised "aborting: JUMP instruction pointing to itself"⟩
  else ⟨cpu, .next target.toNat⟩

/-- The handler `CPU::tryframe`. -/
def tryframe (cpu : CPU) (addr : Nat) : Step :=
  match cpu.try_frame_new with
  | some _ => ⟨cpu, .raised "new block frame requested while last one is unused"⟩
  | Option.none => ⟨{ cpu with try_frame_new := some ⟨0, 0, "", []⟩ }, .next addr⟩

/-- The handler `CPU::vmcatch`. A null `try_frame_new` is dereferenced in the source and
fails here. -/
def vmcatch (cpu : CPU) (addr : Nat) : Step :=
  let type_name := cpu.readString addr
  let addr1 := addr + (type_name.length + 1)
  let catcher_block_name := cpu.readString addr1
  let addr2 := addr1 + (catcher_block_name.length + 1)
  match cpu.block_addresses.lookup catcher_block_name, cpu.try_frame_new with
  | Option.none, _ => ⟨cpu, .raised "std::out_of_range"⟩
  | some _, Option.none => ⟨cpu, .raised "null try frame"⟩
  | some a, some t =>
    let t1 : TryFrame :=
      { t with catchers := (type_name, catcher_block_name, a) :: t.catchers }
    ⟨{ cpu with try_frame_new := some t1 }, .next addr2⟩

/-- The handler `CPU::pull`. -/
def pull (cpu : CPU) (addr : Nat) : Step :=
  match cpu.operand (cpu.readOperand addr).1 (cpu.readOperand addr).2 with
  | .error e => ⟨cpu, .raised e⟩
  | .ok a =>
    match cpu.caught with
    | Option.none => ⟨cpu, .raised "no caught object to pull"⟩
    | some c =>
      match cpu.current with
      | Option.none => ⟨cpu, .raised "null register set"⟩
      | some rs =>
        match RegisterSet.set rs (index a) c with
        | .error e => ⟨cpu, .raised e⟩
        | .ok rs1 => ⟨{ cpu.setCurrent rs1 with caught := Option.none }, .next (addr + operandSize)⟩

/-- The handler `CPU::vmtry`; `addr` is the address of the block name. A null
`try_frame_new` is dereferenced in the source and fails here. -/
def vmtry (cpu : CPU) (addr : Nat) : Step :=
  let block_name := cpu.readString addr
  match cpu.block_addresses.lookup block_name, cpu.try_frame_new with
  | Option.none, _ => ⟨cpu, .raised "std::out_of_range"⟩
  | some _, Option.none => ⟨cpu, .raised "null try frame"⟩
  | some block_address, some t =>
    let t1 : TryFrame :=
      { t with return_address := addr + block_name.length,
               associated_frame := cpu.frames.length, block_name := block_name }
    ⟨{ cpu with tryframes := cpu.tryframes ++ [t1], try_frame_new := Option.none },
      .next block_address⟩

/-- The handler `CPU::vmthrow`. -/
def vmthrow (cpu : CPU) (addr : Nat) : Step :=
  match cpu.operand (cpu.readOperand addr).1 (cpu.readOperand addr).2 with
  | .error e => ⟨cpu, .raised e⟩
  | .ok a =>
    match cpu.current with
    | Option.none => ⟨cpu, .raised "null register set"⟩
    | some rs =>
      if index a ≥ RegisterSet.size rs then
        ⟨cpu, .raised ("invalid read: register out of bounds: " ++ toString a)⟩
      else
        match RegisterSet.at_ rs (index a) with
        | .error e => ⟨cpu, .raised e⟩
        | .ok Option.none =>
          ⟨cpu, .raised ("invalid throw: register " ++ toString a ++ " is empty")⟩
        | .ok (some p) =>
          match RegisterSet.setmask rs (index a) Mask.KEEP with
          | .error e => ⟨cpu, .raised e⟩
          | .ok rs1 => ⟨{ cpu.setCurrent rs1 with thrown := some p }, .next (addr + operandSize)⟩

/-- The handler `CPU::leave`. -/
def leave (cpu : CPU) (_addr : Nat) : Step :=
  match cpu.tryframes.getLast? with
  | Option.none => ⟨cpu, .raised "bad leave: no block has been entered"⟩
  | some t => ⟨{ cpu with tryframes := cpu.tryframes.dropLast }, .next t.return_address⟩

end CPU

/-! ### Sample machine states -/

/-- A heap with the objects `Integer 42` (pointer 0) and `Integer 2` (pointer 1). -/
def sampleHeap : List Value := [Value.Integer 42, Value.Integer 2]

/-- A caller frame with four empty local registers. -/
def sampleCaller : Frame :=
  { return_address := 0, args := [], regset := RegisterSet.create 4,
    place_return_value_in := 0, resolve_return_value_register := false,
    function_name := "main" }

/-- A callee frame of function `f`, called from address 70, whose register 0 holds the
object at pointer 0; `ret` is the register the caller wants the return value in. -/
def sampleCallee (ret : Int) (reference : Bool) : Frame :=
  { return_address := 70, args := [],
    regset := [⟨some 0, ⟨reference, false⟩⟩, Register.empty],
    place_return_value_in := ret, resolve_return_value_register := false,
    function_name := "f" }

/-- A machine with the given call stack and pending frame, running on local registers. -/
def sampleCPU (frames : List Frame) (frame_new : Option Frame) : CPU :=
  { bytecode := [], heap := sampleHeap, regset := RegisterSet.create 8,
    uregset := if frames.length ≠ 0 then .localSet else .globalSet, tmp := Option.none,
    static_registers := [], frames := frames, frame_new := frame_new, tryframes := [],
    try_frame_new := Option.none, function_addresses := [("f", 40), ("main", 0)],
    block_addresses := [("handler", 10)], thrown := Option.none, caught := Option.none }

/-! ### The state `END` leaves -/

/-- The frame of the caller after the returned object was put into slot `i`: the pointer
of the slot is replaced; `REFERENCE` is added to its flags when the value is returned by
reference. -/
def Frame.deposit (caller : Frame) (i : Nat) (object : Nat) (old : Register)
    (reference : Bool) : Frame :=
  let slot : Register :=
    ⟨some object, if reference then old.mask.or Mask.REFERENCE else old.mask⟩
  { caller with regset := List.set caller.regset i slot }

/-- The machine with another heap and call stack, running on the local registers of the
top frame. -/
def CPU.returnedTo (cpu : CPU) (heap : List Value) (frames : List Frame) : CPU :=
  { cpu with heap := heap, frames := frames, uregset := .localSet }

/-- The instruction `call 1 f` without its opcode byte, encoded as section 4.1
prescribes: the register operand, then the name and its NUL. -/
def callRegisterFirst : List Nat := [0, 1, 0, 0, 0, 102, 0]

/-- The same instruction with the name first and the register operand after it, the
layout `CPU::call` reads. -/
def callNameFirst : List Nat := [102, 0, 0, 1, 0, 0, 0]

/-- A pending frame with two argument slots and four local registers. -/
def samplePending : Frame := Frame.create 0 2 4

/-- The sample machine with a bytecode. -/
def sampleCPUWith (bytecode : List Nat) (frames : List Frame) (frame_new : Option Frame) :
    CPU :=
  { sampleCPU frames frame_new with bytecode := bytecode }

/-! ### The state `PARAM` and `PAREF` leave -/

/-- The operand bytes of an instruction with two direct register operands `a` and `b`
below 256. -/
def twoOperands (a b : Nat) : List Nat := [0, a, 0, 0, 0, 0, b, 0, 0, 0]

/-- A callee frame of function `f` with two local registers and the argument set
`args`. -/
def sampleCalleeWith (args : RegisterSet) : Frame :=
  { return_address := 70, args := args, regset := RegisterSet.create 2,
    place_return_value_in := 0, resolve_return_value_register := false,
    function_name := "f" }

/-- The machine with another heap. -/
def CPU.withHeap (cpu : CPU) (heap : List Value) : CPU :=
  { cpu with heap := heap }

/-- The operand bytes of an instruction with one direct register operand below 256. -/
def oneOperand (a : Nat) : List Nat := [0, a, 0, 0, 0]

/-- The machine with another content of `thrown`. -/
def CPU.withThrown (cpu : CPU) (thrown : Option Nat) : CPU :=
  { cpu with thrown := thrown }

/-- The machine with another content of `caught`. -/
def CPU.withCaught (cpu : CPU) (caught : Option Nat) : CPU :=
  { cpu with caught := caught }

/-- The bytes of `try handler` placed at address 0, followed by one byte of the next
instruction: the opcode byte (the handler does not read it; written 0 here), the name
`handler` and its NUL. -/
def tryHandler : List Nat := [0, 104, 97, 110, 100, 108, 101, 114, 0, 0]

/-- A machine about to run `try handler`: a try-frame is pending. -/
def sampleTry : CPU :=
  { sampleCPUWith tryHandler [sampleCaller] Option.none with
      try_frame_new := some ⟨0, 0, "", []⟩ }

/-- The bytes of a `jump` placed at address `p` with the target `target`, after `p` bytes
of other instructions (written 0): the opcode byte (not read by the handler; written 0)
and the target. -/
def jumpAt (p target : Nat) : List Nat := List.replicate p 0 ++ [0] ++ le32 target

/-- The operand bytes of `ress` with the given register set ID below 256. -/
def ressOperand (id : Nat) : List Nat := [id, 0, 0, 0]

/-- A frame whose register 0 holds `Integer 2` (pointer 1 of the sample heap) and whose
register 2 holds `Integer 42` (pointer 0); registers 1 and 3 are empty. -/
def sampleIndirect : Frame :=
  { return_address := 70, args := [],
    regset := [⟨some 1, Mask.none⟩, Register.empty, ⟨some 0, Mask.none⟩, Register.empty],
    place_return_value_in := 0, resolve_return_value_register := false,
    function_name := "f" }

/-! ### More handlers of `general.cpp` and `prototype.cpp` -/

/-- Modelled from the spec: `empty(i)` of the register set (section 3.4): the slot becomes
null as slots are by default, the object is not released; out-of-bounds accesses fail. -/
def RegisterSet.empty (rs : RegisterSet) (index : Nat) : Except String RegisterSet :=
  match rs[index]? with
  | some _ => .ok (List.set rs index Register.empty)
  | Option.none => .error "register access out of bounds: empty"

/-- Modelled from the spec: `free(i)` of the register set (section 3.4): the value of the
slot is released and the slot becomes null as slots are by default (releasing the object
is not modelled: the heap only grows); out-of-bounds accesses fail. -/
def RegisterSet.free (rs : RegisterSet) (index : Nat) : Except String RegisterSet :=
  match rs[index]? with
  | some _ => .ok (List.set rs index Register.empty)
  | Option.none => .error "register access out of bounds: free"

/-- Modelled from the spec: `set(i, v)` with a pointer `v` that may be null. -/
def RegisterSet.setPointer (rs : RegisterSet) (index : Nat) (object : Option Nat) :
    Except String RegisterSet :=
  match rs[index]? with
  | some r => .ok (List.set rs index { r with object := object })
  | Option.none => .error "register access out of bounds: write"

namespace CPU

/-- The handler `CPU::echo`; the text written to `cout` is not part of the state of the
machine. -/
def echo (cpu : CPU) (addr : Nat) : Step :=
  match cpu.operand (cpu.readOperand addr).1 (cpu.readOperand addr).2 with
  | .error e => ⟨cpu, .raised e⟩
  | .ok reg =>
    match cpu.fetch reg with
    | .error e => ⟨cpu, .raised e⟩
    | .ok _ => ⟨cpu, .next (addr + operandSize)⟩

/-- The handler `CPU::print`: `echo`, then a newline on `cout`. -/
def print (cpu : CPU) (addr : Nat) : Step :=
  cpu.echo addr

/-- The handler `CPU::free`. -/
def free (cpu : CPU) (addr : Nat) : Step :=
  match cpu.operand (cpu.readOperand addr).1 (cpu.readOperand addr).2 with
  | .error e => ⟨cpu, .raised e⟩
  | .ok a =>
    match cpu.current with
    | Option.none => ⟨cpu, .raised "null register set"⟩
    | some rs =>
      match RegisterSet.free rs (index a) with
      | .error e => ⟨cpu, .raised e⟩
      | .ok rs1 => ⟨cpu.setCurrent rs1, .next (addr + operandSize)⟩

/-- The handler `CPU::empty`. -/
def empty (cpu : CPU) (addr : Nat) : Step :=
  match cpu.operand (cpu.readOperand addr).1 (cpu.readOperand addr).2 with
  | .error e => ⟨cpu, .raised e⟩
  | .ok a =>
    match cpu.current with
    | Option.none => ⟨cpu, .raised "null register set"⟩
    | some rs =>
      match RegisterSet.empty rs (index a) with
      | .error e => ⟨cpu, .raised e⟩
      | .ok rs1 => ⟨cpu.setCurrent rs1, .next (addr + operandSize)⟩

/-- The machine with another content of `tmp`. -/
def withTmp (cpu : CPU) (tmp : Option Nat) : CPU :=
  { cpu with tmp := tmp }

/-- The handler `CPU::tmpri`: `tmp = uregset->get(a)->copy()`. The warning written for a
non-empty `tmp` is not part of the state of the machine. -/
def tmpri (cpu : CPU) (addr : Nat) : Step :=
  match cpu.operand (cpu.readOperand addr).1 (cpu.readOperand addr).2 with
  | .error e => ⟨cpu, .raised e⟩
  | .ok a =>
    match cpu.current with
    | Option.none => ⟨cpu, .raised "null register set"⟩
    | some rs =>
      match RegisterSet.get rs (index a) with
      | .error e => ⟨cpu, .raised e⟩
      | .ok p =>
        match cpu.copyObject p with
        | .error e => ⟨cpu, .raised e⟩
        | .ok (cpu1, q) => ⟨cpu1.withTmp (some q), .next (addr + operandSize)⟩

/-- The handler `CPU::tmpro`: a non-empty target register is freed, then
`uregset->set(a, tmp); tmp = 0`. -/
def tmpro (cpu : CPU) (addr : Nat) : Step :=
  match cpu.operand (cpu.readOperand addr).1 (cpu.readOperand addr).2 with
  | .error e => ⟨cpu, .raised e⟩
  | .ok a =>
    match cpu.current with
    | Option.none => ⟨cpu, .raised "null register set"⟩
    | some rs =>
      match RegisterSet.at_ rs (index a) with
      | .error e => ⟨cpu, .raised e⟩
      | .ok o =>
        match (if o.isSome then RegisterSet.free rs (index a) else .ok rs) with
        | .error e => ⟨cpu, .raised e⟩
        | .ok rs1 =>
          match RegisterSet.setPointer rs1 (index a) cpu.tmp with
          | .error e => ⟨cpu.setCurrent rs1, .raised e⟩
          | .ok rs2 => ⟨(cpu.setCurrent rs2).withTmp Option.none, .next (addr + operandSize)⟩

/-- The handler `CPU::eximport`, which runs the instruction `import`. Whether the library
of the module is found and exports its tables is given by `loads`; the functions it
registers are not part of the modelled state. -/
def eximport (loads : String → Bool) (cpu : CPU) (addr : Nat) : Step :=
  let module := cpu.readString addr
  if loads module then ⟨cpu, .next (addr + module.length)⟩
  else ⟨cpu, .raised ("failed to link library: " ++ module)⟩

/-- The handler `CPU::vmclass` (`prototype.cpp`). -/
def vmclass (cpu : CPU) (addr : Nat) : Step :=
  let class_name := cpu.readString (addr + operandSize)
  match cpu.operand (cpu.readOperand addr).1 (cpu.readOperand addr).2 with
  | .error e => ⟨cpu, .raised e⟩
  | .ok reg =>
    match (cpu.newObject (Value.Prototype class_name)).1.place reg
        (cpu.newObject (Value.Prototype class_name)).2 with
    | .error e => ⟨(cpu.newObject (Value.Prototype class_name)).1, .raised e⟩
    | .ok cpu2 => ⟨cpu2, .next (addr + operandSize + (class_name.length + 1))⟩

end CPU

/-- The operand bytes of `tmpri r` followed, one opcode byte later, by those of
`tmpro s` (the opcode byte between them is not read by the handlers; written 0). -/
def tmpriTmpro (r s : Nat) : List Nat := oneOperand r ++ [0] ++ oneOperand s

/-- A machine running in the caller with the global register set selected by `ress`:
global register 0 holds `Integer 2` (pointer 1), register 0 of the callee holds
`Integer 42` (pointer 0), and the callee was called with return register 1. -/
def sampleGlobalSelected : CPU :=
  { sampleCPU [sampleCaller, sampleCallee 1 false] Option.none with
      uregset := .globalSet, regset := [⟨some 1, Mask.none⟩, Register.empty] }

/-! ## Register names (`resolveregister`, `generate.cpp`) -/

/-- The function `resolveregister(reg, names)`; an error is the thrown message. The
expression `reg[0]` of an empty string is the NUL character, which is not `@`. -/
def resolveregister (reg : String) (names : List (String × Int)) : Except String String :=
  if str.isnum reg true then .ok reg
  else if reg.data.head? == some '@' && str.isnum (str.sub reg 1) true then .ok reg
  else
    let out := if reg.data.head? == some '@' then "@" else ""
    let reg1 := if reg.data.head? == some '@' then str.sub reg 1 else reg
    match names.lookup reg1 with
    | some index => .ok (out ++ toString index)
    | none =>
      if reg1 ≠ "" then .error ("undeclared name: " ++ reg1)
      else .error "not enough operands"

/-- A table of register names as `.name:` directives build it. -/
def sampleNames : List (String × Int) := [("counter", 3), ("limit", 12)]

/-! ## The dispatch of `compile` (`generate.cpp`) -/

/-- The three tests of the `if`/`else if` chain of `compile`: `line == w`,
`str::startswith(line, w)` and `str::startswithchunk(line, w)`. -/
inductive Test
  | equals
  | startswith
  | startswithchunk
  deriving DecidableEq, Repr

/-- Lines 231-622 of `generate.cpp`: the branches of the chain in source order, each with
its test, its literal and the method of `Program` it calls (for the three-operand
instructions, the method `THREE_INTOP_ASM_FUNCTIONS` maps the mnemonic to). -/
def compileBranches : List (Test × String × String) :=
  [
    (Test.equals, "nop", "nop"),
    (Test.startswith, "izero", "izero"),
    (Test.startswith, "istore", "istore"),
    (Test.startswith, "iadd", "iadd"),
    (Test.startswith, "isub", "isub"),
    (Test.startswith, "imul", "imul"),
    (Test.startswith, "idiv", "idiv"),
    (Test.startswithchunk, "ilt", "ilt"),
    (Test.startswithchunk, "ilte", "ilte"),
    (Test.startswith, "igte", "igte"),
    (Test.startswith, "igt", "igt"),
    (Test.startswith, "ieq", "ieq"),
    (Test.startswith, "iinc", "iinc"),
    (Test.startswith, "idec", "idec"),
    (Test.startswith, "fstore", "fstore"),
    (Test.startswith, "fadd", "fadd"),
    (Test.startswith, "fsub", "fsub"),
    (Test.startswith, "fmul", "fmul"),
    (Test.startswith, "fdiv", "fdiv"),
    (Test.startswithchunk, "flt", "flt"),
    (Test.startswithchunk, "flte", "flte"),
    (Test.startswithchunk, "fgt", "fgt"),
    (Test.startswithchunk, "fgte", "fgte"),
    (Test.startswith, "feq", "feq"),
    (Test.startswith, "bstore", "bstore"),
    (Test.startswith, "itof", "itof"),
    (Test.startswith, "ftoi", "ftoi"),
    (Test.startswith, "stoi", "stoi"),
    (Test.startswith, "stof", "stof"),
    (Test.startswith, "strstore", "strstore"),
    (Test.startswith, "vec", "vec"),
    (Test.startswith, "vinsert", "vinsert"),
    (Test.startswith, "vpush", "vpush"),
    (Test.startswith, "vpop", "vpop"),
    (Test.startswith, "vat", "vat"),
    (Test.startswith, "vlen", "vlen"),
    (Test.startswith, "not", "lognot"),
    (Test.startswith, "and", "logand"),
    (Test.startswith, "or", "logor"),
    (Test.startswith, "move", "move"),
    (Test.startswith, "copy", "copy"),
    (Test.startswith, "ref", "ref"),
    (Test.startswith, "ptr", "ptr"),
    (Test.startswith, "deptr", "deptr"),
    (Test.startswith, "swap", "swap"),
    (Test.startswith, "free", "free"),
    (Test.startswith, "empty", "empty"),
    (Test.startswith, "isnull", "isnull"),
    (Test.startswith, "isptr", "isptr"),
    (Test.startswith, "ress", "ress"),
    (Test.startswith, "tmpri", "tmpri"),
    (Test.startswith, "tmpro", "tmpro"),
    (Test.startswith, "print", "print"),
    (Test.startswith, "echo", "echo"),
    (Test.startswith, "clbind", "clbind"),
    (Test.startswith, "closure", "closure"),
    (Test.startswith, "function", "function"),
    (Test.startswith, "fcall", "fcall"),
    (Test.startswith, "frame", "frame"),
    (Test.startswith, "param", "param"),
    (Test.startswith, "paref", "paref"),
    (Test.startswith, "paptr", "paptr"),
    (Test.startswithchunk, "arg", "arg"),
    (Test.startswith, "argc", "argc"),
    (Test.startswith, "call", "call"),
    (Test.startswith, "branch", "branch"),
    (Test.startswith, "jump", "jump"),
    (Test.startswith, "tryframe", "tryframe"),
    (Test.startswith, "catch", "vmcatch"),
    (Test.startswith, "pull", "pull"),
    (Test.startswith, "try", "vmtry"),
    (Test.startswith, "throw", "vmthrow"),
    (Test.startswith, "leave", "leave"),
    (Test.startswith, "import", "import"),
    (Test.startswith, "link", "link"),
    (Test.startswith, "class", "vmclass"),
    (Test.startswith, "derive", "vmderive"),
    (Test.startswith, "attach", "vmattach"),
    (Test.startswith, "register", "vmregister"),
    (Test.startswith, "new", "vmnew"),
    (Test.startswith, "msg", "vmmsg"),
    (Test.startswith, "end", "end"),
    (Test.startswith, "halt", "halt")
  ]

/-- The mnemonics of `OP_SIZES` that no branch of `compile` matches. -/
def unimplementedMnemonics : List String :=
  ["badd", "bsub", "binc", "bdec", "blt", "blte", "bgt", "bgte", "beq", "streq", "bool",
    "prototype"]

/-- The branch of the chain a line made of the mnemonic `k`, a blank and operands
reaches, computed from `k` alone: such a line is never equal to a literal, begins with a
literal exactly when `k` does, and has `k` as its first token. -/
def branchOfMnemonic (k : String) : Option (Test × String × String) :=
  compileBranches.find? (fun b =>
    match b.1 with
    | Test.equals => false
    | Test.startswith => str.startswith k b.2.1
    | Test.startswithchunk => k == b.2.1)

/-! ## Source expansion (`expandSource`, `generate.cpp`) -/

namespace str

/-- Modelled from the spec: `str::contains(s, c)` is not among the sources; it tells
whether the character `c` occurs in `s`. -/
def contains (s : String) (c : Char) : Bool :=
  s.data.contains c

/-- Modelled from the spec: `str::strmul(c, n)` is not among the sources; `n` copies of
`c`. -/
def strmul (c : Char) (n : Nat) : String :=
  String.mk (List.replicate n c)

/-- Modelled from the spec: `str::join(parts, c)` is not among the sources; the parts
separated by `c`. -/
def join (parts : List String) (c : Char) : String :=
  String.intercalate (String.singleton c) parts

end str

/-- Lines 671-689 of `generate.cpp`: the stripped lines `expandSource` copies as they
are. -/
def passesThrough (stripped : String) : Bool :=
  stripped == "" || str.startswith stripped ".signature" ||
    str.startswith stripped ".bsignature" || str.startswith stripped ".function" ||
    str.startswith stripped ".end" || stripped.data.head? == some ';' ||
    !str.contains stripped '('

/-- The assignment `map[key] = value` of a `std::map`, read with `List.lookup`: the
latest assignment to a key comes first. -/
def mapAssign (m : List (Nat × Nat)) (key value : Nat) : List (Nat × Nat) :=
  (key, value) :: m

/-- Lines 694-697 of `generate.cpp`: the inner loop over the decoded lines of source line
`i`. -/
def expandDecoded (i indent : Nat) :
    List (List String) → List String × List (Nat × Nat) → List String × List (Nat × Nat)
  | [], state => state
  | d :: rest, (asm_lines, m) =>
    expandDecoded i indent rest
      (asm_lines ++ [str.strmul ' ' indent ++ str.join d ' '], mapAssign m asm_lines.length i)

/-- The second loop of `expandSource`, from source index `i` on; the state is `asm_lines`
and `expanded_lines_to_source_lines`. The function `decode_line` is not among the sources
and is a parameter. -/
def expandLoop (decode_line : String → List (List String)) :
    List String → Nat → List String × List (Nat × Nat) → List String × List (Nat × Nat)
  | [], _, state => state
  | line :: rest, i, (asm_lines, m) =>
    if passesThrough (str.lstrip line) then
      expandLoop decode_line rest (i + 1)
        (asm_lines ++ [line], mapAssign m asm_lines.length i)
    else
      expandLoop decode_line rest (i + 1)
        (expandDecoded i (line.length - (str.lstrip line).length)
          (decode_line (str.lstrip line)) (asm_lines, m))

/-- The function `expandSource(lines, expanded_lines_to_source_lines)`, called with the
map `m0` (`asm.cpp` passes an empty map): the expanded lines and the map. -/
def expandSource (decode_line : String → List (List String)) (lines : List String)
    (m0 : List (Nat × Nat)) : List String × List (Nat × Nat) :=
  expandLoop decode_line lines 0 ([], m0)

/-- The lines a source line expands to: itself, or its decoded lines indented as it
is. -/
def expansionOf (decode_line : String → List (List String)) (line : String) : List String :=
  if passesThrough (str.lstrip line) then [line]
  else (decode_line (str.lstrip line)).map (fun d =>
    str.strmul ' ' (line.length - (str.lstrip line).length) ++ str.join d ' ')

/-- The expansions of the source lines from index `i` on, each expanded line paired with
the index of the source line it comes from. -/
def taggedFrom (decode_line : String → List (List String)) : Nat → List String → List (Nat × String)
  | _, [] => []
  | i, line :: rest =>
    (expansionOf decode_line line).map (fun text => (i, text)) ++
      taggedFrom decode_line (i + 1) rest

/-- A decoder for examples: a line with parentheses gives its inner instruction, then
the outer one. -/
def sampleDecode (_line : String) : List (List String) :=
  [["izero", "1"], ["print", "1"]]

/-! ### What `filter` leaves out -/

/-- Position `i` of `lines` lies inside a definition: at or after a line that opens a
definition and not after the first `.end` that follows it. -/
def InsideDefinition (lines : List String) (i : Nat) : Prop :=
  ∃ (a : Nat) (l : String), a ≤ i ∧ lines[a]? = some l ∧ opensDefinition l = true ∧
    ∀ k : Nat, a < k → k < i → lines[k]? ≠ some ".end"

/-- Each line that opens a definition is followed later by a line equal to `.end`. -/
def ClosedDefinitions (lines : List String) : Prop :=
  ∀ (i : Nat) (l : String), lines[i]? = some l → opensDefinition l = true →
    ∃ j : Nat, i < j ∧ lines[j]? = some ".end"

/-- The positions of the lines the loop of `filter` pushes, from position `i` on. -/
def keptFrom : Bool → Nat → List String → List Nat
  | _, _, [] => []
  | true, i, line :: rest =>
    if line = ".end" then keptFrom false (i + 1) rest else keptFrom true (i + 1) rest
  | false, i, line :: rest =>
    if isSkippedDirective line then keptFrom false (i + 1) rest
    else if opensDefinition line then keptFrom true (i + 1) rest
    else i :: keptFrom false (i + 1) rest

/-- A source with a function definition between two instruction lines. -/
def sampleSource : List String :=
  ["izero 1", ".name: 1 x", ".function: f", "izero 0", "end", ".end", "halt"]

/-! ### The decoding loop of the disassembler front-end (`dis.cpp`) -/

/-- The call `disassembler::instruction(bytecode + ptr)`. The conversion `OPCODE(*bptr)` of
the opcode byte is `opcodeOf` (`opcodes.h` is not among the sources); a byte that is no
enumerator has no name in `OP_NAMES`. The size is returned as `unsigned(increase)`. -/
def disassembler.instructionAt (showFloat : Nat → String) (opcodeOf : Nat → Option OPCODE)
    (bytecode : List Nat) (ptr : Nat) : Except String (String × Nat) :=
  match opcodeOf (byteAt bytecode ptr) with
  | none => .error "could not find name for opcode"
  | some op =>
    match disassembler.instruction showFloat op (bytecode.drop (ptr + 1)) with
    | .ok (text, increase) => .ok (text, increase % 2 ^ 32)
    | .error e => .error e

/-- Lines 150-166 of `dis.cpp`: the loop `for (unsigned j = 0; j < fn_size;)` over the
function that starts at `start`, run for at most `fuel` iterations from offset `j` with
the lines written so far. The result is the lines and the flag `disasm_terminated` (set
when `std::out_of_range` is caught), or the exception that leaves the loop; `none` means
that `fuel` iterations did not end the loop. -/
def decodeLoop (showFloat : Nat → String) (opcodeOf : Nat → Option OPCODE)
    (bytecode : List Nat) (start fn_size : Nat) :
    Nat → Nat → List String → Option (Except String (List String × Bool))
  | 0, j, lines => if j < fn_size then none else some (.ok (lines, false))
  | fuel + 1, j, lines =>
    if j < fn_size then
      match disassembler.instructionAt showFloat opcodeOf bytecode (start + j) with
      | .ok (instruction, size) =>
        decodeLoop showFloat opcodeOf bytecode start fn_size fuel ((j + size) % 2 ^ 32)
          (lines ++ ["    " ++ instruction])
      | .error e =>
        if e = "std::out_of_range" then some (.ok (lines, true)) else some (.error e)
    else some (.ok (lines, false))

/-- A numbering of some opcodes for examples. -/
def sampleOpcodeOf (b : Nat) : Option OPCODE :=
  if b = 0 then some OPCODE.NOP
  else if b = 1 then some OPCODE.IZERO
  else if b = 2 then some OPCODE.HALT
  else none

/-! ### Engine and disassembler on the same bytes -/

/-- The handler of an instruction and the disassembler agree on where the next
instruction starts: whenever the handler, run on the operand address `p + 1` of an
instruction whose opcode byte is at `p`, returns an address, that address is `p` plus the
size `disassembler::instruction` reports for the same bytes. -/
def AgreesWithDisassembler (showFloat : Nat → String) (op : OPCODE)
    (handler : CPU → Nat → Step) : Prop :=
  ∀ (cpu : CPU) (p a : Nat), (handler cpu (p + 1)).outcome = .next a →
    ∃ text size,
      disassembler.instruction showFloat op (cpu.bytecode.drop (p + 1)) = .ok (text, size) ∧
      a = p + size

/-- The bytes of `import "m"` placed at address 0, followed by one byte of the next
instruction: the opcode byte (not read by the handler; written 0), the name `m` and its
NUL. -/
def importM : List Nat := [0, 109, 0, 0]

/-! ### Words of a line, and the function a line lies under -/

/-- The blank-delimited words of a run of characters, in order; `word` holds the
characters of the word being read. -/
def wordsFrom : List Char → List Char → List (List Char)
  | [], word => if word.isEmpty then [] else [word]
  | c :: cs, word =>
    if str.isBlank c then
      if word.isEmpty then wordsFrom cs [] else word :: wordsFrom cs []
    else wordsFrom cs (word ++ [c])

/-- The blank-delimited words of a line. -/
def words (line : String) : List String :=
  (wordsFrom line.data []).map String.mk

/-- The second word of a line, which is what a `ress` line names and what a `.function:`
line followed by a blank names; the empty string when the line has fewer than two
words. -/
def secondWord (line : String) : String :=
  (words line).getD 1 ""

/-- The name on the last `.function:` line above position `k`, if there is such a
line. -/
def functionAbove (lines : List String) (k : Nat) : Option String :=
  ((lines.take k).reverse.find?
    (fun l => str.startswith (str.lstrip l) ".function:")).map secondWord

/-! # Theorems -/

/-! ## C1: the frame balance verifier -/

section FrameBalance

open assembler.verify

theorem pending_nil : pending [] = 0 := by
  simp [pending, frameCount, consumerCount]

theorem pending_cons (l : String) (ls : List String) :
    pending (l :: ls) = delta (mnemonic l) + pending ls := by
  unfold pending frameCount consumerCount delta
  rw [List.countP_cons, List.countP_cons]
  split <;> split <;> simp_all <;> ring

theorem append_ne_empty (a b : String) (h : a ≠ "") : a ++ b ≠ "" := by
  intro hab
  apply h
  have h1 := congrArg String.data hab
  rw [String.data_append] at h1
  have h2 : a.data = [] := (List.append_eq_nil.mp h1).1
  exact String.ext h2

/-- The loop body as a function of the mnemonic of the line. -/
theorem frameBalanceFrom_cons (m : Nat → Option Nat) (line : String) (rest : List String)
    (i : Nat) (b : Int) (prev : Nat) :
    frameBalanceFrom m (line :: rest) i b prev =
      if !isTracked (mnemonic line) then frameBalanceFrom m rest (i + 1) b prev
      else
        if b + delta (mnemonic line) < 0 then
          (m i).map (fun n =>
            "fatal: call with '" ++ mnemonic line ++ "' without a frame at line " ++ lineNo n)
        else if b + delta (mnemonic line) > 1 then
          (m i).bind (fun n => (m prev).map (fun p =>
            "fatal: excess frame spawned at line " ++ lineNo n ++
              " (unused frame spawned at line " ++ lineNo p ++ ")"))
        else if mnemonic line == "end" && decide (b + delta (mnemonic line) > 0) then
          (m i).bind (fun n => (m prev).map (fun p =>
            "fatal: leftover frame at line " ++ lineNo n ++
              " (spawned at line " ++ lineNo p ++ ")"))
        else
          frameBalanceFrom m rest (i + 1) (b + delta (mnemonic line))
            (if mnemonic line == "frame" then i else prev) := by
  have hd : ∀ ins : String,
      (if (ins == "frame") = true then
        (if isCallFamily ins = true then b - 1 else b) + 1
        else (if isCallFamily ins = true then b - 1 else b)) = b + delta ins := by
    intro ins
    unfold delta
    split <;> split <;> omega
  rw [frameBalanceFrom]
  by_cases h0 : line.length = 0
  · have hm : mnemonic line = "" := by simp [mnemonic, h0]
    rw [if_pos h0, hm]
    rfl
  · have hm : mnemonic line = str.chunk (str.lstrip line) := by simp [mnemonic, h0]
    rw [if_neg h0, hm]
    simp only [hd]

theorem balancedFrom_nil (b : Int) : BalancedFrom b [] ↔ (b = 0 ∨ b = 1) := by
  constructor
  · intro h
    simpa [pending_nil] using h.1 0 (Nat.le_refl _)
  · intro h
    refine ⟨?_, ?_⟩
    · intro k _
      simpa [pending_nil] using h
    · intro k l hk
      simp at hk

theorem balancedFrom_cons (b : Int) (line : String) (rest : List String) :
    BalancedFrom b (line :: rest) ↔
      (b = 0 ∨ b = 1) ∧ (mnemonic line = "end" → b + delta (mnemonic line) = 0) ∧
        BalancedFrom (b + delta (mnemonic line)) rest := by
  constructor
  · intro h
    refine ⟨?_, ?_, ?_, ?_⟩
    · simpa [pending_nil] using h.1 0 (Nat.zero_le _)
    · intro he
      have := h.2 0 line (by simp) he
      simpa [pending_cons, pending_nil] using this
    · intro k hk
      have := h.1 (k + 1) (by simpa using hk)
      simpa [pending_cons, add_assoc] using this
    · intro k l hk he
      have := h.2 (k + 1) l (by simpa using hk) he
      simpa [pending_cons, add_assoc] using this
  · rintro ⟨h0, he, h1, h2⟩
    refine ⟨?_, ?_⟩
    · intro k hk
      cases k with
      | zero => simpa [pending_nil] using h0
      | succ k =>
        have := h1 k (by simpa using hk)
        simpa [pending_cons, add_assoc] using this
    · intro k l hk hl
      cases k with
      | zero =>
        have hl2 : line = l := by simpa using hk
        subst hl2
        simpa [pending_cons, pending_nil] using he hl
      | succ k =>
        have := h2 k l (by simpa using hk) hl
        simpa [pending_cons, add_assoc] using this

theorem delta_untracked (ins : String) (h : isTracked ins = false) : delta ins = 0 := by
  unfold isTracked at h
  unfold delta isCallFamily
  simp only [Bool.or_eq_false_iff] at h
  simp [h]

theorem untracked_ne_end (ins : String) (h : isTracked ins = false) : ins ≠ "end" := by
  rintro rfl
  revert h
  decide

/-- The verifier accepts the rest of the lines exactly when they are balanced relative
to the running balance. -/
theorem frameBalanceFrom_iff (m : Nat → Option Nat) (rest : List String) :
    ∀ (i : Nat) (b : Int) (prev : Nat), (b = 0 ∨ b = 1) → prev ≤ i →
      (∀ j, j < i + rest.length → (m j).isSome = true) →
      (frameBalanceFrom m rest i b prev = some "" ↔ BalancedFrom b rest) := by
  induction rest with
  | nil =>
    intro i b prev hb _ _
    rw [balancedFrom_nil]
    simp [frameBalanceFrom, hb]
  | cons line rest ih =>
    intro i b prev hb hprev hm
    rw [frameBalanceFrom_cons, balancedFrom_cons]
    have hmi : (m i).isSome = true := hm i (by simp)
    have hmp : (m prev).isSome = true := hm prev (by simp; omega)
    obtain ⟨n, hn⟩ := Option.isSome_iff_exists.mp hmi
    obtain ⟨p, hp⟩ := Option.isSome_iff_exists.mp hmp
    have hm1 : ∀ j, j < (i + 1) + rest.length → (m j).isSome = true := by
      intro j hj
      apply hm
      simp
      omega
    by_cases ht : isTracked (mnemonic line) = true
    · simp only [ht, Bool.not_true, Bool.false_eq_true, if_false]
      by_cases hneg : b + delta (mnemonic line) < 0
      · rw [if_pos hneg, hn]
        constructor
        · intro h
          exfalso
          simp only [Option.map_some', Option.some.injEq] at h
          exact append_ne_empty _ _ (append_ne_empty _ _ (append_ne_empty _ _ (by decide))) h
        · rintro ⟨_, _, h, _⟩
          have := h 0 (Nat.zero_le _)
          simp [pending_nil] at this
          omega
      · rw [if_neg hneg]
        by_cases hbig : b + delta (mnemonic line) > 1
        · rw [if_pos hbig, hn, hp]
          constructor
          · intro h
            exfalso
            simp only [Option.map_some', Option.some_bind, Option.some.injEq] at h
            exact append_ne_empty _ _ (append_ne_empty _ _ (append_ne_empty _ _
              (append_ne_empty _ _ (by decide)))) h
          · rintro ⟨_, _, h, _⟩
            have := h 0 (Nat.zero_le _)
            simp [pending_nil] at this
            omega
        · rw [if_neg hbig]
          have hb2 : b + delta (mnemonic line) = 0 ∨ b + delta (mnemonic line) = 1 := by omega
          by_cases hend : (mnemonic line == "end" && decide (b + delta (mnemonic line) > 0)) = true
          · rw [if_pos hend, hn, hp]
            simp only [Bool.and_eq_true, beq_iff_eq, decide_eq_true_eq] at hend
            constructor
            · intro h
              exfalso
              simp only [Option.map_some', Option.some_bind, Option.some.injEq] at h
              exact append_ne_empty _ _ (append_ne_empty _ _ (append_ne_empty _ _
                (append_ne_empty _ _ (by decide)))) h
            · rintro ⟨_, h, _⟩
              have := h hend.1
              omega
          · rw [if_neg hend]
            simp only [Bool.and_eq_true, beq_iff_eq, decide_eq_true_eq, not_and] at hend
            rw [ih (i + 1) _ _ hb2 (by split <;> omega) hm1]
            constructor
            · intro h
              refine ⟨hb, ?_, h⟩
              intro he
              have := hend he
              omega
            · rintro ⟨_, _, h⟩
              exact h
    · have ht2 : isTracked (mnemonic line) = false := by simpa using ht
      simp only [ht2, Bool.not_false, if_true]
      rw [delta_untracked _ ht2, add_zero]
      rw [ih (i + 1) b prev hb (by omega) hm1]
      constructor
      · intro h
        exact ⟨hb, fun he => absurd he (untracked_ne_end _ ht2), h⟩
      · rintro ⟨_, _, h⟩
        exact h

theorem balancedAtEveryEnd_iff (lines : List String) :
    BalancedAtEveryEnd lines ↔ BalancedFrom 0 lines := by
  unfold BalancedAtEveryEnd BalancedFrom pending
  simp only [zero_add]

/-- C1 (as stated, refuted): the verifier accepts a body that still has a pending frame at
its end when no `end` instruction follows, it counts `excall` as a frame consumer, and
it rejects a body that has a pending frame at an `end` in its middle although the
difference is back at 0 at the end of the body. -/
theorem frameBalance_not_balancedToTheEnd :
    (assembler.verify.frameBalance ["frame 0 0", "halt"] idLineMap = some "" ∧
      ¬ BalancedToTheEnd ["frame 0 0", "halt"]) ∧
    (assembler.verify.frameBalance ["frame 0", "excall 0 f", "end"] idLineMap = some "" ∧
      ¬ BalancedToTheEnd ["frame 0", "excall 0 f", "end"]) ∧
    (assembler.verify.frameBalance ["frame 0", "end", "call 0 f"] idLineMap =
        some "fatal: leftover frame at line 2 (spawned at line 1)" ∧
      BalancedToTheEnd ["frame 0", "end", "call 0 f"]) := by
  refine ⟨⟨by decide, fun h => absurd h.2 (by decide)⟩,
    ⟨by decide, fun h => absurd h.2 (by decide)⟩, ⟨by decide, ?_, by decide⟩⟩
  intro k hk
  have hk3 : k ≤ 3 := hk
  interval_cases k <;> decide

/-- C1 (amended): with the line map defined on every index of the list, `frameBalance`
returns the empty report if and only if after every prefix the number of `frame`
instructions minus the number of `call`/`excall`/`fcall`/`msg` instructions is 0 or 1,
and that difference is 0 after every prefix ending in an `end` instruction. -/
theorem frameBalance_empty_iff (lines : List String) (m : Nat → Option Nat)
    (hm : ∀ i, i < lines.length → (m i).isSome = true) :
    assembler.verify.frameBalance lines m = some "" ↔ BalancedAtEveryEnd lines := by
  rw [balancedAtEveryEnd_iff]
  exact frameBalanceFrom_iff m lines 0 0 0 (Or.inl rfl) (Nat.le_refl 0)
    (by intro j hj; exact hm j (by simpa using hj))

/-- Witness for `frameBalance_empty_iff`: a balanced three-line body. -/
theorem frameBalance_empty_iff_witness :
    (∀ i, i < ["frame 0", "call 1 f", "end"].length → (idLineMap i).isSome = true) ∧
    assembler.verify.frameBalance ["frame 0", "call 1 f", "end"] idLineMap = some "" ∧
    BalancedAtEveryEnd ["frame 0", "call 1 f", "end"] :=
  ⟨fun _ _ => rfl, by decide,
    (frameBalance_empty_iff ["frame 0", "call 1 f", "end"] idLineMap (fun _ _ => rfl)).mp
      (by decide)⟩

end FrameBalance

/-! ## C25: sizes of the fixed-size opcodes -/

/-- C25 (as stated, refuted): `bstore` is not 7 bytes (opcode, register operand, byte);
`OP_SIZES` gives it 8, because its byte operand carries a flag of its own. -/
theorem op_sizes_bstore_not_seven :
    OP_SIZES.lookup "bstore" = some 8 ∧
      shapeSize [OperandKind.reg, OperandKind.byte] = 7 := by
  decide

/-- C25 (amended): every fixed-size entry of `OP_SIZES` equals 1 plus the sizes of its
operand shape, with 5 bytes per register operand, 4 per int32, 4 per float32 and 2 for
the flagged byte operand of `bstore`. -/
theorem op_sizes_fixed_shape (m : String) (size : Nat) (h : (m, size) ∈ OP_SIZES)
    (hfixed : isVariableLength m = false) :
    (operandShape m).map shapeSize = some size ∧
      shapeSize [] = 1 ∧ shapeSize [.reg] = 6 ∧ shapeSize [.reg, .reg] = 11 ∧
      shapeSize [.reg, .reg, .reg] = 16 ∧ shapeSize [.reg, .float32] = 10 ∧
      shapeSize [.reg, .flaggedByte] = 8 ∧ shapeSize [.int32] = 5 ∧
      shapeSize [.reg, .int32, .int32] = 14 := by
  have key : ∀ p ∈ OP_SIZES, isVariableLength p.1 = false →
      (operandShape p.1).map shapeSize = some p.2 := by decide
  exact ⟨key (m, size) h hfixed, by decide⟩

/-- Witness for `op_sizes_fixed_shape`: `branch` is 14 bytes. -/
theorem op_sizes_fixed_shape_witness :
    (operandShape "branch").map shapeSize = some 14 :=
  (op_sizes_fixed_shape "branch" 14 (by decide) (by decide)).1

/-! ## Scans that stop at the first report -/

section Scans

open assembler.verify

theorem scanFrom_empty_iff (m : Nat → Option Nat) (check : String → Option (String → String))
    (hne : ∀ l msg t, check l = some msg → msg t ≠ "") (lines : List String) :
    ∀ i, (∀ j, j < i + lines.length → (m j).isSome = true) →
      (scanFrom m check lines i = some "" ↔ ∀ l ∈ lines, check l = none) := by
  induction lines with
  | nil => intro i _; simp [scanFrom]
  | cons l rest ih =>
    intro i hm
    have hmi : (m i).isSome = true := hm i (by simp)
    obtain ⟨n, hn⟩ := Option.isSome_iff_exists.mp hmi
    have hm1 : ∀ j, j < (i + 1) + rest.length → (m j).isSome = true := by
      intro j hj
      apply hm
      simp
      omega
    rw [scanFrom]
    cases hc : check l with
    | some msg =>
      simp only [hn, Option.map_some', Option.some.injEq, List.mem_cons, forall_eq_or_imp, hc]
      constructor
      · intro h
        exact absurd h (hne l msg _ hc)
      · intro h
        exact absurd h.1 (by simp)
    | none =>
      simp only [List.mem_cons, forall_eq_or_imp, hc, true_and]
      exact ih (i + 1) hm1

theorem scanFrom_first (m : Nat → Option Nat) (check : String → Option (String → String))
    (lines : List String) :
    ∀ (i k : Nat) (l : String) (msg : String → String) (n : Nat),
      lines[k]? = some l → check l = some msg →
      (∀ j l', j < k → lines[j]? = some l' → check l' = none) →
      m (i + k) = some n →
      scanFrom m check lines i = some (msg (lineNo n)) := by
  induction lines with
  | nil => intro i k l msg n hk; simp at hk
  | cons x rest ih =>
    intro i k l msg n hk hc hbefore hn
    rw [scanFrom]
    cases k with
    | zero =>
      have hx : x = l := by simpa using hk
      subst hx
      rw [hc]
      simp only [Nat.add_zero] at hn
      simp [hn]
    | succ k =>
      have hx : check x = none := hbefore 0 x (Nat.succ_pos k) (by simp)
      rw [hx]
      apply ih (i + 1) k l msg n (by simpa using hk) hc
      · intro j l' hj hl'
        exact hbefore (j + 1) l' (by omega) (by simpa using hl')
      · rw [← hn]
        congr 1
        omega

theorem directivesFrom_eq_scan (m : Nat → Option Nat) (lines : List String) :
    ∀ i, directivesFrom m lines i = scanFrom m directiveCheck lines i := by
  induction lines with
  | nil => intro i; rfl
  | cons l rest ih =>
    intro i
    rw [scanFrom, ← ih (i + 1), directivesFrom]
    simp only [directiveCheck]
    split
    · rfl
    · split <;> rfl

theorem directiveCheck_none_iff (l : String) :
    directiveCheck l = none ↔ ¬ UnknownDirective l := by
  unfold directiveCheck UnknownDirective
  simp only []
  by_cases h0 : (str.lstrip l).length = 0
  · have hd : (str.lstrip l).data = [] := by
      have : (str.lstrip l).data.length = 0 := h0
      exact List.length_eq_zero.mp this
    simp [h0, hd]
  · by_cases h1 : (str.lstrip l).data.head? = some '.'
    · simp [h0, h1]
    · simp [h0, h1]

theorem directiveCheck_some (l : String) (h : UnknownDirective l) :
    directiveCheck l = some (fun t =>
      "fatal: unrecognised assembler directive on line " ++ t ++ ": `" ++
        str.chunk (str.lstrip l) ++ "`") := by
  unfold directiveCheck
  obtain ⟨h1, h2⟩ := h
  have h0 : ¬ (str.lstrip l).length = 0 := by
    intro h0
    have : (str.lstrip l).data.length = 0 := h0
    rw [List.length_eq_zero.mp this] at h1
    simp at h1
  simp [h0, h1, h2]

end Scans

/-! ## C28: unknown directives -/

section Directives

open assembler.verify

/-- C28: with the line map defined on every index of the list, `directives` returns the
empty report iff every line whose first non-blank character is `.` has one of the ten
known directives as its first token; otherwise the report names the first offending
line only, with its source line number (map value + 1) and its first token. -/
theorem directives_report (lines : List String) (m : Nat → Option Nat)
    (hm : ∀ i, i < lines.length → (m i).isSome = true) :
    (directives lines m = some "" ↔
      ∀ l ∈ lines, (str.lstrip l).data.head? = some '.' →
        str.chunk (str.lstrip l) ∈ knownDirectives) ∧
    (∀ k l n, lines[k]? = some l → UnknownDirective l →
      (∀ j l', j < k → lines[j]? = some l' → ¬ UnknownDirective l') → m k = some n →
      directives lines m = some ("fatal: unrecognised assembler directive on line " ++
        lineNo n ++ ": `" ++ str.chunk (str.lstrip l) ++ "`")) := by
  constructor
  · unfold directives
    rw [directivesFrom_eq_scan, scanFrom_empty_iff m directiveCheck _ lines 0
      (by intro j hj; exact hm j (by simpa using hj))]
    · constructor
      · intro h l hl hdot
        by_contra hk
        exact (directiveCheck_none_iff l).mp (h l hl) ⟨hdot, hk⟩
      · intro h l hl
        rw [directiveCheck_none_iff]
        rintro ⟨hdot, hk⟩
        exact hk (h l hl hdot)
    · intro l msg t hc
      by_cases hu : UnknownDirective l
      · rw [directiveCheck_some l hu] at hc
        cases hc
        exact append_ne_empty _ _ (append_ne_empty _ _ (append_ne_empty _ _
          (append_ne_empty _ _ (by decide))))
      · rw [(directiveCheck_none_iff l).mpr hu] at hc
        cases hc
  · intro k l n hk hu hbefore hn
    unfold directives
    rw [directivesFrom_eq_scan]
    exact scanFrom_first m directiveCheck lines 0 k l _ n hk (directiveCheck_some l hu)
      (fun j l' hj hl' => (directiveCheck_none_iff l').mpr (hbefore j l' hj hl'))
      (by simpa using hn)

/-- Witness for `directives_report`: the second line is the first unknown directive. -/
theorem directives_report_witness :
    directives [".function: main", "  .bogus: 1", ".worse"] idLineMap =
      some "fatal: unrecognised assembler directive on line 2: `.bogus:`" :=
  (directives_report [".function: main", "  .bogus: 1", ".worse"] idLineMap
    (fun _ _ => rfl)).2 1 "  .bogus: 1" 1 (by decide) ⟨by decide, by decide⟩
    (by
      intro j l' hj hl'
      have hj0 : j = 0 := by omega
      subst hj0
      have : l' = ".function: main" := by simpa using hl'.symm
      subst this
      exact fun h => absurd h.2 (by decide))
    rfl

end Directives

/-! ## C18: calls to undefined functions -/

section Calls

open assembler.verify

theorem functionCallsAreDefinedFrom_eq_scan (m : Nat → Option Nat)
    (names signatures : List String) (lines : List String) :
    ∀ i, functionCallsAreDefinedFrom m names signatures lines i =
      scanFrom m (callCheck names signatures) lines i := by
  induction lines with
  | nil => intro i; rfl
  | cons l rest ih =>
    intro i
    rw [scanFrom, ← ih (i + 1), functionCallsAreDefinedFrom]
    simp only [callCheck]
    split
    · rfl
    · split <;> rfl

theorem callCheck_none_iff (names signatures : List String) (l : String) :
    callCheck names signatures l = none ↔ ¬ UndefinedCall names signatures l := by
  unfold callCheck UndefinedCall isUndefinedIn
  simp only []
  by_cases h0 : str.startswith (str.lstrip l) "call" = true
  · simp [h0]
  · simp [h0]

theorem callCheck_some (names signatures : List String) (l : String)
    (h : UndefinedCall names signatures l) :
    callCheck names signatures l = some (fun t =>
      "fatal: call to undefined function '" ++ calledFunction (str.lstrip l) ++
        "' at line " ++ t) := by
  unfold callCheck isUndefinedIn
  obtain ⟨h1, h2, h3⟩ := h
  simp [h1, h2, h3]

/-- C18: with the line map defined on every index of the list, `functionCallsAreDefined`
returns the empty report iff every line beginning with `call` names (as its second
operand, or as its only operand) a function among the defined names or the declared
signatures; otherwise the report is `fatal: call to undefined function '<name>' at line N`
for the first such line, with N the source line number (map value + 1). -/
theorem functionCallsAreDefined_report (lines : List String) (m : Nat → Option Nat)
    (names signatures : List String)
    (hm : ∀ i, i < lines.length → (m i).isSome = true) :
    (functionCallsAreDefined lines m names signatures = some "" ↔
      ∀ l ∈ lines, str.startswith (str.lstrip l) "call" = true →
        calledFunction (str.lstrip l) ∈ names ∨ calledFunction (str.lstrip l) ∈ signatures) ∧
    (∀ k l n, lines[k]? = some l → UndefinedCall names signatures l →
      (∀ j l', j < k → lines[j]? = some l' → ¬ UndefinedCall names signatures l') →
      m k = some n →
      functionCallsAreDefined lines m names signatures =
        some ("fatal: call to undefined function '" ++ calledFunction (str.lstrip l) ++
          "' at line " ++ lineNo n)) := by
  constructor
  · unfold functionCallsAreDefined
    rw [functionCallsAreDefinedFrom_eq_scan, scanFrom_empty_iff m _ _ lines 0
      (by intro j hj; exact hm j (by simpa using hj))]
    · constructor
      · intro h l hl hcall
        by_contra hk
        rw [not_or] at hk
        exact (callCheck_none_iff names signatures l).mp (h l hl) ⟨hcall, hk.1, hk.2⟩
      · intro h l hl
        rw [callCheck_none_iff]
        rintro ⟨hcall, h1, h2⟩
        rcases h l hl hcall with h3 | h3
        · exact h1 h3
        · exact h2 h3
    · intro l msg t hc
      by_cases hu : UndefinedCall names signatures l
      · rw [callCheck_some names signatures l hu] at hc
        cases hc
        exact append_ne_empty _ _ (append_ne_empty _ _ (append_ne_empty _ _ (by decide)))
      · rw [(callCheck_none_iff names signatures l).mpr hu] at hc
        cases hc
  · intro k l n hk hu hbefore hn
    unfold functionCallsAreDefined
    rw [functionCallsAreDefinedFrom_eq_scan]
    exact scanFrom_first m _ lines 0 k l _ n hk (callCheck_some names signatures l hu)
      (fun j l' hj hl' => (callCheck_none_iff names signatures l').mpr (hbefore j l' hj hl'))
      (by simpa using hn)

/-- Witness for `functionCallsAreDefined_report`: scenario 3 of section 8, `main` calls
`nowhere`. -/
theorem functionCallsAreDefined_report_witness :
    functionCallsAreDefined [".function: main", "frame 0", "call 1 nowhere", "end", ".end"]
        idLineMap ["main"] [] =
      some "fatal: call to undefined function 'nowhere' at line 3" :=
  (functionCallsAreDefined_report
    [".function: main", "frame 0", "call 1 nowhere", "end", ".end"] idLineMap ["main"] []
    (fun _ _ => rfl)).2 2 "call 1 nowhere" 2 (by decide) ⟨by decide, by decide, by decide⟩
    (by
      intro j l' hj hl'
      have hj2 : j = 0 ∨ j = 1 := by omega
      rcases hj2 with rfl | rfl
      · have : l' = ".function: main" := by simpa using hl'.symm
        subst this
        exact fun h => absurd h.1 (by decide)
      · have : l' = "frame 0" := by simpa using hl'.symm
        subst this
        exact fun h => absurd h.1 (by decide))
    rfl

end Calls

/-! ## C27: `ress` instructions -/

section Ress

open assembler.verify

theorem not_ress_of_function (l : String)
    (h : str.startswith (str.lstrip l) ".function:" = true) :
    str.startswith (str.lstrip l) "ress" = false := by
  unfold str.startswith at *
  cases hd : (str.lstrip l).data with
  | nil => rw [hd] at h; simp [List.isPrefixOf] at h
  | cons c cs =>
    rw [hd] at h
    have hc : c = '.' := by
      have : ".function:".data = '.' :: "function:".data := rfl
      rw [this] at h
      simp [List.isPrefixOf] at h
      exact h.1.symm
    subst hc
    rfl

theorem ressInstructionsFrom_isSome (m : Nat → Option Nat) (as_lib : Bool)
    (lines : List String) :
    ∀ (i : Nat) (f : String), (∀ j, j < i + lines.length → (m j).isSome = true) →
      (ressInstructionsFrom m as_lib lines i f).isSome = true := by
  induction lines with
  | nil => intro i f _; rfl
  | cons l rest ih =>
    intro i f hm
    have hmi : (m i).isSome = true := hm i (by simp)
    obtain ⟨n, hn⟩ := Option.isSome_iff_exists.mp hmi
    have hm1 : ∀ j, j < (i + 1) + rest.length → (m j).isSome = true := by
      intro j hj
      apply hm
      simp
      omega
    rw [ressInstructionsFrom]
    simp only []
    split
    · exact ih _ _ hm1
    · split
      · exact ih _ _ hm1
      · split
        · simp [hn]
        · split
          · simp [hn]
          · exact ih _ _ hm1

theorem ressInstructionsFrom_empty_iff (m : Nat → Option Nat) (as_lib : Bool)
    (lines : List String) :
    ∀ (i : Nat) (f : String), (∀ j, j < i + lines.length → (m j).isSome = true) →
      (ressInstructionsFrom m as_lib lines i f = some "" ↔
        ∀ k l, lines[k]? = some l → ¬ BadRess as_lib (trackFunction f (lines.take k)) l) := by
  induction lines with
  | nil => intro i f _; simp [ressInstructionsFrom]
  | cons x rest ih =>
    intro i f hm
    have hmi : (m i).isSome = true := hm i (by simp)
    obtain ⟨n, hn⟩ := Option.isSome_iff_exists.mp hmi
    have hm1 : ∀ j, j < (i + 1) + rest.length → (m j).isSome = true := by
      intro j hj
      apply hm
      simp
      omega
    have hsplit : (∀ k l, (x :: rest)[k]? = some l →
          ¬ BadRess as_lib (trackFunction f ((x :: rest).take k)) l) ↔
        (¬ BadRess as_lib f x ∧ ∀ k l, rest[k]? = some l →
          ¬ BadRess as_lib (trackFunction (trackStep f x) (rest.take k)) l) := by
      constructor
      · intro h
        refine ⟨h 0 x (by simp), ?_⟩
        intro k l hk
        have := h (k + 1) l (by simpa using hk)
        simpa [trackFunction] using this
      · rintro ⟨h0, h1⟩ k l hk
        cases k with
        | zero =>
          have hx : x = l := by simpa using hk
          subst hx
          simpa [trackFunction] using h0
        | succ k =>
          have := h1 k l (by simpa using hk)
          simpa [trackFunction] using this
    rw [hsplit, ressInstructionsFrom]
    simp only []
    by_cases hf : str.startswith (str.lstrip x) ".function:" = true
    · have hnr := not_ress_of_function x hf
      rw [if_pos hf, ih (i + 1) _ hm1]
      have hstep : trackStep f x = secondToken (str.lstrip x) := by simp [trackStep, hf]
      rw [hstep]
      constructor
      · intro h
        exact ⟨fun hb => Bool.false_ne_true (hnr.symm.trans hb.1), h⟩
      · intro h
        exact h.2
    · rw [if_neg hf]
      have hstep : trackStep f x = f := by simp [trackStep, hf]
      rw [hstep]
      by_cases hr : str.startswith (str.lstrip x) "ress" = true
      · simp only [hr, Bool.not_true, Bool.false_eq_true, if_false]
        by_cases hl : legal_register_sets.contains (secondToken (str.lstrip x)) = true
        · have hl2 : secondToken (str.lstrip x) ∈ legal_register_sets := by simpa using hl
          simp only [hl, Bool.not_true, Bool.false_eq_true, if_false]
          by_cases hg : (secondToken (str.lstrip x) == "global" && as_lib && f != "main") = true
          · rw [if_pos hg, hn]
            simp only [Bool.and_eq_true, beq_iff_eq, bne_iff_ne, ne_eq] at hg
            constructor
            · intro h
              exfalso
              simp only [Option.map_some', Option.some.injEq] at h
              exact append_ne_empty "fatal: global registers used in library function at line " _
                (by decide) h
            · intro h
              exact absurd ⟨hr, Or.inr ⟨hg.1.1, hg.1.2, hg.2⟩⟩ h.1
          · rw [if_neg hg, ih (i + 1) _ hm1]
            simp only [Bool.and_eq_true, beq_iff_eq, bne_iff_ne, ne_eq] at hg
            constructor
            · intro h
              refine ⟨?_, h⟩
              rintro ⟨_, hb | hb⟩
              · exact hb hl2
              · exact hg ⟨⟨hb.1, hb.2.1⟩, hb.2.2⟩
            · intro h
              exact h.2
        · have hl2 : secondToken (str.lstrip x) ∉ legal_register_sets := by simpa using hl
          have hl3 : (!legal_register_sets.contains (secondToken (str.lstrip x))) = true := by
            simpa using hl
          rw [if_pos hl3, hn]
          constructor
          · intro h
            exfalso
            simp only [Option.map_some', Option.some.injEq] at h
            exact append_ne_empty _ _ (append_ne_empty _ _ (append_ne_empty _ _
              (by decide))) h
          · intro h
            exact absurd ⟨hr, Or.inl hl2⟩ h.1
      · have hr2 : str.startswith (str.lstrip x) "ress" = false := by simpa using hr
        simp only [hr2, Bool.not_false, if_true]
        rw [ih (i + 1) _ hm1]
        constructor
        · intro h
          exact ⟨fun hb => Bool.false_ne_true (hr2.symm.trans hb.1), h⟩
        · intro h
          exact h.2

theorem ressInstructions_tracked_iff (lines : List String) (m : Nat → Option Nat)
    (as_lib : Bool) (hm : ∀ i, i < lines.length → (m i).isSome = true) :
    (∃ report, ressInstructions lines m as_lib = some report ∧ report ≠ "") ↔
      ∃ k l, lines[k]? = some l ∧ str.startswith (str.lstrip l) "ress" = true ∧
        (secondToken (str.lstrip l) ∉ legal_register_sets ∨
          (secondToken (str.lstrip l) = "global" ∧ as_lib = true ∧
            enclosingFunction lines k ≠ "main")) := by
  have hm0 : ∀ j, j < 0 + lines.length → (m j).isSome = true := by
    intro j hj
    exact hm j (by simpa using hj)
  have hsome := ressInstructionsFrom_isSome m as_lib lines 0 "" hm0
  have hiff := ressInstructionsFrom_empty_iff m as_lib lines 0 "" hm0
  obtain ⟨r, hr⟩ := Option.isSome_iff_exists.mp hsome
  unfold ressInstructions
  rw [hr] at hiff ⊢
  constructor
  · rintro ⟨report, hrep, hne⟩
    have hrr : r = report := by simpa using hrep
    subst hrr
    by_contra hno
    apply hne
    have : some r = some "" := hiff.mpr (by
      intro k l hk hb
      exact hno ⟨k, l, hk, hb.1, hb.2⟩)
    simpa using this
  · rintro ⟨k, l, hk, hress, hbad⟩
    refine ⟨r, rfl, ?_⟩
    intro hre
    subst hre
    exact hiff.mp rfl k l hk ⟨hress, hbad⟩

theorem dropWhile_idem {α : Type} (p : α → Bool) (l : List α) :
    (l.dropWhile p).dropWhile p = l.dropWhile p := by
  induction l with
  | nil => rfl
  | cons x xs ih =>
    by_cases h : p x = true
    · simp only [List.dropWhile_cons, h, if_true]
      exact ih
    · have h2 : p x = false := by simpa using h
      simp only [List.dropWhile_cons, h2, Bool.false_eq_true, if_false]

theorem drop_length_takeWhile {α : Type} (p : α → Bool) (l : List α) :
    l.drop (l.takeWhile p).length = l.dropWhile p := by
  induction l with
  | nil => rfl
  | cons x xs ih =>
    by_cases h : p x = true
    · simp only [List.takeWhile_cons, List.dropWhile_cons, h, if_true, List.length_cons,
        List.drop_succ_cons]
      exact ih
    · have h2 : p x = false := by simpa using h
      simp only [List.takeWhile_cons, List.dropWhile_cons, h2, Bool.false_eq_true, if_false,
        List.length_nil, List.drop_zero]

theorem wordsFrom_step (cs : List Char) :
    ∀ word : List Char, wordsFrom cs word =
      match cs.dropWhile (fun c => !str.isBlank c) with
      | [] =>
        if (word ++ cs.takeWhile (fun c => !str.isBlank c)).isEmpty then []
        else [word ++ cs.takeWhile (fun c => !str.isBlank c)]
      | _ :: rest =>
        if (word ++ cs.takeWhile (fun c => !str.isBlank c)).isEmpty then wordsFrom rest []
        else (word ++ cs.takeWhile (fun c => !str.isBlank c)) :: wordsFrom rest [] := by
  induction cs with
  | nil => intro word; simp [wordsFrom]
  | cons c cs ih =>
    intro word
    by_cases hb : str.isBlank c = true
    · simp [wordsFrom, hb, List.takeWhile_cons, List.dropWhile_cons]
    · have hb2 : str.isBlank c = false := by simpa using hb
      rw [wordsFrom]
      simp only [hb2, Bool.false_eq_true, if_false]
      rw [ih (word ++ [c])]
      simp [List.takeWhile_cons, List.dropWhile_cons, hb2]

theorem wordsFrom_lstrip (cs : List Char) :
    wordsFrom (cs.dropWhile str.isBlank) [] = wordsFrom cs [] := by
  induction cs with
  | nil => rfl
  | cons c cs ih =>
    by_cases hb : str.isBlank c = true
    · simp only [List.dropWhile_cons, hb, if_true]
      rw [ih]
      simp [wordsFrom, hb]
    · have hb2 : str.isBlank c = false := by simpa using hb
      simp only [List.dropWhile_cons, hb2, Bool.false_eq_true, if_false]

theorem head_dropWhile {α : Type} (p : α → Bool) :
    ∀ (l : List α) (x : α) (xs : List α), l.dropWhile p = x :: xs → p x = false := by
  intro l
  induction l with
  | nil => intro x xs h; simp at h
  | cons y ys ih =>
    intro x xs h
    by_cases hy : p y = true
    · simp only [List.dropWhile_cons, hy, if_true] at h
      exact ih x xs h
    · have hy2 : p y = false := by simpa using hy
      simp only [List.dropWhile_cons, hy2, Bool.false_eq_true, if_false] at h
      rw [← (List.cons.inj h).1]
      exact hy2

theorem head_wordsFrom (cs : List Char) :
    ((wordsFrom cs []).head?).getD [] =
      (cs.dropWhile str.isBlank).takeWhile (fun c => !str.isBlank c) := by
  rw [← wordsFrom_lstrip, wordsFrom_step]
  cases hs : cs.dropWhile str.isBlank with
  | nil => simp
  | cons c t =>
    have hc : str.isBlank c = false := head_dropWhile _ cs c t hs
    cases hr : (c :: t).dropWhile (fun c => !str.isBlank c) with
    | nil => simp [List.takeWhile_cons, hc]
    | cons b rest => simp [List.takeWhile_cons, hc]

theorem second_wordsFrom (cs : List Char) :
    (wordsFrom cs []).getD 1 [] =
      (((cs.dropWhile str.isBlank).dropWhile (fun c => !str.isBlank c)).dropWhile
        str.isBlank).takeWhile (fun c => !str.isBlank c) := by
  rw [← wordsFrom_lstrip, wordsFrom_step]
  cases hs : cs.dropWhile str.isBlank with
  | nil => simp
  | cons c t =>
    have hc : str.isBlank c = false := head_dropWhile _ cs c t hs
    cases hr : (c :: t).dropWhile (fun c => !str.isBlank c) with
    | nil => simp [List.takeWhile_cons, hc]
    | cons b rest =>
      have hb : (!str.isBlank b) = false := head_dropWhile _ (c :: t) b rest hr
      have hb2 : str.isBlank b = true := by simpa using hb
      have hh := head_wordsFrom rest
      simp only [List.takeWhile_cons, hc, Bool.not_false, if_true, List.append_eq,
        List.nil_append, List.isEmpty_cons, Bool.false_eq_true, if_false, List.getD_cons_succ,
        List.dropWhile_cons, hb2]
      rw [← hh]
      cases wordsFrom rest [] <;> rfl

theorem secondToken_lstrip (l : String) : secondToken (str.lstrip l) = secondWord l := by
  unfold secondToken secondWord words str.chunk str.lstrip str.sub
  simp only [String.length, dropWhile_idem, drop_length_takeWhile]
  rw [List.getD_eq_getElem?_getD, List.getElem?_map]
  have h := second_wordsFrom l.data
  rw [List.getD_eq_getElem?_getD] at h
  cases hw : (wordsFrom l.data [])[1]? with
  | none =>
    rw [hw] at h
    simp only [Option.getD_none] at h
    simp only [Option.map_none', Option.getD_none]
    rw [← h]
  | some w =>
    rw [hw] at h
    simp only [Option.getD_some] at h
    simp only [Option.map_some', Option.getD_some]
    rw [← h]

theorem trackFunction_eq (ls : List String) :
    ∀ f : String, trackFunction f ls =
      ((ls.reverse.find? (fun l => str.startswith (str.lstrip l) ".function:")).map
        secondWord).getD f := by
  induction ls with
  | nil => intro f; rfl
  | cons x rest ih =>
    intro f
    unfold trackFunction at ih ⊢
    rw [List.foldl_cons, ih (trackStep f x), List.reverse_cons, List.find?_append]
    cases hr : rest.reverse.find? (fun l => str.startswith (str.lstrip l) ".function:") with
    | some y => simp
    | none =>
      by_cases hx : str.startswith (str.lstrip x) ".function:" = true
      · simp [trackStep, hx, List.find?, secondToken_lstrip]
      · have hx2 : str.startswith (str.lstrip x) ".function:" = false := by simpa using hx
        simp [trackStep, hx2, List.find?]

theorem enclosingFunction_ne_main (lines : List String) (k : Nat) :
    enclosingFunction lines k ≠ "main" ↔ functionAbove lines k ≠ some "main" := by
  unfold enclosingFunction functionAbove
  rw [trackFunction_eq]
  cases ((lines.take k).reverse.find?
      (fun l => str.startswith (str.lstrip l) ".function:")).map secondWord with
  | none => simp
  | some f => simp

/-- C27 (counterexample): the single line `ress global`, assembled as a library. It names
the legal register set `global` and there is no `.function:` line above it, so it occurs
in no function at all; yet `ressInstructions` returns a non-empty report. -/
theorem ress_global_outside_function :
    (∃ report, ressInstructions ["ress global"] idLineMap true = some report ∧ report ≠ "") ∧
    ¬ ∃ k l, ["ress global"][k]? = some l ∧ str.startswith (str.lstrip l) "ress" = true ∧
      (secondWord l ∉ legal_register_sets ∨
        (secondWord l = "global" ∧
          ∃ f, functionAbove ["ress global"] k = some f ∧ f ≠ "main")) := by
  constructor
  · exact ⟨"fatal: global registers used in library function at line 1", by decide, by decide⟩
  · rintro ⟨k, l, hk, _, h⟩
    cases k with
    | zero =>
      simp only [List.getElem?_cons_zero, Option.some.injEq] at hk
      subst hk
      rcases h with h | ⟨_, f, hf, _⟩
      · exact h (by decide)
      · have hnone : functionAbove ["ress global"] 0 = Option.none := by decide
        rw [hnone] at hf
        cases hf
    | succ n => simp at hk

/-- C27 (amended): with the line map defined on every index of the list,
`ressInstructions` returns a non-empty report iff some line beginning with `ress` names
(as its second word) a register set outside `global`, `local`, `static`, `temp`, or the
source is assembled as a library and some line beginning with `ress` names `global`
without lying under `.function: main`: the last `.function:` line above it names another
function, or there is no `.function:` line above it. -/
theorem ressInstructions_nonempty_iff (lines : List String) (m : Nat → Option Nat)
    (as_lib : Bool) (hm : ∀ i, i < lines.length → (m i).isSome = true) :
    (∃ report, ressInstructions lines m as_lib = some report ∧ report ≠ "") ↔
      ∃ k l, lines[k]? = some l ∧ str.startswith (str.lstrip l) "ress" = true ∧
        (secondWord l ∉ legal_register_sets ∨
          (secondWord l = "global" ∧ as_lib = true ∧
            functionAbove lines k ≠ some "main")) := by
  rw [ressInstructions_tracked_iff lines m as_lib hm]
  constructor
  · rintro ⟨k, l, hk, hr, h⟩
    refine ⟨k, l, hk, hr, ?_⟩
    rw [secondToken_lstrip] at h
    rcases h with h | ⟨h1, h2, h3⟩
    · exact Or.inl h
    · exact Or.inr ⟨h1, h2, (enclosingFunction_ne_main lines k).mp h3⟩
  · rintro ⟨k, l, hk, hr, h⟩
    refine ⟨k, l, hk, hr, ?_⟩
    rw [secondToken_lstrip]
    rcases h with h | ⟨h1, h2, h3⟩
    · exact Or.inl h
    · exact Or.inr ⟨h1, h2, (enclosingFunction_ne_main lines k).mpr h3⟩

/-- Witness for `ressInstructions_nonempty_iff`: `ress global` in library function `f`. -/
theorem ressInstructions_nonempty_iff_witness :
    ∃ report, ressInstructions [".function: f", "ress global", "end", ".end"] idLineMap true =
      some report ∧ report ≠ "" :=
  (ressInstructions_nonempty_iff [".function: f", "ress global", "end", ".end"] idLineMap true
    (fun _ _ => rfl)).mpr
    ⟨1, "ress global", by decide, by decide, Or.inr ⟨by decide, rfl, by decide⟩⟩

end Ress

/-! ## C19 and C26: the report for a call without a frame; `try` lines -/

section FrameBalanceReport

open assembler.verify

theorem frameBalanceFrom_append (m : Nat → Option Nat) (xs ys : List String) :
    ∀ (i : Nat) (b : Int) (prev : Nat), BalancedFrom b xs →
      ∃ prev2, frameBalanceFrom m (xs ++ ys) i b prev =
        frameBalanceFrom m ys (i + xs.length) (b + pending xs) prev2 := by
  induction xs with
  | nil =>
    intro i b prev _
    exact ⟨prev, by simp [pending_nil]⟩
  | cons x rest ih =>
    intro i b prev hbal
    rw [balancedFrom_cons] at hbal
    obtain ⟨hb, hend, hrest⟩ := hbal
    have hb2 : b + delta (mnemonic x) = 0 ∨ b + delta (mnemonic x) = 1 := by
      have := hrest.1 0 (Nat.zero_le _)
      simpa [pending_nil] using this
    rw [List.cons_append, frameBalanceFrom_cons]
    have hlen : i + (x :: rest).length = (i + 1) + rest.length := by
      simp only [List.length_cons]
      omega
    rw [hlen, pending_cons, ← add_assoc]
    by_cases ht : isTracked (mnemonic x) = true
    · simp only [ht, Bool.not_true, Bool.false_eq_true, if_false]
      have h1 : ¬ b + delta (mnemonic x) < 0 := by omega
      have h2 : ¬ b + delta (mnemonic x) > 1 := by omega
      have h3 : ¬ (mnemonic x == "end" && decide (b + delta (mnemonic x) > 0)) = true := by
        simp only [Bool.and_eq_true, beq_iff_eq, decide_eq_true_eq, not_and]
        intro he
        have := hend he
        omega
      rw [if_neg h1, if_neg h2, if_neg h3]
      exact ih (i + 1) _ _ hrest
    · have ht2 : isTracked (mnemonic x) = false := by simpa using ht
      simp only [ht2, Bool.not_false, if_true]
      have hd := delta_untracked _ ht2
      rw [hd, add_zero] at hrest ⊢
      exact ih (i + 1) b prev hrest

/-- C19: when the lines before index `i` are balanced and leave no pending frame, and
line `i` is a `call` (or `fcall`, or `msg`), `frameBalance` returns exactly
`fatal: call with 'call' without a frame at line N` (naming `fcall` or `msg` instead
when that is the instruction), N being the source line mapped from `i` plus one. -/
theorem frameBalance_call_without_frame (lines : List String) (m : Nat → Option Nat)
    (i : Nat) (l : String) (n : Nat)
    (hl : lines[i]? = some l)
    (hcall : mnemonic l = "call" ∨ mnemonic l = "fcall" ∨ mnemonic l = "msg")
    (hbal : BalancedAtEveryEnd (lines.take i))
    (hpend : (frameCount (lines.take i) : Int) - consumerCount (lines.take i) = 0)
    (hn : m i = some n) :
    frameBalance lines m =
      some ("fatal: call with '" ++ mnemonic l ++ "' without a frame at line " ++ lineNo n) := by
  have hi : i < lines.length := by
    by_contra hge
    have : lines[i]? = none := by simp; omega
    rw [this] at hl
    cases hl
  have hdrop : lines.drop i = l :: lines.drop (i + 1) := by
    have h1 := List.drop_eq_getElem_cons hi
    have h2 : lines[i] = l := by
      have := List.getElem?_eq_getElem hi
      rw [this] at hl
      simpa using hl
    rw [h1, h2]
  have hsplit : lines = lines.take i ++ (l :: lines.drop (i + 1)) := by
    rw [← hdrop, List.take_append_drop]
  obtain ⟨prev2, hp⟩ := frameBalanceFrom_append m (lines.take i) (l :: lines.drop (i + 1))
    0 0 0 ((balancedAtEveryEnd_iff _).mp hbal)
  have hlen : (lines.take i).length = i := by
    simp only [List.length_take]
    omega
  have hpend2 : pending (lines.take i) = 0 := hpend
  unfold frameBalance
  rw [hsplit, hp, hlen, hpend2, frameBalanceFrom_cons]
  have hd : delta (mnemonic l) = -1 ∧ isTracked (mnemonic l) = true := by
    rcases hcall with h | h | h <;> rw [h] <;> decide
  simp [hd.1, hd.2, hn]

/-- Witness for `frameBalance_call_without_frame`: scenario 4 of section 8. -/
theorem frameBalance_call_without_frame_witness :
    frameBalance [".function: main", "call 0 f", "end", ".end"] idLineMap =
      some "fatal: call with 'call' without a frame at line 2" :=
  frameBalance_call_without_frame [".function: main", "call 0 f", "end", ".end"] idLineMap
    1 "call 0 f" 1 (by decide) (Or.inl (by decide))
    (by
      constructor
      · intro k hk
        have hk1 : k ≤ 1 := hk
        interval_cases k <;> decide
      · intro k l' hk hend
        have hk0 : k = 0 := by
          by_contra hne
          have : ([".function: main", "call 0 f", "end", ".end"].take 1)[k]? = none := by
            simp
            omega
          rw [this] at hk
          cases hk
        subst hk0
        decide)
    (by decide) rfl

/-- C26 (evaluation at the failing input): `blockTries` looks at `enter` lines only, so a
`try` naming an undefined block yields the empty report, while the same name after
`enter` is reported. -/
theorem blockTries_ignores_try :
    blockTries [".function: main", "tryframe", "try nowhere", "izero 0", "end", ".end"]
        idLineMap [] [] = some "" ∧
      blockTries ["enter nowhere"] idLineMap [] [] =
        some "fatal: cannot enter undefined block 'nowhere' at line 1" := by
  decide

end FrameBalanceReport

/-! ## C30: the search path -/

/-- C30 (evaluation at the failing inputs): a leading `:` and a doubled `:` end up inside
an entry, and a trailing `:` adds an entry holding a NUL character; an unset or empty
variable and a path without empty segments are split as expected. -/
theorem getpaths_keeps_colon :
    (support.env.getpaths (some ":a") = [":a"] ∧ colonSegments ":a" = ["a"]) ∧
    (support.env.getpaths (some "a::b") = ["a", ":b"] ∧ colonSegments "a::b" = ["a", "b"]) ∧
    (support.env.getpaths (some "a:") = ["a", String.mk [Char.ofNat 0]] ∧
      colonSegments "a:" = ["a"]) ∧
    support.env.getpaths none = [] ∧ support.env.getpaths (some "") = [] ∧
    support.env.getpaths (some "/usr/lib:~/viua") = ["/usr/lib", "~/viua"] := by
  decide

/-! ## C29: jump resolution -/

section ResolveJump

theorem digit_not_special (c : Char) (h : c.isDigit = true) :
    c.isWhitespace = false ∧ c ≠ '-' ∧ c ≠ '+' ∧ c ≠ '.' := by
  refine ⟨?_, ?_, ?_, ?_⟩
  · cases hw : c.isWhitespace with
    | false => rfl
    | true =>
      exfalso
      simp only [Char.isWhitespace, Bool.or_eq_true, decide_eq_true_eq] at hw
      rcases hw with ((rfl | rfl) | rfl) | rfl <;> exact absurd h (by decide)
  · rintro rfl; exact absurd h (by decide)
  · rintro rfl; exact absurd h (by decide)
  · rintro rfl; exact absurd h (by decide)

theorem digit_not_space (c : Char) (h : c.isDigit = true) : isspace c = false := by
  cases hw : isspace c with
  | false => rfl
  | true =>
    exfalso
    simp only [isspace, Bool.or_eq_true, beq_iff_eq] at hw
    rcases hw with ((((rfl | rfl) | rfl) | rfl) | rfl) | rfl <;> exact absurd h (by decide)

theorem takeWhile_all {α : Type} (p : α → Bool) (xs : List α) (h : ∀ x ∈ xs, p x = true) :
    xs.takeWhile p = xs := by
  induction xs with
  | nil => rfl
  | cons x rest ih =>
    rw [List.takeWhile_cons, h x (List.mem_cons_self _ _)]
    simp only [if_true]
    rw [ih (fun y hy => h y (List.mem_cons_of_mem _ hy))]

theorem addInt32_eq (a b : Int) (h1 : -(2 ^ 31) ≤ a + b) (h2 : a + b < 2 ^ 31) :
    addInt32 a b = a + b := by
  unfold addInt32 toSigned32 toUnsigned32
  norm_num at h1 h2 ⊢
  split <;> omega

theorem stoi_digits (ds : List Char) (hne : ds ≠ []) (hd : ∀ c ∈ ds, c.isDigit = true)
    (hv : decimalValue ds < 2 ^ 31) : stoi (String.mk ds) = .ok (decimalValue ds : Int) := by
  cases ds with
  | nil => exact absurd rfl hne
  | cons c cs =>
    obtain ⟨_, hm, hp, _⟩ := digit_not_special c (hd c (List.mem_cons_self _ _))
    have hw := digit_not_space c (hd c (List.mem_cons_self _ _))
    unfold stoi
    have ht : (c :: cs).dropWhile isspace = c :: cs := by
      rw [List.dropWhile_cons, hw]
      rfl
    have hs2 : (c == '-') = false := by simp [hm]
    have hs3 : (c == '+') = false := by simp [hp]
    simp only [ht, List.head?_cons, Option.some_beq_some, hs2, hs3, Bool.or_self,
      Bool.false_eq_true, if_false, takeWhile_all Char.isDigit (c :: cs) hd, List.length_cons]
    have hv2 : ((decimalValue (c :: cs) : Nat) : Int) < 2 ^ 31 := by exact_mod_cast hv
    have hv0 : (0 : Int) ≤ ((decimalValue (c :: cs) : Nat) : Int) := Int.ofNat_nonneg _
    rw [if_neg (Nat.succ_ne_zero _), if_neg (by omega)]

theorem stoi_minus_digits (ds : List Char) (hne : ds ≠ [])
    (hd : ∀ c ∈ ds, c.isDigit = true) (hv : decimalValue ds < 2 ^ 31) :
    stoi (String.mk ('-' :: ds)) = .ok (-(decimalValue ds : Int)) := by
  cases ds with
  | nil => exact absurd rfl hne
  | cons c cs =>
    unfold stoi
    have ht : ('-' :: c :: cs).dropWhile isspace = '-' :: c :: cs := by
      rw [List.dropWhile_cons]
      rfl
    simp only [ht, List.head?_cons, beq_self_eq_true, Bool.true_or, if_true, List.drop_succ_cons,
      List.drop_zero, takeWhile_all Char.isDigit (c :: cs) hd, List.length_cons]
    have hv2 : ((decimalValue (c :: cs) : Nat) : Int) < 2 ^ 31 := by exact_mod_cast hv
    have hv0 : (0 : Int) ≤ ((decimalValue (c :: cs) : Nat) : Int) := Int.ofNat_nonneg _
    rw [if_neg (Nat.succ_ne_zero _), if_neg (by omega)]

theorem isnum_digits (ds : List Char) (hne : ds ≠ []) (hd : ∀ c ∈ ds, c.isDigit = true)
    (negatives : Bool) : str.isnum (String.mk ds) negatives = true := by
  cases ds with
  | nil => exact absurd rfl hne
  | cons c cs =>
    obtain ⟨_, hm, _, _⟩ := digit_not_special c (hd c (List.mem_cons_self _ _))
    have hs2 : (c == '-') = false := by simp [hm]
    have hall : (c :: cs).all Char.isDigit = true := List.all_eq_true.mpr hd
    unfold str.isnum
    simp only [List.head?_cons, Option.some_beq_some, hs2, Bool.and_false, Bool.false_eq_true,
      if_false, hall, List.length_cons]
    simp

theorem isnum_nondigit (c : Char) (cs : List Char) (hc : c.isDigit = false) :
    str.isnum (String.mk (c :: cs)) false = false := by
  unfold str.isnum
  simp [hc]

theorem resolvejump_numeric (ds : List Char) (hne : ds ≠ []) (hd : ∀ c ∈ ds, c.isDigit = true)
    (hv : decimalValue ds < 2 ^ 31) (marks : List (String × Int)) (i : Int) :
    resolvejump (String.mk ds) marks i = .ok ((decimalValue ds : Int), JUMPTYPE.JMP_RELATIVE) := by
  unfold resolvejump
  rw [if_pos (isnum_digits ds hne hd false), stoi_digits ds hne hd hv]
  rfl

theorem resolvejump_absolute (ds : List Char) (hne : ds ≠ []) (hd : ∀ c ∈ ds, c.isDigit = true)
    (hv : decimalValue ds < 2 ^ 31) (marks : List (String × Int)) (i : Int) :
    resolvejump (String.mk ('.' :: ds)) marks i =
      .ok ((decimalValue ds : Int), JUMPTYPE.JMP_ABSOLUTE) := by
  unfold resolvejump
  have hsub : str.sub (String.mk ('.' :: ds)) 1 = String.mk ds := rfl
  rw [isnum_nondigit '.' ds (by decide), hsub, isnum_digits ds hne hd true,
    stoi_digits ds hne hd hv]
  rfl

theorem resolvejump_plus (ds : List Char) (hne : ds ≠ []) (hd : ∀ c ∈ ds, c.isDigit = true)
    (marks : List (String × Int)) (i : Int) (hi : 0 ≤ i)
    (hv : i + decimalValue ds < 2 ^ 31) :
    resolvejump (String.mk ('+' :: ds)) marks i =
      .ok (i + (decimalValue ds : Int), JUMPTYPE.JMP_RELATIVE) := by
  have hv1 : decimalValue ds < 2 ^ 31 := by
    have : ((decimalValue ds : Nat) : Int) < 2 ^ 31 := by omega
    exact_mod_cast this
  cases ds with
  | nil => exact absurd rfl hne
  | cons c cs =>
    unfold resolvejump
    have hsub : str.sub (String.mk ('+' :: c :: cs)) 1 = String.mk (c :: cs) := rfl
    have h2 : (['+', c] == "0x".data) = false := by
      apply beq_eq_false_iff_ne.mpr
      intro h
      have hx : "0x".data = ['0', 'x'] := rfl
      rw [hx] at h
      exact absurd (List.cons.inj h).1 (by decide)
    have hneg : ¬ i < 0 := by omega
    rw [isnum_nondigit '+' (c :: cs) (by decide)]
    simp only [Bool.false_eq_true, if_false, List.head?_cons, List.take_succ_cons,
      List.take_zero, h2, hneg, hsub, stoi_digits (c :: cs) hne hd hv1]
    have ha := addInt32_eq i (decimalValue (c :: cs) : Int) (by omega) hv
    simp [ha, Except.map]

theorem resolvejump_minus (ds : List Char) (hne : ds ≠ []) (hd : ∀ c ∈ ds, c.isDigit = true)
    (hv : decimalValue ds < 2 ^ 31) (marks : List (String × Int)) (i : Int) (hi : 0 ≤ i)
    (hi2 : i < 2 ^ 31) :
    resolvejump (String.mk ('-' :: ds)) marks i =
      if i < (decimalValue ds : Int) then
        .error "use of relative jump results in a jump to negative index"
      else .ok (i - (decimalValue ds : Int), JUMPTYPE.JMP_RELATIVE) := by
  have hv2 : ((decimalValue ds : Nat) : Int) < 2 ^ 31 := by exact_mod_cast hv
  have hv0 : (0 : Int) ≤ ((decimalValue ds : Nat) : Int) := Int.ofNat_nonneg _
  have hst := stoi_minus_digits ds hne hd hv
  cases ds with
  | nil => exact absurd rfl hne
  | cons c cs =>
    unfold resolvejump
    have h2 : (['-', c] == "0x".data) = false := by
      apply beq_eq_false_iff_ne.mpr
      intro h
      have hx : "0x".data = ['0', 'x'] := rfl
      rw [hx] at h
      exact absurd (List.cons.inj h).1 (by decide)
    have hneg : ¬ i < 0 := by omega
    rw [isnum_nondigit '-' (c :: cs) (by decide)]
    simp only [Bool.false_eq_true, if_false, List.head?_cons, List.take_succ_cons,
      List.take_zero, h2, hneg, hst]
    have ha := addInt32_eq i (-(decimalValue (c :: cs) : Int)) (by omega) (by omega)
    simp only [ha]
    by_cases hlt : i < (decimalValue (c :: cs) : Int)
    · simp [hlt]
    · simp [hlt]
      ring

theorem resolvejump_hex (hs : List Char) (hh : ∀ c ∈ hs, isHexDigit c = true)
    (hv : hexValue hs < 2 ^ 31) (marks : List (String × Int)) (i : Int) :
    resolvejump (String.mk ('0' :: 'x' :: hs)) marks i =
      .ok ((hexValue hs : Int), JUMPTYPE.JMP_TO_BYTE) := by
  unfold resolvejump
  have h1 : str.isnum (String.mk ('0' :: 'x' :: hs)) false = false := by
    unfold str.isnum
    simp
  have h3 : ((String.mk ('0' :: 'x' :: hs)).data.take 2 == "0x".data) = true := by
    simp
  rw [h1]
  simp only [Bool.false_eq_true, if_false, List.head?_cons, h3, if_true]
  have hd : (Option.some '0' == some '.') = false := by decide
  simp only [hd, Bool.false_and, Bool.false_eq_true, if_false]
  unfold readHexInt
  simp only [List.drop_succ_cons, List.drop_zero, takeWhile_all isHexDigit hs hh]
  rw [if_neg (by omega)]

theorem resolvejump_marker (label : String) (marks : List (String × Int)) (i : Int)
    (hnum : str.isnum label false = false)
    (hdot : label.data.head? ≠ some '.') (hminus : label.data.head? ≠ some '-')
    (hplus : label.data.head? ≠ some '+') (hhex : label.data.take 2 ≠ "0x".data) :
    resolvejump label marks i =
      match marks.lookup label with
      | some addr => .ok (addr, JUMPTYPE.JMP_RELATIVE)
      | none => .error ("jump to unrecognised marker: " ++ label) := by
  unfold resolvejump
  simp [hnum, hdot, hminus, hplus, hhex]

/-- C29 (as stated, refuted): a numeral beyond the range of `int` is not mapped to its
value, and a label that begins with `.` is not looked up in the marker table. -/
theorem resolvejump_claim_fails :
    resolvejump "2147483648" [] 0 = .error "std::out_of_range" ∧
    resolvejump ".loop" [(".loop", 7)] 0 =
      .error "exit(1): global marker jumps (jumps to functions) are not implemented yet" :=
  ⟨rfl, rfl⟩

/-- C29 (amended): for an instruction index `0 ≤ i < 2^31`, a decimal numeral `ds` of value
`N < 2^31`, a hexadecimal numeral `hs` of value below `2^31` and every marker table,
`resolvejump` maps `N` to (N, relative), `.N` to (N, absolute), `0x` followed by `hs` to
(its value, byte address), `+N` to (i+N, relative) when `i + N < 2^31`, `-N` to
(i−N, relative) when `i ≥ N` and fails when `i < N`; a label that is not a numeral and
does not begin with `.`, `+`, `-` or `0x` is mapped to its entry in the marker table and
fails with `jump to unrecognised marker` when it is not declared. -/
theorem resolvejump_cases (i : Int) (hi : 0 ≤ i) (hi2 : i < 2 ^ 31)
    (marks : List (String × Int)) (ds hs : List Char)
    (hne : ds ≠ []) (hd : ∀ c ∈ ds, c.isDigit = true) (hv : decimalValue ds < 2 ^ 31)
    (hh : ∀ c ∈ hs, isHexDigit c = true) (hhv : hexValue hs < 2 ^ 31) :
    resolvejump (String.mk ds) marks i =
      .ok ((decimalValue ds : Int), JUMPTYPE.JMP_RELATIVE) ∧
    resolvejump (String.mk ('.' :: ds)) marks i =
      .ok ((decimalValue ds : Int), JUMPTYPE.JMP_ABSOLUTE) ∧
    resolvejump (String.mk ('0' :: 'x' :: hs)) marks i =
      .ok ((hexValue hs : Int), JUMPTYPE.JMP_TO_BYTE) ∧
    (i + decimalValue ds < 2 ^ 31 →
      resolvejump (String.mk ('+' :: ds)) marks i =
        .ok (i + (decimalValue ds : Int), JUMPTYPE.JMP_RELATIVE)) ∧
    ((decimalValue ds : Int) ≤ i →
      resolvejump (String.mk ('-' :: ds)) marks i =
        .ok (i - (decimalValue ds : Int), JUMPTYPE.JMP_RELATIVE)) ∧
    (i < (decimalValue ds : Int) →
      resolvejump (String.mk ('-' :: ds)) marks i =
        .error "use of relative jump results in a jump to negative index") ∧
    (∀ label : String, str.isnum label false = false →
      label.data.head? ≠ some '.' → label.data.head? ≠ some '-' →
      label.data.head? ≠ some '+' → label.data.take 2 ≠ "0x".data →
      (∀ addr, marks.lookup label = some addr →
        resolvejump label marks i = .ok (addr, JUMPTYPE.JMP_RELATIVE)) ∧
      (marks.lookup label = none →
        resolvejump label marks i = .error ("jump to unrecognised marker: " ++ label))) := by
  refine ⟨resolvejump_numeric ds hne hd hv marks i, resolvejump_absolute ds hne hd hv marks i,
    resolvejump_hex hs hh hhv marks i, fun h => resolvejump_plus ds hne hd marks i hi h,
    ?_, ?_, ?_⟩
  · intro hle
    rw [resolvejump_minus ds hne hd hv marks i hi hi2, if_neg (by omega)]
  · intro hlt
    rw [resolvejump_minus ds hne hd hv marks i hi hi2, if_pos hlt]
  · intro label h1 h2 h3 h4 h5
    have hm := resolvejump_marker label marks i h1 h2 h3 h4 h5
    constructor
    · intro addr hl
      rw [hm, hl]
    · intro hl
      rw [hm, hl]

/-- Witness for `resolvejump_cases`: index 3, the numeral `12`, the hexadecimal numeral
`1f` and a table declaring `loop`. -/
theorem resolvejump_cases_witness :
    resolvejump "12" [("loop", 7)] 3 = .ok (12, JUMPTYPE.JMP_RELATIVE) ∧
    resolvejump ".12" [("loop", 7)] 3 = .ok (12, JUMPTYPE.JMP_ABSOLUTE) ∧
    resolvejump "0x1f" [("loop", 7)] 3 = .ok (31, JUMPTYPE.JMP_TO_BYTE) ∧
    resolvejump "loop" [("loop", 7)] 3 = .ok (7, JUMPTYPE.JMP_RELATIVE) :=
  have h := resolvejump_cases 3 (by decide) (by decide) [("loop", 7)] ['1', '2'] ['1', 'f']
    (by decide) (by decide) (by decide) (by decide) (by decide)
  ⟨h.1, h.2.1, h.2.2.1,
    (h.2.2.2.2.2.2 "loop" (by decide) (by decide) (by decide) (by decide) (by decide)).1 7
      (by decide)⟩

end ResolveJump

/-! ## C23: the entry function -/

section Entry

theorem filterFrom_append (ys : List String) (xs : List String) :
    ∀ (b : Bool) (r : List String), filterFrom b xs = some r →
      filterFrom b (xs ++ ys) = (filterFrom false ys).map (fun t => r ++ t) := by
  induction xs with
  | nil =>
    intro b r h
    cases b with
    | true => simp [filterFrom] at h
    | false =>
      simp only [filterFrom, Option.some.injEq] at h
      subst h
      simp
  | cons x rest ih =>
    intro b r h
    cases b with
    | true =>
      rw [filterFrom] at h
      rw [List.cons_append, filterFrom]
      split
      · rename_i hx
        rw [if_pos hx] at h
        exact ih false r h
      · rename_i hx
        rw [if_neg hx] at h
        exact ih true r h
    | false =>
      rw [filterFrom] at h
      rw [List.cons_append, filterFrom]
      split
      · rename_i hx
        rw [if_pos hx] at h
        exact ih false r h
      · rename_i hx
        rw [if_neg hx] at h
        split
        · rename_i hy
          rw [if_pos hy] at h
          exact ih true r h
        · rename_i hy
          rw [if_neg hy] at h
          cases hf : filterFrom false rest with
          | none => rw [hf] at h; simp at h
          | some r2 =>
            rw [hf] at h
            simp only [Option.map_some', Option.some.injEq] at h
            subst h
            rw [ih false r2 hf]
            cases filterFrom false ys <;> simp

theorem call_line_kept (main_function : String) :
    isSkippedDirective ("call 1 " ++ main_function) = false ∧
      opensDefinition ("call 1 " ++ main_function) = false := by
  have hd : ("call 1 " ++ main_function).data = 'c' :: ("all 1 ".data ++ main_function.data) := by
    rw [String.data_append]
    rfl
  unfold isSkippedDirective opensDefinition str.startswith
  rw [hd]
  constructor <;> rfl

/-- C23: when the instruction lines of the source leave nothing outside definitions
(`filter` of them is empty), the lines compiled for `__entry` are exactly `ress local`,
`frame 1`, `param 0 1`, `call 1 m`, `move 0 1`, `halt` in that order, and the number of
bytes added for it is the sum of the sizes of these six instructions, 46 + len(m). -/
theorem entry_function (ilines : List String) (main_function : String)
    (h : filter ilines = some []) :
    filter (entryLines ilines main_function) =
      some ["ress local", "frame 1", "param 0 1", "call 1 " ++ main_function, "move 0 1",
        "halt"] ∧
    entryBytes main_function = some (46 + main_function.length) ∧
    entryBytes main_function =
      some (5 + 11 + 11 + (6 + (main_function.length + 1)) + 11 + 1) := by
  refine ⟨?_, ?_, ?_⟩
  · unfold filter at h
    unfold filter entryLines
    have h1 : isSkippedDirective "ress local" = false := by decide
    have h2 : opensDefinition "ress local" = false := by decide
    have hx : filterFrom false ("ress local" :: ilines) = some ["ress local"] := by
      rw [filterFrom]
      simp [h1, h2, h]
    rw [filterFrom_append _ ("ress local" :: ilines) false _ hx]
    obtain ⟨hc1, hc2⟩ := call_line_kept main_function
    have e1 : isSkippedDirective "frame 1" = false := by decide
    have e2 : opensDefinition "frame 1" = false := by decide
    have e3 : isSkippedDirective "param 0 1" = false := by decide
    have e4 : opensDefinition "param 0 1" = false := by decide
    have e5 : isSkippedDirective "move 0 1" = false := by decide
    have e6 : opensDefinition "move 0 1" = false := by decide
    have e7 : isSkippedDirective "halt" = false := by decide
    have e8 : opensDefinition "halt" = false := by decide
    simp [filterFrom, hc1, hc2, e1, e2, e3, e4, e5, e6, e7, e8]
  · have hs : OP_SIZES.lookup "ress" = some 5 ∧ OP_SIZES.lookup "frame" = some 11 ∧
        OP_SIZES.lookup "param" = some 11 ∧ OP_SIZES.lookup "call" = some 6 ∧
        OP_SIZES.lookup "move" = some 11 ∧ OP_SIZES.lookup "halt" = some 1 := by decide
    obtain ⟨a, b, c, d, e, f⟩ := hs
    unfold entryBytes
    rw [a, b, c, d, e, f]
    simp only [Option.some_bind, Option.map_some', Option.some.injEq]
    omega
  · have hs : OP_SIZES.lookup "ress" = some 5 ∧ OP_SIZES.lookup "frame" = some 11 ∧
        OP_SIZES.lookup "param" = some 11 ∧ OP_SIZES.lookup "call" = some 6 ∧
        OP_SIZES.lookup "move" = some 11 ∧ OP_SIZES.lookup "halt" = some 1 := by decide
    obtain ⟨a, b, c, d, e, f⟩ := hs
    unfold entryBytes
    rw [a, b, c, d, e, f]
    simp only [Option.some_bind, Option.map_some', Option.some.injEq]
    omega

/-- Witness for `entry_function`: a source whose only lines are the definition of
`main`. -/
theorem entry_function_witness :
    filter (entryLines [".function: main", "izero 0", "end", ".end"] "main") =
      some ["ress local", "frame 1", "param 0 1", "call 1 main", "move 0 1", "halt"] ∧
    entryBytes "main" = some 50 :=
  have h := entry_function [".function: main", "izero 0", "end", ".end"] "main" (by decide)
  ⟨h.1, h.2.1⟩

end Entry

/-! ## C24: address mapping -/

section Addresses

theorem bodySizes_cons (countBytes : List String → Nat) (sources : List (String × List String))
    (name : String) (rest : List String) (body : List String)
    (hbody : sources.lookup name = some body) :
    bodySizes countBytes sources (name :: rest) =
      countBytes body :: bodySizes countBytes sources rest := by
  simp [bodySizes, hbody]

theorem mapInvokableAddressesLoop_spec (countBytes : List String → Nat)
    (sources : List (String × List String)) (names : List String) :
    ∀ (s : Nat) (acc : List (String × Nat)), s < 2 ^ 16 →
      (∀ n ∈ names, (sources.lookup n).isSome = true) →
      ∃ res, mapInvokableAddressesLoop countBytes sources names s acc =
          some (res, (s + (bodySizes countBytes sources names).sum) % 2 ^ 16) ∧
        (∀ x, x ∉ names → res.lookup x = acc.lookup x) ∧
        (names.Nodup → ∀ k name, names[k]? = some name →
          res.lookup name =
            some ((s + ((bodySizes countBytes sources names).take k).sum) % 2 ^ 16)) := by
  induction names with
  | nil =>
    intro s acc hs _
    refine ⟨acc, ?_, fun _ _ => rfl, by simp⟩
    simp [mapInvokableAddressesLoop, bodySizes]
    norm_num at hs
    omega
  | cons name rest ih =>
    intro s acc hs hsrc
    obtain ⟨body, hbody⟩ := Option.isSome_iff_exists.mp (hsrc name (List.mem_cons_self _ _))
    obtain ⟨res, hres, hother, hk⟩ := ih ((s + countBytes body) % 2 ^ 16)
      ((name, s) :: acc) (Nat.mod_lt _ (by norm_num))
      (fun n hn => hsrc n (List.mem_cons_of_mem _ hn))
    have hsz := bodySizes_cons countBytes sources name rest body hbody
    refine ⟨res, ?_, ?_, ?_⟩
    · rw [mapInvokableAddressesLoop, hbody]
      simp only [hres, hsz, List.sum_cons]
      congr 2
      norm_num
      omega
    · intro x hx
      have hx1 : x ∉ rest := fun h => hx (List.mem_cons_of_mem _ h)
      have hx2 : x ≠ name := fun h => hx (h ▸ List.mem_cons_self _ _)
      rw [hother x hx1, List.lookup_cons]
      have : (x == name) = false := by simpa using hx2
      rw [this]
    · intro hnd k nm hget
      have hnd1 : rest.Nodup := (List.nodup_cons.mp hnd).2
      have hnotin : name ∉ rest := (List.nodup_cons.mp hnd).1
      cases k with
      | zero =>
        have hnm : name = nm := by simpa using hget
        subst hnm
        rw [hother name hnotin]
        simp
        norm_num at hs
        omega
      | succ k =>
        have := hk hnd1 k nm (by simpa using hget)
        rw [this, hsz]
        simp only [List.take_succ_cons, List.sum_cons]
        congr 1
        norm_num
        omega

theorem countBytesFixed_replicate (n : Nat) (l : String) :
    countBytesFixed (List.replicate n l) = n * (OP_SIZES.lookup (str.chunk l)).getD 0 := by
  simp [countBytesFixed, List.map_replicate, List.sum_replicate]

/-- C24 (as stated, refuted): with a block of 32768 bytes and a first function of 32768
bytes, the running 16-bit offset wraps and the second function is mapped to address 0,
below the total size of the blocks. -/
theorem mapAddresses_wraps :
    ∃ blocks fns, mapAddresses countBytesFixed
        ⟨["b"], [], [("b", List.replicate 2048 "iadd 1 2 3")]⟩
        ⟨["f", "g"], [], [("f", List.replicate 2048 "iadd 1 2 3"), ("g", ["end"])]⟩ =
      some (blocks, fns, 1) ∧ fns.lookup "g" = some 0 ∧
      countBytesFixed (List.replicate 2048 "iadd 1 2 3") = 32768 := by
  have hc : countBytesFixed (List.replicate 2048 "iadd 1 2 3") = 32768 := by
    rw [countBytesFixed_replicate]
    decide
  have he : countBytesFixed ["end"] = 1 := by decide
  refine ⟨[("b", 0)], [("g", 0), ("f", 32768)], ?_, by decide, hc⟩
  generalize List.replicate 2048 "iadd 1 2 3" = body at hc
  simp [mapAddresses, mapInvokableAddresses, mapInvokableAddressesLoop, List.lookup, hc, he]

/-- C24 (amended): for distinct names with bodies and a 16-bit starting offset,
`mapInvokableAddresses` assigns the k-th name the offset start + (sum of the sizes of the
bodies before it), as a 16-bit value, and advances the running offset by the total; as
`generate` maps blocks first and functions second with the same running offset, a
function's address is at least the total size of all blocks whenever that total plus the
sizes of the functions before it is below 2^16. -/
theorem mapAddresses_offsets (countBytes : List String → Nat) (start : Nat)
    (names : List String) (sources : List (String × List String))
    (blocks functions : invocables_t)
    (hstart : start < 2 ^ 16) (hnd : names.Nodup)
    (hsrc : ∀ n ∈ names, (sources.lookup n).isSome = true)
    (hbsrc : ∀ n ∈ blocks.names, (blocks.bodies.lookup n).isSome = true)
    (hfnd : functions.names.Nodup)
    (hfsrc : ∀ n ∈ functions.names, (functions.bodies.lookup n).isSome = true) :
    (∃ addresses,
      mapInvokableAddresses countBytes start names sources =
        some (addresses, (start + (bodySizes countBytes sources names).sum) % 2 ^ 16) ∧
      ∀ k name, names[k]? = some name →
        addresses.lookup name =
          some ((start + ((bodySizes countBytes sources names).take k).sum) % 2 ^ 16)) ∧
    (∃ block_addresses function_addresses final,
      mapAddresses countBytes blocks functions =
        some (block_addresses, function_addresses, final) ∧
      ∀ k name, functions.names[k]? = some name →
        (bodySizes countBytes blocks.bodies blocks.names).sum +
          ((bodySizes countBytes functions.bodies functions.names).take k).sum < 2 ^ 16 →
        ∃ address, function_addresses.lookup name = some address ∧
          (bodySizes countBytes blocks.bodies blocks.names).sum ≤ address) := by
  constructor
  · obtain ⟨res, h1, _, h3⟩ :=
      mapInvokableAddressesLoop_spec countBytes sources names start [] hstart hsrc
    exact ⟨res, h1, h3 hnd⟩
  · obtain ⟨ba, hb1, _, _⟩ :=
      mapInvokableAddressesLoop_spec countBytes blocks.bodies blocks.names 0 [] (by norm_num)
        hbsrc
    obtain ⟨fa, hf1, _, hf3⟩ :=
      mapInvokableAddressesLoop_spec countBytes functions.bodies functions.names
        ((0 + (bodySizes countBytes blocks.bodies blocks.names).sum) % 2 ^ 16) []
        (Nat.mod_lt _ (by norm_num)) hfsrc
    refine ⟨ba, fa, ((0 + (bodySizes countBytes blocks.bodies blocks.names).sum) % 2 ^ 16 +
      (bodySizes countBytes functions.bodies functions.names).sum) % 2 ^ 16, ?_, ?_⟩
    · unfold mapAddresses mapInvokableAddresses
      rw [hb1]
      simp only [Option.some_bind]
      rw [hf1]
      rfl
    · intro k name hget hlt
      refine ⟨_, hf3 hfnd k name hget, ?_⟩
      norm_num at hlt ⊢
      omega

/-- Witness for `mapAddresses_offsets`: one block of 6 bytes, then functions of 12 and
1 bytes. -/
theorem mapAddresses_offsets_witness :
    ∃ block_addresses function_addresses final,
      mapAddresses countBytesFixed ⟨["b"], [], [("b", ["pull 1"])]⟩
          ⟨["f", "g"], [], [("f", ["izero 0", "izero 1"]), ("g", ["end"])]⟩ =
        some (block_addresses, function_addresses, final) ∧
      ∀ k name, ["f", "g"][k]? = some name →
        (bodySizes countBytesFixed [("b", ["pull 1"])] ["b"]).sum +
          ((bodySizes countBytesFixed [("f", ["izero 0", "izero 1"]), ("g", ["end"])]
            ["f", "g"]).take k).sum < 2 ^ 16 →
        ∃ address, function_addresses.lookup name = some address ∧
          (bodySizes countBytesFixed [("b", ["pull 1"])] ["b"]).sum ≤ address :=
  (mapAddresses_offsets countBytesFixed 0 ["b"] [("b", ["pull 1"])]
    ⟨["b"], [], [("b", ["pull 1"])]⟩
    ⟨["f", "g"], [], [("f", ["izero 0", "izero 1"]), ("g", ["end"])]⟩
    (by decide) (by decide) (by decide) (by decide) (by decide) (by decide)).2

end Addresses

/-! ## C4, C21, C22: static linking and emission -/

section Linking

/-- C4 (evaluation at the failing input): local bytecode of 50 bytes, then the modules
`moduleA` (1 byte) and `moduleB` (6 bytes, jump field at position 1 holding 5).
`moduleB` is copied to offset 51 of the image, but its jump field is relocated by 50,
the offset of the first module: it holds 55, not 5 + 51. -/
theorem link_jump_relocated_by_first_offset :
    ∃ g, gatherLinks 50 [("main", 0)] [moduleA, moduleB] = some g ∧
      (writeLinkedLoop 50 g.linked_libs_jumptables g.linked_libs_bytecode
          (List.replicate 57 0) 50).1.drop 50 = [94, 75, 55, 0, 0, 0, 94] ∧
      readU32 (writeLinkedLoop 50 g.linked_libs_jumptables g.linked_libs_bytecode
          (List.replicate 57 0) 50).1 (51 + 1) = 55 ∧
      readU32 moduleB.bytecode 1 + 51 = 56 :=
  ⟨_, rfl, by decide, by decide, by decide⟩

/-- C22 (evaluation at the failing input): with the same modules, function `b` of
`moduleB` (address 0 inside the module, module placed at offset 51) is recorded in the
function-id table with address 50, the same as function `a` of the first module. -/
theorem link_function_address_not_advanced :
    ∃ g, gatherLinks 50 [("main", 0)] [moduleA, moduleB] = some g ∧
      g.linked_function_names = ["a", "b"] ∧
      linkedFunctionIds g.function_addresses g.linked_function_names =
        nameBytes "a" ++ u16le 50 ++ (nameBytes "b" ++ u16le 50) ∧
      ((writeLinkedLoop 50 g.linked_libs_jumptables g.linked_libs_bytecode
          (List.replicate 57 0) 50).1.drop 51).take 6 = [75, 55, 0, 0, 0, 94] :=
  ⟨_, rfl, by decide, by decide, by decide⟩

/-- C21 (evaluation): whatever the size, the memory next to `bytes` and the bytecode,
`generate` writes sixteen bytes for the size field: the two bytes of the size, fourteen
bytes of adjacent memory, and only then the `bytes` bytes of bytecode. -/
theorem writeImage_layout (bytes : Nat) (adjacent : Nat → Nat) (program_bytecode : List Nat) :
    (writeImage bytes adjacent program_bytecode).length = 16 + bytes ∧
    (writeImage bytes adjacent program_bytecode).take 2 = u16le bytes ∧
    ((writeImage bytes adjacent program_bytecode).drop 2).take 14 =
      (List.range 14).map adjacent ∧
    (writeImage bytes adjacent program_bytecode).drop 16 =
      (List.range bytes).map (byteAt program_bytecode) := by
  have h16 : (writeBytecodeSize bytes adjacent).length = 16 := by
    simp [writeBytecodeSize]
  have hw : writeBytecodeSize bytes adjacent =
      u16le bytes ++ (List.range 14).map adjacent := by
    simp [writeBytecodeSize, u16le, List.range, List.range.loop]
  refine ⟨?_, ?_, ?_, ?_⟩
  · simp [writeImage, h16]
  · rw [writeImage, hw]
    simp [u16le]
  · rw [writeImage, hw]
    simp [u16le]
  · rw [writeImage, List.drop_append_of_le_length (by omega)]
    rw [List.drop_of_length_le (by omega)]
    rfl

end Linking

/-! ## C2, C3, C20: the disassembler -/

section Disassembler

open disassembler

/-- C2 (evaluation at the failing input): `ptr 1 2`, encoded as section 4.1 prescribes,
is decoded to the bare mnemonic `ptr`: the `switch` has no case for `PTR` (nor for
`DEPTR`, `ISPTR`, `PAPTR`), so the operands are lost, while `move 1 @-2` is decoded to
itself. -/
theorem instruction_ptr_loses_operands (showFloat : Nat → String) :
    instruction showFloat OPCODE.PTR
        (encodeOperands ⟨OPCODE.PTR, [.reg false 1, .reg false 2]⟩) = .ok ("ptr", 11) ∧
    render "ptr" ⟨OPCODE.PTR, [.reg false 1, .reg false 2]⟩ = "ptr 1 2" ∧
    instruction showFloat OPCODE.PAPTR
        (encodeOperands ⟨OPCODE.PAPTR, [.reg false 0, .reg true 3]⟩) = .ok ("paptr", 11) ∧
    instruction showFloat OPCODE.MOVE
        (encodeOperands ⟨OPCODE.MOVE, [.reg false 1, .reg true (-2)]⟩) =
      .ok (render "move" ⟨OPCODE.MOVE, [.reg false 1, .reg true (-2)]⟩, 11) :=
  ⟨rfl, by decide, rfl, rfl⟩

/-- C3 (evaluation at the failing input): `try body` and `prototype 1 Foo` are opcodes
of `OP_VARIABLE_LENGTH`, but no branch of the decoder reads their operands: the size
reported is 1, not the fixed part plus the strings (6 and 10), while `call 1 body` is
sized 11 = 6 + 5. -/
theorem instruction_try_size (showFloat : Nat → String) :
    instruction showFloat OPCODE.TRY
        (encodeOperands ⟨OPCODE.TRY, [.name [98, 111, 100, 121]]⟩) = .ok ("try", 1) ∧
    encodedSize 1 ⟨OPCODE.TRY, [.name [98, 111, 100, 121]]⟩ = 6 ∧
    OP_SIZES.lookup "try" = some 1 ∧
    instruction showFloat OPCODE.PROTOTYPE
        (encodeOperands ⟨OPCODE.PROTOTYPE, [.reg false 1, .name [70, 111, 111]]⟩) =
      .ok ("prototype", 1) ∧
    encodedSize 6 ⟨OPCODE.PROTOTYPE, [.reg false 1, .name [70, 111, 111]]⟩ = 10 ∧
    OP_SIZES.lookup "prototype" = some 6 ∧
    instruction showFloat OPCODE.CALL
        (encodeOperands ⟨OPCODE.CALL, [.reg false 1, .name [98, 111, 100, 121]]⟩) =
      .ok ("call 1 body", 11) ∧
    encodedSize 6 ⟨OPCODE.CALL, [.reg false 1, .name [98, 111, 100, 121]]⟩ = 11 :=
  ⟨rfl, by decide, by decide, rfl, by decide, by decide, rfl, by decide⟩

/-- C20 (evaluation): whatever the function and its instructions, the first line the
disassembler emits for it is `.def: <name> 1`, and `verify::directives` rejects the
emitted lines with a report naming `.def:`. -/
theorem disassembled_function_rejected (name : String) (decoded : List String)
    (m : Nat → Option Nat) (n : Nat) (h0 : m 0 = some n) :
    assembler.verify.directives (disassembledFunction name decoded) m =
      some ("fatal: unrecognised assembler directive on line " ++
        assembler.verify.lineNo n ++ ": `" ++ ".def:" ++ "`") := by
  have hd : (".def: " ++ name ++ " 1").data = ".def:".data ++ (' ' :: (name.data ++ " 1".data)) := by
    simp only [String.data_append]
    rfl
  have hl : str.lstrip (".def: " ++ name ++ " 1") = ".def: " ++ name ++ " 1" := by
    unfold str.lstrip
    rw [hd]
    rfl
  have hc : str.chunk (".def: " ++ name ++ " 1") = ".def:" := by
    unfold str.chunk
    rw [hl, hd]
    rfl
  unfold assembler.verify.directives disassembledFunction
  rw [List.cons_append, assembler.verify.directivesFrom]
  simp only [hl, hc, h0]
  have h1 : (decide ((".def: " ++ name ++ " 1").length = 0) ||
      (".def: " ++ name ++ " 1").data.head? != some '.') = false := by
    have hlen : (".def: " ++ name ++ " 1").length = (".def: " ++ name ++ " 1").data.length := rfl
    rw [hlen, hd]
    simp
  have h2 : (!assembler.verify.knownDirectives.contains ".def:") = true := by decide
  rw [h1, h2]
  rfl

/-- Witness for `disassembled_function_rejected`: function `main` with two instructions. -/
theorem disassembled_function_rejected_witness :
    assembler.verify.directives [".def: main 1", "    izero 0", "    end", ".end"] idLineMap =
      some "fatal: unrecognised assembler directive on line 1: `.def:`" :=
  disassembled_function_rejected "main" ["izero 0", "end"] idLineMap 0 rfl

end Disassembler

/-! ## C5, C6, C7: `END` -/

section End

/-- C7: `END` fails when the frame stack is empty, and fails when the top frame requests
a return value (`place_return_value_in ≠ 0`) while register 0 of the current register
set is empty; in both cases the machine (frame stack and all registers included) is
left unchanged. -/
theorem end_fails_unchanged (cpu : CPU) (addr : Nat) :
    (cpu.frames = [] →
      cpu.end_ addr = ⟨cpu, .raised "no frame on stack: nothing to end"⟩) ∧
    (∀ top rs, cpu.frames.getLast? = some top → top.place_return_value_in ≠ 0 →
      cpu.current = some rs → RegisterSet.at_ rs 0 = .ok Option.none →
      cpu.end_ addr = ⟨cpu,
        .raised "return value requested by frame but function did not set return register"⟩) := by
  constructor
  · intro h
    simp [CPU.end_, h]
  · intro top rs htop hret hcur hnull
    simp [CPU.end_, htop, hret, CPU.returnedValue, hcur, hnull]

/-- Witness for `end_fails_unchanged`: an empty call stack, and a callee that was asked
for a return value in register 1 but left its register 0 empty. -/
theorem end_fails_unchanged_witness :
    (sampleCPU [] Option.none).end_ 0 =
      ⟨sampleCPU [] Option.none, .raised "no frame on stack: nothing to end"⟩ ∧
    (sampleCPU [sampleCaller, { sampleCallee 1 false with regset := RegisterSet.create 2 }]
        Option.none).end_ 0 =
      ⟨sampleCPU [sampleCaller, { sampleCallee 1 false with regset := RegisterSet.create 2 }]
        Option.none,
        .raised "return value requested by frame but function did not set return register"⟩ :=
  ⟨(end_fails_unchanged (sampleCPU [] Option.none) 0).1 rfl,
    (end_fails_unchanged
      (sampleCPU [sampleCaller, { sampleCallee 1 false with regset := RegisterSet.create 2 }]
        Option.none) 0).2 _ _ rfl (by decide) rfl rfl⟩

/-- C5 (as stated, refuted): the callee was called with return register 0 and holds
`Integer 42` in its register 0; after `END` register 0 of the caller is still empty and
no copy was made. -/
theorem end_return_register_zero_discards :
    ((sampleCPU [sampleCaller, sampleCallee 0 false] Option.none).end_ 0).outcome = .next 70 ∧
    ((sampleCPU [sampleCaller, sampleCallee 0 false] Option.none).end_ 0).cpu.frames =
      [sampleCaller] ∧
    ((sampleCPU [sampleCaller, sampleCallee 0 false] Option.none).end_ 0).cpu.current =
      some [Register.empty, Register.empty, Register.empty, Register.empty] ∧
    ((sampleCPU [sampleCaller, sampleCallee 0 false] Option.none).end_ 0).cpu.heap =
      sampleHeap := by
  decide

/-- C5 (amended): when the top frame was called with return register 0, `END` pops it and
returns its return address; the frames below, every register and the heap are left as
they are, so no value is placed in the caller: the return value is discarded. -/
theorem end_return_register_zero (cpu : CPU) (addr : Nat) (top : Frame)
    (htop : cpu.frames.getLast? = some top) (hret : top.place_return_value_in = 0) :
    cpu.end_ addr =
      ⟨{ cpu with frames := cpu.frames.dropLast,
                  uregset := if cpu.frames.dropLast.length ≠ 0 then .localSet else .globalSet },
        .next top.return_address⟩ := by
  simp [CPU.end_, htop, hret, CPU.dropFrame]

/-- Witness for `end_return_register_zero`. -/
theorem end_return_register_zero_witness :
    (sampleCPU [sampleCaller, sampleCallee 0 false] Option.none).end_ 0 =
      ⟨sampleCPU [sampleCaller] Option.none, .next 70⟩ :=
  end_return_register_zero (sampleCPU [sampleCaller, sampleCallee 0 false] Option.none) 0
    (sampleCallee 0 false) rfl rfl

end End

/-! ### C6: `END` with a return register other than 0 -/

section EndReturn

theorem operand_of_current (c : CPU) (rs : RegisterSet) (hc : c.current = some rs)
    (resolve : Bool) (r idx : Int)
    (h : if resolve = true then
        ∃ q, RegisterSet.get rs (CPU.index r) = .ok q ∧ c.heap[q]? = some (Value.Integer idx)
      else idx = r) :
    c.operand resolve r = .ok idx := by
  unfold CPU.operand
  cases resolve with
  | false =>
    simp only [Bool.false_eq_true, if_false] at h ⊢
    rw [h]
  | true =>
    simp only [if_true] at h ⊢
    obtain ⟨q, hq, hv⟩ := h
    simp [CPU.fetchInteger, CPU.fetch, hc, hq, hv]

theorem current_of_frames (c : CPU) (rest : List Frame) (f : Frame)
    (hf : c.frames = rest ++ [f]) (hu : c.uregset = .localSet) :
    c.current = some f.regset := by
  simp [CPU.current, hu, hf]

theorem setCurrent_of_frames (c : CPU) (rest : List Frame) (f : Frame)
    (hf : c.frames = rest ++ [f]) (hu : c.uregset = .localSet) (rs : RegisterSet) :
    c.setCurrent rs = { c with frames := rest ++ [{ f with regset := rs }] } := by
  simp [CPU.setCurrent, hu, hf]

theorem placeReturned_spec (c : CPU) (rest : List Frame) (caller : Frame)
    (hf : c.frames = rest ++ [caller]) (hu : c.uregset = .localSet)
    (resolve : Bool) (r idx : Int) (old : Register) (returned : Nat) (reference : Bool)
    (hres : if resolve = true then
        ∃ q, RegisterSet.get caller.regset (CPU.index r) = .ok q ∧
          c.heap[q]? = some (Value.Integer idx)
      else idx = r)
    (hold : caller.regset[CPU.index idx]? = some old) :
    c.placeReturned r resolve returned reference =
      (c.returnedTo c.heap (rest ++ [caller.deposit (CPU.index idx) returned old reference]),
        .ok ()) := by
  have hc := current_of_frames c rest caller hf hu
  have hop := operand_of_current c caller.regset hc resolve r idx hres
  have hset : RegisterSet.set caller.regset (CPU.index idx) returned =
      .ok (List.set caller.regset (CPU.index idx) { old with object := some returned }) := by
    simp [RegisterSet.set, hold]
  have hplace : c.place idx returned = .ok { c with frames := rest ++ [{ caller with
      regset := List.set caller.regset (CPU.index idx) { old with object := some returned } }] } := by
    simp only [CPU.place, hc, hset, Except.map]
    rw [setCurrent_of_frames c rest caller hf hu]
  unfold CPU.placeReturned
  rw [hop]
  simp only [hplace]
  cases reference with
  | false =>
    simp [CPU.returnedTo, Frame.deposit, hu, hf]
  | true =>
    have hlt : CPU.index idx < caller.regset.length := by
      by_contra hge
      have : caller.regset[CPU.index idx]? = Option.none := by simp; omega
      rw [this] at hold
      cases hold
    have hget : (List.set caller.regset (CPU.index idx)
        { old with object := some returned })[CPU.index idx]? =
        some { old with object := some returned } := by
      simp [hlt]
    simp [CPU.returnedTo, Frame.deposit, CPU.current, CPU.setCurrent, hu, RegisterSet.flag, hget]

/-- C6 (as stated, refuted): the caller asked for the return value in register 100 of a
register set of four slots; `END` pops the callee and then throws instead of returning
the return address. -/
theorem end_return_register_out_of_range :
    ((sampleCPU [sampleCaller, sampleCallee 100 false] Option.none).end_ 0).outcome =
      .raised "register access out of bounds: write" ∧
    ((sampleCPU [sampleCaller, sampleCallee 100 false] Option.none).end_ 0).cpu.frames =
      [sampleCaller] := by
  decide

theorem end_deposits_general (cpu : CPU) (addr : Nat) (rest : List Frame)
    (caller top : Frame) (rs : RegisterSet) (p : Nat) (mask : Mask) (idx : Int)
    (old : Register) (v : Value)
    (hframes : cpu.frames = rest ++ [caller, top])
    (hret : top.place_return_value_in ≠ 0)
    (hcur : cpu.current = some rs)
    (hreg0 : rs[0]? = some ⟨some p, mask⟩)
    (hv : cpu.heap[p]? = some v)
    (hres : if top.resolve_return_value_register = true then
        ∃ q, RegisterSet.get caller.regset (CPU.index top.place_return_value_in) = .ok q ∧
          cpu.heap[q]? = some (Value.Integer idx)
      else idx = top.place_return_value_in)
    (hold : caller.regset[CPU.index idx]? = some old) :
    cpu.end_ addr =
      if mask.reference = true then
        ⟨cpu.returnedTo cpu.heap (rest ++ [caller.deposit (CPU.index idx) p old true]),
          .next top.return_address⟩
      else
        ⟨cpu.returnedTo (cpu.heap ++ [v])
            (rest ++ [caller.deposit (CPU.index idx) cpu.heap.length old false]),
          .next top.return_address⟩ := by
  have hf2 : cpu.frames = (rest ++ [caller]) ++ [top] := by simp [hframes]
  have htop : cpu.frames.getLast? = some top := by simp [hf2]
  have hdrop : cpu.frames.dropLast = rest ++ [caller] := by simp [hf2]
  have hat : RegisterSet.at_ rs 0 = .ok (some p) := by simp [RegisterSet.at_, hreg0]
  have hisref : RegisterSet.isReference rs 0 = .ok mask.reference := by
    simp [RegisterSet.isReference, hreg0]
  cases hm : mask.reference with
  | true =>
    have hrv : cpu.returnedValue = .ok (cpu, p, true) := by
      simp [CPU.returnedValue, hcur, hat, hisref, hm]
    have hspec := placeReturned_spec cpu.dropFrame rest caller
      (by simp [CPU.dropFrame, hdrop]) (by simp [CPU.dropFrame, hdrop])
      top.resolve_return_value_register top.place_return_value_in idx old p true
      (by simpa [CPU.dropFrame] using hres) hold
    simp only [CPU.end_, htop, hret, ne_eq, not_false_eq_true, if_true, hrv, hspec]
    simp [CPU.dropFrame, hdrop, CPU.returnedTo]
  | false =>
    have hrv : cpu.returnedValue =
        .ok ({ cpu with heap := cpu.heap ++ [v] }, cpu.heap.length, false) := by
      simp [CPU.returnedValue, hcur, hat, hisref, hm, CPU.copyObject, hv, Except.map]
    have hres2 : if top.resolve_return_value_register = true then
        ∃ q, RegisterSet.get caller.regset (CPU.index top.place_return_value_in) = .ok q ∧
          (cpu.heap ++ [v])[q]? = some (Value.Integer idx)
        else idx = top.place_return_value_in := by
      split
      · rename_i hr
        rw [if_pos hr] at hres
        obtain ⟨q, hq, hqv⟩ := hres
        refine ⟨q, hq, ?_⟩
        have hqlt : q < cpu.heap.length := by
          by_contra hge
          have : cpu.heap[q]? = Option.none := by simp; omega
          rw [this] at hqv
          cases hqv
        rw [List.getElem?_append_left hqlt]
        exact hqv
      · rename_i hr
        rw [if_neg hr] at hres
        exact hres
    have hspec := placeReturned_spec ({ cpu with heap := cpu.heap ++ [v] } : CPU).dropFrame
      rest caller (by simp [CPU.dropFrame, hdrop]) (by simp [CPU.dropFrame, hdrop])
      top.resolve_return_value_register top.place_return_value_in idx old cpu.heap.length false
      (by simpa [CPU.dropFrame] using hres2) hold
    simp only [CPU.end_, htop, hret, ne_eq, not_false_eq_true, if_true, hrv, hspec]
    simp [CPU.dropFrame, hdrop, CPU.returnedTo]

/-- C6 (amended): the call stack ends in `caller, top`, `top` asks for the return value in
register `r ≠ 0`, register 0 of the current register set holds the object `p`, and `r`
(resolved through the registers of the caller when `resolve_return_value_register` is
set) is the index `idx` of a slot of the register set of the caller. Then `END` pops
exactly the top frame and returns its `return_address`; slot `idx` of the caller holds
`p` itself, flagged `REFERENCE`, when register 0 was flagged `REFERENCE`, and otherwise a
new object that is a copy of the value of `p`. -/
theorem end_deposits_return_value (cpu : CPU) (addr : Nat) (rest : List Frame)
    (caller top : Frame) (rs : RegisterSet) (p : Nat) (mask : Mask) (idx : Int)
    (old : Register) (v : Value)
    (hframes : cpu.frames = rest ++ [caller, top])
    (hret : top.place_return_value_in ≠ 0)
    (hcur : cpu.current = some rs)
    (hreg0 : rs[0]? = some ⟨some p, mask⟩)
    (hv : cpu.heap[p]? = some v)
    (hres : if top.resolve_return_value_register = true then
        ∃ q, RegisterSet.get caller.regset (CPU.index top.place_return_value_in) = .ok q ∧
          cpu.heap[q]? = some (Value.Integer idx)
      else idx = top.place_return_value_in)
    (hold : caller.regset[CPU.index idx]? = some old) :
    cpu.end_ addr =
      if mask.reference = true then
        ⟨cpu.returnedTo cpu.heap (rest ++ [caller.deposit (CPU.index idx) p old true]),
          .next top.return_address⟩
      else
        ⟨cpu.returnedTo (cpu.heap ++ [v])
            (rest ++ [caller.deposit (CPU.index idx) cpu.heap.length old false]),
          .next top.return_address⟩ :=
  end_deposits_general cpu addr rest caller top rs p mask idx old v hframes hret hcur hreg0
    hv hres hold

/-- Witness for `end_deposits_return_value`: the callee returns `Integer 42` by value
into register 1 of the caller, which receives the new object 2, a copy. -/
theorem end_deposits_return_value_witness :
    (sampleCPU [sampleCaller, sampleCallee 1 false] Option.none).end_ 0 =
      ⟨(sampleCPU [sampleCaller, sampleCallee 1 false] Option.none).returnedTo
          (sampleHeap ++ [Value.Integer 42])
          [sampleCaller.deposit 1 2 Register.empty false],
        .next 70⟩ :=
  end_deposits_return_value (sampleCPU [sampleCaller, sampleCallee 1 false] Option.none) 0 []
    sampleCaller (sampleCallee 1 false) (sampleCallee 1 false).regset 0 ⟨false, false⟩ 1
    Register.empty (Value.Integer 42) rfl (by decide) rfl rfl rfl
    (by simp [sampleCallee]) rfl

end EndReturn

/-! ## C8, C9: `CALL` -/

section Call

/-- C8 (evaluation at the failing input): `call 1 f` encoded register operand first, run
with a pending frame and `f` in `function_addresses`. `CPU::call` reads the name at the
operand address, finds the empty string (the flag byte is 0) and throws; nothing is set
in the frame. Encoded name first, the same instruction sets the frame as the claim says
and returns the entry 40 of `f`. -/
theorem call_reads_name_first :
    (sampleCPUWith callRegisterFirst [sampleCaller] (some samplePending)).call 0 =
      ⟨sampleCPUWith callRegisterFirst [sampleCaller] (some samplePending),
        .raised "std::out_of_range"⟩ ∧
    ((sampleCPUWith callNameFirst [sampleCaller] (some samplePending)).call 0).outcome =
      .next 40 ∧
    ((sampleCPUWith callNameFirst [sampleCaller] (some samplePending)).call 0).cpu.frames =
      [sampleCaller, { samplePending with function_name := "f", return_address := 7,
                                          place_return_value_in := 1,
                                          resolve_return_value_register := false }] := by
  decide

/-- C9: with no pending frame, `CALL` throws, pushes nothing and leaves the machine as it
was (frame stack and register sets included); when the function it names is defined,
the exception is `function call without a frame`. -/
theorem call_without_frame (cpu : CPU) (addr : Nat) (h : cpu.frame_new = Option.none) :
    (cpu.call addr).cpu = cpu ∧
    (∃ what, (cpu.call addr).outcome = .raised what) ∧
    (∀ a, cpu.function_addresses.lookup (cpu.readString addr) = some a →
      cpu.call addr = ⟨cpu, .raised CPU.callWithoutFrame⟩) := by
  unfold CPU.call
  cases hl : cpu.function_addresses.lookup (cpu.readString addr) with
  | none => simp [hl]
  | some a => simp [hl, h]

/-- Witness for `call_without_frame`: `call 1 f`, with `f` defined, and no pending frame. -/
theorem call_without_frame_witness :
    (sampleCPUWith callNameFirst [sampleCaller] Option.none).call 0 =
      ⟨sampleCPUWith callNameFirst [sampleCaller] Option.none,
        .raised CPU.callWithoutFrame⟩ :=
  (call_without_frame (sampleCPUWith callNameFirst [sampleCaller] Option.none) 0 rfl).2.2
    40 (by decide)

end Call

/-! ## C10: `PARAM` and `PAREF` -/

section Param

theorem index_natCast (n : Nat) (h : n < 2 ^ 32) : CPU.index (n : Int) = n := by
  unfold CPU.index toUnsigned32
  have h1 : ((n : Int) % 2 ^ 32) = (n : Int) := Int.emod_eq_of_lt (by omega) (by exact_mod_cast h)
  rw [h1]
  simp

theorem operand_direct (c : CPU) (r : Int) : c.operand false r = .ok r := by
  simp [CPU.operand]

theorem resolve2_direct (c : CPU) (a b : Int) :
    c.resolve2 (false, a) (false, b) = .ok (a, b) := by
  simp [CPU.resolve2, CPU.operand]

end Param

/-! ## C11: `ARG` -/

section Arg

theorem current_withHeap (c : CPU) (heap : List Value) :
    (c.withHeap heap).current = c.current := rfl

/-- C11 (counterexample): `arg 0 5` in a frame whose argument 0 holds an object and whose
register set has two slots: the index 0 is below the argument count 1, yet `ARG` fails
(the write to register 5 is out of bounds) and no register receives the argument: both
registers of the current register set are still empty. -/
theorem arg_in_range_fails :
    ((sampleCPUWith (twoOperands 0 5) [sampleCalleeWith [⟨some 0, Mask.none⟩]]
        Option.none).arg 0).outcome = .raised "register access out of bounds: write" ∧
    ((sampleCPUWith (twoOperands 0 5) [sampleCalleeWith [⟨some 0, Mask.none⟩]]
        Option.none).arg 0).cpu.current = some [Register.empty, Register.empty] := by
  decide

/-- C11 (amended): with a non-empty call stack, a current register set `rs` and direct
operands `i` and `v`: when `i` is not below the argument count of the top frame, `ARG i v`
throws and changes nothing; when `i` is below it, argument slot `i` holds an object and
`v` is a register of `rs`, register `v` receives the argument itself if the slot is
flagged `REFERENCE` and a fresh copy otherwise, its mask becomes the mask of the argument
slot, and the handler returns the next address. -/
theorem arg_spec (cpu : CPU) (rest : List Frame) (top : Frame) (rs : RegisterSet)
    (addr i v : Nat) (hframes : cpu.frames = rest ++ [top]) (hrs : cpu.current = some rs)
    (ha : cpu.readOperand addr = (false, (i : Int)))
    (hb : cpu.readOperand (addr + CPU.operandSize) = (false, (v : Int)))
    (hi : i < 2 ^ 31) (hv31 : v < 2 ^ 31) :
    (RegisterSet.size top.args ≤ i →
      cpu.arg addr = ⟨cpu, .raised
        ("invalid read: read from argument register out of bounds: " ++ toString (i : Int))⟩) ∧
    (∀ p m val old, top.args[i]? = some ⟨some p, m⟩ → cpu.heap[p]? = some val →
      rs[v]? = some old →
      cpu.arg addr =
        if m.reference then
          ⟨cpu.setCurrent (List.set rs v ⟨some p, m⟩), .next (addr + 2 * CPU.operandSize)⟩
        else
          ⟨(cpu.withHeap (cpu.heap ++ [val])).setCurrent
              (List.set rs v ⟨some cpu.heap.length, m⟩),
            .next (addr + 2 * CPU.operandSize)⟩) := by
  have hii : CPU.index (i : Int) = i := index_natCast i (by omega)
  have hvv : CPU.index (v : Int) = v := index_natCast v (by omega)
  have hlast : cpu.frames.getLast? = some top := by simp [hframes]
  constructor
  · intro hge
    unfold CPU.arg
    rw [ha, hb, resolve2_direct]
    simp only [hlast, hii]
    simp [hge]
  · intro p m val old hslot hheap hold
    have hlt : i < top.args.length := by
      rcases List.getElem?_eq_some_iff.mp hslot with ⟨h, _⟩
      exact h
    have hn : ¬ (i ≥ RegisterSet.size top.args) := by
      simp only [RegisterSet.size]
      omega
    have hvlt : v < rs.length := by
      rcases List.getElem?_eq_some_iff.mp hold with ⟨h, _⟩
      exact h
    unfold CPU.arg
    rw [ha, hb, resolve2_direct]
    simp only [hlast, hii, hvv, if_neg hn, RegisterSet.isReference, RegisterSet.get,
      RegisterSet.getmask, hslot, hrs]
    cases hr : m.reference with
    | true =>
      simp [hrs, RegisterSet.set, RegisterSet.setmask, hold, hvlt]
    | false =>
      have hc : (cpu.withHeap (cpu.heap ++ [val])).current = some rs := by
        rw [current_withHeap, hrs]
      simp only [CPU.withHeap] at hc
      simp [CPU.copyObject, hheap, hc, RegisterSet.set, RegisterSet.setmask, hold, hvlt,
        CPU.withHeap]

/-- Witness for `arg_spec`: `arg 0 1` in a callee frame whose argument 0 holds
`Integer 42`, passed by value. -/
theorem arg_spec_witness :
    (sampleCPUWith (twoOperands 0 1) [sampleCalleeWith [⟨some 0, Mask.none⟩]]
        Option.none).arg 0 =
      ⟨((sampleCPUWith (twoOperands 0 1) [sampleCalleeWith [⟨some 0, Mask.none⟩]]
          Option.none).withHeap (sampleHeap ++ [Value.Integer 42])).setCurrent
          [Register.empty, ⟨some 2, Mask.none⟩],
        .next 10⟩ :=
  (arg_spec (sampleCPUWith (twoOperands 0 1) [sampleCalleeWith [⟨some 0, Mask.none⟩]]
      Option.none) [] (sampleCalleeWith [⟨some 0, Mask.none⟩]) (RegisterSet.create 2) 0 0 1
    rfl rfl (by decide) (by decide) (by norm_num) (by norm_num)).2
    0 Mask.none (Value.Integer 42) Register.empty rfl rfl rfl

end Arg

/-! ## C12: `THROW` -/

section Throw

/-- C12 (counterexample): `throw 0` where register 0 of the current register set holds the
object at pointer 0. Afterwards `thrown` is that object, and register 0 still holds it,
flagged `KEEP`: the value is aliased, not moved out of the register. -/
theorem vmthrow_register_keeps_value :
    ((sampleCPUWith (oneOperand 0) [sampleCallee 0 false] Option.none).vmthrow 0).cpu.thrown =
      some 0 ∧
    ((sampleCPUWith (oneOperand 0) [sampleCallee 0 false] Option.none).vmthrow 0).cpu.current =
      some [⟨some 0, Mask.KEEP⟩, Register.empty] := by
  decide

/-- C12 (amended): for a direct operand `r` that is a register of the current register
set `rs` holding the object `p`, `THROW r` replaces the mask of slot `r` by `KEEP`, stores
`p` in `thrown` and returns the next address; slot `r` still holds `p`. -/
theorem vmthrow_spec (cpu : CPU) (rs : RegisterSet) (addr r p : Nat) (m : Mask)
    (hrs : cpu.current = some rs) (ha : cpu.readOperand addr = (false, (r : Int)))
    (hr : rs[r]? = some ⟨some p, m⟩) (hr31 : r < 2 ^ 31) :
    cpu.vmthrow addr =
      ⟨(cpu.setCurrent (List.set rs r ⟨some p, Mask.KEEP⟩)).withThrown (some p),
        .next (addr + CPU.operandSize)⟩ ∧
    (List.set rs r ⟨some p, Mask.KEEP⟩)[r]? = some ⟨some p, Mask.KEEP⟩ := by
  have hrr : CPU.index (r : Int) = r := index_natCast r (by omega)
  have hlt : r < rs.length := by
    rcases List.getElem?_eq_some_iff.mp hr with ⟨h, _⟩
    exact h
  constructor
  · unfold CPU.vmthrow
    rw [ha]
    have hn : ¬ (r ≥ RegisterSet.size rs) := by
      simp only [RegisterSet.size]
      omega
    simp only [operand_direct, hrs, hrr, if_neg hn, RegisterSet.at_, hr, RegisterSet.setmask]
    simp [CPU.withThrown]
  · simp [hlt]

/-- Witness for `vmthrow_spec`: `throw 0` in the sample callee. -/
theorem vmthrow_spec_witness :
    (sampleCPUWith (oneOperand 0) [sampleCallee 0 false] Option.none).vmthrow 0 =
      ⟨((sampleCPUWith (oneOperand 0) [sampleCallee 0 false] Option.none).setCurrent
          [⟨some 0, Mask.KEEP⟩, Register.empty]).withThrown (some 0),
        .next 5⟩ :=
  (vmthrow_spec (sampleCPUWith (oneOperand 0) [sampleCallee 0 false] Option.none)
    (sampleCallee 0 false).regset 0 0 0 Mask.none rfl (by decide) rfl (by norm_num)).1

end Throw

/-! ## C13: `PULL` -/

section Pull

/-- C13 (counterexample): `pull 5` with a caught object and a current register set of two
slots: `caught` is not null, yet nothing is stored (the write is out of bounds), the
handler throws and `caught` keeps the object. -/
theorem pull_out_of_range :
    ((sampleCPUWith (oneOperand 5) [sampleCallee 0 false] Option.none).withCaught
        (some 1)).pull 0 =
      ⟨(sampleCPUWith (oneOperand 5) [sampleCallee 0 false] Option.none).withCaught (some 1),
        .raised "register access out of bounds: write"⟩ := by
  decide

/-- C13 (amended): for a direct operand `r`: when `caught` is null, `PULL r` throws
`no caught object to pull` and changes nothing; when `caught` holds `c` and `r` is a
register of the current register set `rs`, the pointer of slot `r` becomes `c` (its flags
stay), `caught` becomes null and the handler returns the next address; when `caught`
holds an object and `r` is outside `rs`, the handler throws the out-of-bounds error of the
write and changes nothing, so `caught` keeps its object. -/
theorem pull_spec (cpu : CPU) (addr r : Nat)
    (ha : cpu.readOperand addr = (false, (r : Int))) (hr31 : r < 2 ^ 31) :
    (cpu.caught = Option.none → cpu.pull addr = ⟨cpu, .raised "no caught object to pull"⟩) ∧
    (∀ rs c old, cpu.current = some rs → cpu.caught = some c → rs[r]? = some old →
      cpu.pull addr =
        ⟨(cpu.setCurrent (List.set rs r ⟨some c, old.mask⟩)).withCaught Option.none,
          .next (addr + CPU.operandSize)⟩) ∧
    (∀ rs c, cpu.current = some rs → cpu.caught = some c → rs[r]? = Option.none →
      cpu.pull addr = ⟨cpu, .raised "register access out of bounds: write"⟩ ∧
      (cpu.pull addr).cpu.caught = some c) := by
  have hrr : CPU.index (r : Int) = r := index_natCast r (by omega)
  refine ⟨?_, ?_, ?_⟩
  · intro hc
    unfold CPU.pull
    rw [ha]
    simp [operand_direct, hc]
  · intro rs c old hrs hc hold
    unfold CPU.pull
    rw [ha]
    simp only [operand_direct, hc, hrs, hrr, RegisterSet.set, hold]
    simp [CPU.withCaught]
  · intro rs c hrs hc hnone
    have h : cpu.pull addr = ⟨cpu, .raised "register access out of bounds: write"⟩ := by
      unfold CPU.pull
      rw [ha]
      simp only [operand_direct, hc, hrs, hrr, RegisterSet.set, hnone]
    exact ⟨h, by rw [h]; exact hc⟩

/-- Witness for `pull_spec`: `pull 1` with the object at pointer 1 caught. -/
theorem pull_spec_witness :
    ((sampleCPUWith (oneOperand 1) [sampleCallee 0 false] Option.none).withCaught
        (some 1)).pull 0 =
      ⟨(((sampleCPUWith (oneOperand 1) [sampleCallee 0 false] Option.none).withCaught
          (some 1)).setCurrent [⟨some 0, Mask.none⟩, ⟨some 1, Mask.none⟩]).withCaught
          Option.none,
        .next 5⟩ :=
  (pull_spec ((sampleCPUWith (oneOperand 1) [sampleCallee 0 false] Option.none).withCaught
    (some 1)) 0 1 (by decide) (by norm_num)).2.1
    (sampleCallee 0 false).regset 1 Register.empty rfl rfl rfl

end Pull

/-! ## C14: `TRY` and `LEAVE` -/

section TryLeave

/-- C14: for a `TRY b` whose opcode byte is at `p` (so that the handler runs on the
operand address `p + 1`), executed with a pending try-frame and `b` in `block_addresses`:
the handler enters the block, and the `LEAVE` that pops the try-frame it pushed removes
exactly that try-frame and returns `p + 1 + len(b)`, the address of the NUL that ends the
name, one byte before the instruction following the `TRY`. -/
theorem vmtry_leave_return_address (cpu : CPU) (p a x : Nat) (t : TryFrame)
    (ht : cpu.try_frame_new = some t)
    (hb : cpu.block_addresses.lookup (cpu.readString (p + 1)) = some a) :
    (cpu.vmtry (p + 1)).outcome = .next a ∧
    ((cpu.vmtry (p + 1)).cpu.leave x).outcome =
      .next (p + 1 + (cpu.readString (p + 1)).length) ∧
    ((cpu.vmtry (p + 1)).cpu.leave x).cpu.tryframes = cpu.tryframes := by
  simp [CPU.vmtry, CPU.leave, ht, hb]

/-- Witness for `vmtry_leave_return_address`: `try handler` at address 0; the next
instruction is at address 9, `LEAVE` returns 8. -/
theorem vmtry_leave_return_address_witness :
    (sampleTry.vmtry 1).outcome = .next 10 ∧
    (((sampleTry.vmtry 1).cpu.leave 20).outcome = .next 8 ∧
      ((sampleTry.vmtry 1).cpu.leave 20).cpu.tryframes = []) ∧
    1 + ("handler".length + 1) = 9 :=
  ⟨(vmtry_leave_return_address sampleTry 0 10 20 ⟨0, 0, "", []⟩ rfl (by decide)).1,
    (vmtry_leave_return_address sampleTry 0 10 20 ⟨0, 0, "", []⟩ rfl (by decide)).2,
    by decide⟩

end TryLeave

/-! ## C15: `JUMP` -/

section Jump

/-- C15: for a `JUMP` whose opcode byte is at `p` (so that the handler runs on the operand
address `p + 1`): a target equal to `p`, a jump to itself, is not rejected, the handler
returns `p`; the target the handler rejects is `p + 1`, the address of its own operand. -/
theorem jump_self_not_detected (cpu : CPU) (p : Nat) :
    (readInt cpu.bytecode (p + 1) = (p : Int) → cpu.jump (p + 1) = ⟨cpu, .next p⟩) ∧
    (readInt cpu.bytecode (p + 1) = ((p + 1 : Nat) : Int) →
      cpu.jump (p + 1) = ⟨cpu, .raised "aborting: JUMP instruction pointing to itself"⟩) := by
  constructor
  · intro h
    unfold CPU.jump
    simp only [h]
    have h1 : ¬ ((p : Int) < 0) := by omega
    simp [h1]
  · intro h
    unfold CPU.jump
    simp only [h]
    have h1 : ¬ (((p + 1 : Nat) : Int) < 0) := by omega
    simp [h1]
    omega

/-- Witness for `jump_self_not_detected`: a `jump 3` at address 3 returns 3, and a
`jump 4` at address 3 is rejected. -/
theorem jump_self_not_detected_witness :
    (sampleCPUWith (jumpAt 3 3) [sampleCaller] Option.none).jump 4 =
      ⟨sampleCPUWith (jumpAt 3 3) [sampleCaller] Option.none, .next 3⟩ ∧
    (sampleCPUWith (jumpAt 3 4) [sampleCaller] Option.none).jump 4 =
      ⟨sampleCPUWith (jumpAt 3 4) [sampleCaller] Option.none,
        .raised "aborting: JUMP instruction pointing to itself"⟩ :=
  ⟨(jump_self_not_detected (sampleCPUWith (jumpAt 3 3) [sampleCaller] Option.none) 3).1
      (by decide),
    (jump_self_not_detected (sampleCPUWith (jumpAt 3 4) [sampleCaller] Option.none) 3).2
      (by decide)⟩

end Jump

/-! ## C16: `RESS` -/

section Ress

/-- C16: with a non-empty call stack whose top frame is `top`, and `id` the operand of
`RESS`: for 0 the global register set becomes current, for 1 the local one of `top`, for
2 the static one of the function of `top` (created if it did not exist), each time
returning the next address; for every other `id` (3 included) the handler throws and
leaves the machine, the selected register set included, unchanged. -/
theorem ress_cases (cpu : CPU) (rest : List Frame) (top : Frame) (addr : Nat)
    (hframes : cpu.frames = rest ++ [top]) :
    (readInt cpu.bytecode addr = 0 →
      (cpu.ress addr).outcome = .next (addr + sizeof_int) ∧
      (cpu.ress addr).cpu.uregset = .globalSet ∧
      (cpu.ress addr).cpu.current = some cpu.regset) ∧
    (readInt cpu.bytecode addr = 1 →
      (cpu.ress addr).outcome = .next (addr + sizeof_int) ∧
      (cpu.ress addr).cpu.uregset = .localSet ∧
      (cpu.ress addr).cpu.current = some top.regset) ∧
    (readInt cpu.bytecode addr = 2 →
      (cpu.ress addr).outcome = .next (addr + sizeof_int) ∧
      (cpu.ress addr).cpu.uregset = .staticSet top.function_name ∧
      (cpu.ress addr).cpu.current =
        some ((cpu.static_registers.lookup top.function_name).getD (RegisterSet.create 16))) ∧
    (readInt cpu.bytecode addr ≠ 0 → readInt cpu.bytecode addr ≠ 1 →
      readInt cpu.bytecode addr ≠ 2 →
      cpu.ress addr = ⟨cpu, .raised "illegal register set ID in ress instruction"⟩) := by
  have hlast : cpu.frames.getLast? = some top := by simp [hframes]
  refine ⟨?_, ?_, ?_, ?_⟩
  · intro h
    simp [CPU.ress, h, CPU.current]
  · intro h
    simp [CPU.ress, h, hlast, CPU.current]
  · intro h
    simp only [CPU.ress, h, hlast]
    refine ⟨by simp, by simp, ?_⟩
    cases hl : cpu.static_registers.lookup top.function_name with
    | some rs => simp [CPU.current, CPU.ensureStaticRegisters, hl]
    | none => simp [CPU.current, CPU.ensureStaticRegisters, hl, List.lookup_append]
  · intro h0 h1 h2
    simp [CPU.ress, h0, h1, h2]

/-- Witness for `ress_cases`: `ress static` in function `main`, and `ress` with the ID 3
of the temporary register set. -/
theorem ress_cases_witness :
    (((sampleCPUWith (ressOperand 2) [sampleCaller] Option.none).ress 0).outcome = .next 4 ∧
      ((sampleCPUWith (ressOperand 2) [sampleCaller] Option.none).ress 0).cpu.uregset =
        .staticSet "main" ∧
      ((sampleCPUWith (ressOperand 2) [sampleCaller] Option.none).ress 0).cpu.current =
        some (RegisterSet.create 16)) ∧
    (sampleCPUWith (ressOperand 3) [sampleCaller] Option.none).ress 0 =
      ⟨sampleCPUWith (ressOperand 3) [sampleCaller] Option.none,
        .raised "illegal register set ID in ress instruction"⟩ :=
  ⟨(ress_cases (sampleCPUWith (ressOperand 2) [sampleCaller] Option.none) [] sampleCaller 0
      rfl).2.2.1 (by decide),
    (ress_cases (sampleCPUWith (ressOperand 3) [sampleCaller] Option.none) [] sampleCaller 0
      rfl).2.2.2 (by decide) (by decide) (by decide)⟩

end Ress

/-! ## C17: by-reference operands -/

section ByReference

theorem operand_by_reference (cpu : CPU) (rs : RegisterSet) (j k : Int) (p : Nat) (m : Mask)
    (hrs : cpu.current = some rs) (hj : rs[CPU.index j]? = some ⟨some p, m⟩)
    (hp : cpu.heap[p]? = some (Value.Integer k)) :
    cpu.operand true j = cpu.operand false k := by
  simp [CPU.operand, CPU.fetchInteger, CPU.fetch, hrs, RegisterSet.get, hj, hp]

theorem resolve2_by_reference (cpu : CPU) (j k : Int)
    (h : cpu.operand true j = cpu.operand false k) (other : Bool × Int) :
    cpu.resolve2 (true, j) other = cpu.resolve2 (false, k) other ∧
    cpu.resolve2 other (true, j) = cpu.resolve2 other (false, k) := by
  simp [CPU.resolve2, h]

/-- C17: when register `j` of the current register set holds `Integer k`, each of the
handlers `move`, `copy`, `ref`, `swap` and `isnull` gives the same final state and the
same next address for the by-reference operand `(true, j)` as for the direct operand
`(false, k)`, in the first as in the second operand position: the index is read from the
register once and `k` itself is not resolved again. -/
theorem by_reference_operand (cpu : CPU) (rs : RegisterSet) (j k : Int) (p : Nat) (m : Mask)
    (other : Bool × Int) (next : Nat)
    (hrs : cpu.current = some rs) (hj : rs[CPU.index j]? = some ⟨some p, m⟩)
    (hp : cpu.heap[p]? = some (Value.Integer k)) :
    (cpu.moveWith (true, j) other next = cpu.moveWith (false, k) other next ∧
      cpu.moveWith other (true, j) next = cpu.moveWith other (false, k) next) ∧
    (cpu.copyWith (true, j) other next = cpu.copyWith (false, k) other next ∧
      cpu.copyWith other (true, j) next = cpu.copyWith other (false, k) next) ∧
    (cpu.refWith (true, j) other next = cpu.refWith (false, k) other next ∧
      cpu.refWith other (true, j) next = cpu.refWith other (false, k) next) ∧
    (cpu.swapWith (true, j) other next = cpu.swapWith (false, k) other next ∧
      cpu.swapWith other (true, j) next = cpu.swapWith other (false, k) next) ∧
    (cpu.isnullWith (true, j) other next = cpu.isnullWith (false, k) other next ∧
      cpu.isnullWith other (true, j) next = cpu.isnullWith other (false, k) next) := by
  have h := resolve2_by_reference cpu j k (operand_by_reference cpu rs j k p m hrs hj hp) other
  simp only [CPU.moveWith, CPU.copyWith, CPU.refWith, CPU.swapWith, CPU.isnullWith, h.1, h.2,
    and_self]

/-- Witness for `by_reference_operand`: register 0 holds `Integer 2`, so `move @0 3` is
`move 2 3`: register 3 receives the object of register 2, not that of register 0. -/
theorem by_reference_operand_witness :
    (sampleCPU [sampleIndirect] Option.none).moveWith (true, 0) (false, 3) 10 =
      (sampleCPU [sampleIndirect] Option.none).moveWith (false, 2) (false, 3) 10 ∧
    ((sampleCPU [sampleIndirect] Option.none).moveWith (true, 0) (false, 3) 10).cpu.current =
      some [⟨some 1, Mask.none⟩, Register.empty, Register.empty, ⟨some 0, Mask.none⟩] :=
  ⟨(by_reference_operand (sampleCPU [sampleIndirect] Option.none) sampleIndirect.regset 0 2 1
      Mask.none (false, 3) 10 rfl rfl rfl).1.1,
    by decide⟩

end ByReference

/-! ## C37: the opcode tables of `maps.h` -/

section OpcodeTables

set_option maxRecDepth 100000 in
theorem op_names_nodup : (OP_NAMES.map Prod.snd).Nodup := by
  decide

set_option maxRecDepth 100000 in
theorem op_names_subset_sizes :
    ∀ n ∈ OP_NAMES.map Prod.snd, n ∈ OP_SIZES.map Prod.fst := by
  decide

set_option maxRecDepth 100000 in
theorem op_sizes_subset_names :
    ∀ n ∈ OP_SIZES.map Prod.fst, n ∈ OP_NAMES.map Prod.snd := by
  decide

set_option maxRecDepth 100000 in
theorem op_name_has_size (op : OPCODE) :
    (match OP_NAMES.lookup op with
      | some name => (OP_SIZES.lookup name).isSome
      | none => true) = true := by
  cases op <;> decide

/-- C37: no two opcodes of `OP_NAMES` share a mnemonic, the mnemonics of `OP_NAMES` are
exactly the keys of `OP_SIZES`, so `OP_SIZES.at(OP_NAMES.at(op))` succeeds for every
opcode that has a name, and every opcode of `OP_VARIABLE_LENGTH` has a name. -/
theorem op_tables_consistent :
    (OP_NAMES.map Prod.snd).Nodup ∧
    (∀ n, n ∈ OP_NAMES.map Prod.snd ↔ n ∈ OP_SIZES.map Prod.fst) ∧
    (∀ op name, OP_NAMES.lookup op = some name → ∃ size, OP_SIZES.lookup name = some size) ∧
    (∀ op ∈ OP_VARIABLE_LENGTH, ∃ name, OP_NAMES.lookup op = some name) := by
  refine ⟨op_names_nodup, fun n => ⟨op_names_subset_sizes n, op_sizes_subset_names n⟩, ?_, ?_⟩
  · intro op name h
    have hs := op_name_has_size op
    rw [h] at hs
    exact Option.isSome_iff_exists.mp hs
  · intro op hop
    have h : ∀ o ∈ OP_VARIABLE_LENGTH, (OP_NAMES.lookup o).isSome = true := by decide
    exact Option.isSome_iff_exists.mp (h op hop)

/-- Witness for `op_tables_consistent`: the size lookup for `CALL` succeeds. -/
theorem op_tables_consistent_witness :
    ∃ size, OP_SIZES.lookup "call" = some size :=
  op_tables_consistent.2.2.1 OPCODE.CALL "call" (by decide)

end OpcodeTables

/-! ## C31: `TMPRI` and `TMPRO` -/

section Tmp

theorem lookup_map_replace (name : String) (rs2 : RegisterSet) :
    ∀ (l : List (String × RegisterSet)) (rs : RegisterSet), l.lookup name = some rs →
      (l.map (fun p => if p.1 = name then (name, rs2) else p)).lookup name = some rs2 := by
  intro l
  induction l with
  | nil => intro rs h; simp at h
  | cons x xs ih =>
    intro rs h
    obtain ⟨k, w⟩ := x
    by_cases hk : k = name
    · subst hk
      rw [List.map_cons, if_pos rfl]
      simp [List.lookup]
    · have hne : (name == k) = false := by
        simp only [beq_eq_false_iff_ne, ne_eq]
        exact fun h => hk h.symm
      simp only [List.lookup, hne] at h
      rw [List.map_cons, if_neg hk]
      simp only [List.lookup, hne]
      exact ih rs h

theorem current_setCurrent (cpu : CPU) (rs rs2 : RegisterSet) (h : cpu.current = some rs) :
    (cpu.setCurrent rs2).current = some rs2 := by
  unfold CPU.current at h
  unfold CPU.setCurrent CPU.current
  cases hu : cpu.uregset with
  | globalSet => simp
  | localSet =>
    rw [hu] at h
    simp only at h
    cases hl : cpu.frames.getLast? with
    | none => simp [hl] at h
    | some f => simp [hu]
  | staticSet name =>
    rw [hu] at h
    simp only at h ⊢
    exact lookup_map_replace name rs2 cpu.static_registers rs h
  | null =>
    rw [hu] at h
    simp at h

/-- C31 (counterexample): `tmpri 0` where register 0 holds `Integer 42`: `tmp` receives a
new object with the same value, and register 0 is not left empty: it still holds its
object. -/
theorem tmpri_keeps_register :
    ((sampleCPUWith (tmpriTmpro 0 1) [sampleCallee 0 false] Option.none).tmpri 0).cpu.current =
      some [⟨some 0, Mask.none⟩, Register.empty] ∧
    ((sampleCPUWith (tmpriTmpro 0 1) [sampleCallee 0 false] Option.none).tmpri 0).cpu.tmp =
      some 2 ∧
    ((sampleCPUWith (tmpriTmpro 0 1) [sampleCallee 0 false] Option.none).tmpri 0).cpu.heap =
      [Value.Integer 42, Value.Integer 2, Value.Integer 42] := by
  decide

/-- C31 (amended): for direct operands, a register `r` of the current register set `rs`
holding the object `p` of value `v`, and a register `s` of `rs`: `TMPRI r` puts a new
copy of `v` into `tmp` and leaves the register set as it was (register `r` still holds
`p`); the following `TMPRO s` moves the copy out of `tmp`: `tmp` is null and register
`s` holds the copy. -/
theorem tmpri_tmpro_spec (cpu : CPU) (rs : RegisterSet) (ai ao r s p : Nat) (m : Mask)
    (v : Value) (old : Register)
    (hrs : cpu.current = some rs)
    (hi : cpu.readOperand ai = (false, (r : Int)))
    (ho : cpu.readOperand ao = (false, (s : Int)))
    (hr : rs[r]? = some ⟨some p, m⟩) (hv : cpu.heap[p]? = some v)
    (hs : rs[s]? = some old) (hr31 : r < 2 ^ 31) (hs31 : s < 2 ^ 31) :
    cpu.tmpri ai =
      ⟨(cpu.withHeap (cpu.heap ++ [v])).withTmp (some cpu.heap.length),
        .next (ai + CPU.operandSize)⟩ ∧
    (cpu.tmpri ai).cpu.current = some rs ∧
    ((cpu.tmpri ai).cpu.tmpro ao).outcome = .next (ao + CPU.operandSize) ∧
    ((cpu.tmpri ai).cpu.tmpro ao).cpu.tmp = Option.none ∧
    ∃ rs2, ((cpu.tmpri ai).cpu.tmpro ao).cpu.current = some rs2 ∧
      (rs2[s]?).map Register.object = some (some cpu.heap.length) := by
  have hrr : CPU.index (r : Int) = r := index_natCast r (by omega)
  have hss : CPU.index (s : Int) = s := index_natCast s (by omega)
  have hslt : s < rs.length := by
    rcases List.getElem?_eq_some_iff.mp hs with ⟨h, _⟩
    exact h
  have h1 : cpu.tmpri ai =
      ⟨(cpu.withHeap (cpu.heap ++ [v])).withTmp (some cpu.heap.length),
        .next (ai + CPU.operandSize)⟩ := by
    unfold CPU.tmpri
    rw [hi]
    simp only [operand_direct, hrs, hrr, RegisterSet.get, hr, CPU.copyObject, hv]
    rfl
  have hc1 : ((cpu.withHeap (cpu.heap ++ [v])).withTmp (some cpu.heap.length)).current =
      some rs := hrs
  have ho1 : ((cpu.withHeap (cpu.heap ++ [v])).withTmp (some cpu.heap.length)).readOperand ao =
      (false, (s : Int)) := ho
  refine ⟨h1, ?_, ?_⟩
  · rw [h1]
    exact hc1
  · rw [h1]
    simp only
    unfold CPU.tmpro
    rw [ho1]
    simp only [operand_direct, hc1, hss, RegisterSet.at_, hs]
    have key : ∀ rs1 : RegisterSet, rs1.length = rs.length →
        (match RegisterSet.setPointer rs1 s
            ((cpu.withHeap (cpu.heap ++ [v])).withTmp (some cpu.heap.length)).tmp with
          | .error e =>
            (⟨((cpu.withHeap (cpu.heap ++ [v])).withTmp (some cpu.heap.length)).setCurrent rs1,
              .raised e⟩ : Step)
          | .ok rs2 =>
            ⟨(((cpu.withHeap (cpu.heap ++ [v])).withTmp
                (some cpu.heap.length)).setCurrent rs2).withTmp Option.none,
              .next (ao + CPU.operandSize)⟩).outcome = .next (ao + CPU.operandSize) ∧
        (match RegisterSet.setPointer rs1 s
            ((cpu.withHeap (cpu.heap ++ [v])).withTmp (some cpu.heap.length)).tmp with
          | .error e =>
            (⟨((cpu.withHeap (cpu.heap ++ [v])).withTmp (some cpu.heap.length)).setCurrent rs1,
              .raised e⟩ : Step)
          | .ok rs2 =>
            ⟨(((cpu.withHeap (cpu.heap ++ [v])).withTmp
                (some cpu.heap.length)).setCurrent rs2).withTmp Option.none,
              .next (ao + CPU.operandSize)⟩).cpu.tmp = Option.none ∧
        ∃ rs2, (match RegisterSet.setPointer rs1 s
            ((cpu.withHeap (cpu.heap ++ [v])).withTmp (some cpu.heap.length)).tmp with
          | .error e =>
            (⟨((cpu.withHeap (cpu.heap ++ [v])).withTmp (some cpu.heap.length)).setCurrent rs1,
              .raised e⟩ : Step)
          | .ok rs2 =>
            ⟨(((cpu.withHeap (cpu.heap ++ [v])).withTmp
                (some cpu.heap.length)).setCurrent rs2).withTmp Option.none,
              .next (ao + CPU.operandSize)⟩).cpu.current = some rs2 ∧
          (rs2[s]?).map Register.object = some (some cpu.heap.length) := by
      intro rs1 hlen
      have hlt1 : s < rs1.length := by omega
      have hget : rs1[s]? = some rs1[s] := by simp [hlt1]
      rw [RegisterSet.setPointer, hget]
      refine ⟨rfl, rfl, _, current_setCurrent _ rs _ hc1, ?_⟩
      simp [hlt1, CPU.withTmp]
    cases hob : old.object with
    | none => exact key rs rfl
    | some q =>
      simp only [Option.isSome_some, if_true, RegisterSet.free, hs]
      exact key _ (by simp)

/-- Witness for `tmpri_tmpro_spec`: `tmpri 0` then `tmpro 1` in the sample callee. -/
theorem tmpri_tmpro_spec_witness :
    (sampleCPUWith (tmpriTmpro 0 1) [sampleCallee 0 false] Option.none).tmpri 0 =
      ⟨((sampleCPUWith (tmpriTmpro 0 1) [sampleCallee 0 false] Option.none).withHeap
          (sampleHeap ++ [Value.Integer 42])).withTmp (some 2),
        .next 5⟩ :=
  (tmpri_tmpro_spec (sampleCPUWith (tmpriTmpro 0 1) [sampleCallee 0 false] Option.none)
    (sampleCallee 0 false).regset 0 6 0 1 0 Mask.none (Value.Integer 42) Register.empty
    rfl (by decide) (by decide) rfl rfl rfl (by norm_num) (by norm_num)).1

end Tmp

/-! ## C33: `END` after `RESS` -/

section EndAfterRess

/-- C33 (counterexample): the global register set is selected, its register 0 holds
`Integer 2`, register 0 of the local register set of the top frame holds `Integer 42`,
and the caller asked for the return value in register 1. `END` copies `Integer 2`, the
value of the global register 0: the new object at pointer 2 is `Integer 2` and register 1
of the caller holds it. -/
theorem end_reads_global_register :
    sampleGlobalSelected.frames.getLast?.map (fun f => f.regset[0]?) =
      some (some ⟨some 0, Mask.none⟩) ∧
    sampleGlobalSelected.heap[0]? = some (Value.Integer 42) ∧
    (sampleGlobalSelected.end_ 0).outcome = .next 70 ∧
    (sampleGlobalSelected.end_ 0).cpu.heap =
      [Value.Integer 42, Value.Integer 2, Value.Integer 2] ∧
    (sampleGlobalSelected.end_ 0).cpu.frames.map (fun f => f.regset) =
      [[Register.empty, ⟨some 2, Mask.none⟩, Register.empty, Register.empty]] := by
  decide

/-- C33 (amended): when `RESS` has selected the global or a static register set `rs`,
`END` takes the return value from register 0 of that selected register set, not from the
local register set of the top frame: with a direct return register `r ≠ 0` that is a
register of the caller, the caller receives the object `p` of `rs[0]` itself when that
slot is flagged `REFERENCE`, and a new copy of its value otherwise. -/
theorem end_reads_selected_register_set (cpu : CPU) (addr : Nat) (rest : List Frame)
    (caller top : Frame) (rs : RegisterSet) (p : Nat) (mask : Mask) (old : Register)
    (v : Value)
    (hframes : cpu.frames = rest ++ [caller, top])
    (hret : top.place_return_value_in ≠ 0)
    (hsel : cpu.uregset = .globalSet ∨ ∃ name, cpu.uregset = .staticSet name)
    (hcur : cpu.current = some rs)
    (hreg0 : rs[0]? = some ⟨some p, mask⟩)
    (hv : cpu.heap[p]? = some v)
    (hdirect : top.resolve_return_value_register = false)
    (hold : caller.regset[CPU.index top.place_return_value_in]? = some old) :
    (rs = cpu.regset ∨ ∃ name, cpu.static_registers.lookup name = some rs) ∧
    cpu.end_ addr =
      if mask.reference = true then
        ⟨cpu.returnedTo cpu.heap
            (rest ++ [caller.deposit (CPU.index top.place_return_value_in) p old true]),
          .next top.return_address⟩
      else
        ⟨cpu.returnedTo (cpu.heap ++ [v])
            (rest ++ [caller.deposit (CPU.index top.place_return_value_in) cpu.heap.length
              old false]),
          .next top.return_address⟩ := by
  constructor
  · rcases hsel with hg | ⟨name, hn⟩
    · left
      simp only [CPU.current, hg] at hcur
      exact (Option.some.inj hcur).symm
    · right
      refine ⟨name, ?_⟩
      simpa only [CPU.current, hn] using hcur
  · exact end_deposits_general cpu addr rest caller top rs p mask top.place_return_value_in
      old v hframes hret hcur hreg0 hv (by simp [hdirect]) hold

/-- Witness for `end_reads_selected_register_set`: the sample machine with the global
register set selected. -/
theorem end_reads_selected_register_set_witness :
    sampleGlobalSelected.end_ 0 =
      ⟨sampleGlobalSelected.returnedTo (sampleHeap ++ [Value.Integer 2])
          [sampleCaller.deposit 1 2 Register.empty false],
        .next 70⟩ :=
  (end_reads_selected_register_set sampleGlobalSelected 0 [] sampleCaller
    (sampleCallee 1 false) [⟨some 1, Mask.none⟩, Register.empty] 1 Mask.none Register.empty
    (Value.Integer 2) rfl (by decide) (Or.inl rfl) rfl rfl rfl rfl rfl).2

end EndAfterRess

/-! ## C34: `resolveregister` -/

section ResolveRegister

theorem digitChar_isDigit : ∀ d, d < 10 → (Nat.digitChar d).isDigit = true := by
  decide

theorem toDigitsCore_all_digits (fuel : Nat) :
    ∀ (n : Nat) (ds : List Char), ds.all Char.isDigit = true →
      (Nat.toDigitsCore 10 fuel n ds).all Char.isDigit = true := by
  induction fuel with
  | zero => intro n ds h; simpa [Nat.toDigitsCore] using h
  | succ f ih =>
    intro n ds h
    have hd : (Nat.digitChar (n % 10)).isDigit = true :=
      digitChar_isDigit (n % 10) (Nat.mod_lt n (by norm_num))
    have hds : (Nat.digitChar (n % 10) :: ds).all Char.isDigit = true := by
      simp only [List.all_cons, hd, h, Bool.and_self]
    unfold Nat.toDigitsCore
    simp only
    split
    · exact hds
    · exact ih _ _ hds

theorem toDigitsCore_ne_nil (fuel : Nat) :
    ∀ (n : Nat) (ds : List Char), ds ≠ [] → Nat.toDigitsCore 10 fuel n ds ≠ [] := by
  induction fuel with
  | zero => intro n ds h; simpa [Nat.toDigitsCore] using h
  | succ f ih =>
    intro n ds _
    unfold Nat.toDigitsCore
    simp only
    split
    · simp
    · exact ih _ _ (by simp)

theorem toDigits_all_digits (n : Nat) : (Nat.toDigits 10 n).all Char.isDigit = true :=
  toDigitsCore_all_digits (n + 1) n [] rfl

theorem toDigits_ne_nil (n : Nat) : Nat.toDigits 10 n ≠ [] := by
  unfold Nat.toDigits Nat.toDigitsCore
  simp only
  split
  · simp
  · exact toDigitsCore_ne_nil _ _ _ (by simp)

theorem nat_toString_data (n : Nat) : (toString n).data = Nat.toDigits 10 n := rfl

theorem isnum_of_digits (ds : List Char) (hne : ds ≠ []) (hall : ds.all Char.isDigit = true) :
    str.isnum (String.mk ds) true = true := by
  cases ds with
  | nil => exact absurd rfl hne
  | cons c cs =>
    have hc : c.isDigit = true := by
      simp only [List.all_cons, Bool.and_eq_true] at hall
      exact hall.1
    have hminus : (c == '-') = false := by
      rw [beq_eq_false_iff_ne]
      intro h
      rw [h] at hc
      exact absurd hc (by decide)
    unfold str.isnum
    simp only [List.head?_cons, Option.some_beq_some, hminus, Bool.and_false,
      Bool.false_eq_true, if_false]
    simpa using hall

theorem isnum_int_toString (i : Int) : str.isnum (toString i) true = true := by
  cases i with
  | ofNat n =>
    exact isnum_of_digits (Nat.toDigits 10 n) (toDigits_ne_nil n) (toDigits_all_digits n)
  | negSucc n =>
    have hd : (toString (Int.negSucc n)).data = '-' :: Nat.toDigits 10 (n + 1) := rfl
    unfold str.isnum
    rw [hd]
    have hne := toDigits_ne_nil (n + 1)
    have hall := toDigits_all_digits (n + 1)
    simp only [List.head?_cons, beq_self_eq_true, Bool.and_self, if_true, List.drop_succ_cons,
      List.drop_zero, hall, Bool.and_true]
    simp [hne]

theorem sub_at_append (s : String) : str.sub ("@" ++ s) 1 = s := by
  unfold str.sub
  simp [String.data_append]

theorem head_at_append (s : String) : ("@" ++ s).data.head? = some '@' := by
  simp [String.data_append]

theorem isnum_at_append (s : String) : str.isnum ("@" ++ s) true = false := by
  unfold str.isnum
  simp [String.data_append]

theorem ite_error_ne_ok (c : Prop) [Decidable c] (a b r : String) :
    (if c then (Except.error a : Except String String) else .error b) ≠ .ok r := by
  split <;> simp

theorem resolveregister_fixed (r : String) (names : List (String × Int))
    (h : str.isnum r true = true ∨
      (r.data.head? = some '@' ∧ str.isnum (str.sub r 1) true = true)) :
    resolveregister r names = .ok r := by
  unfold resolveregister
  rcases h with h | ⟨h1, h2⟩
  · simp [h]
  · by_cases hn : str.isnum r true = true
    · simp [hn]
    · simp [hn, h1, h2]

/-- C34: for every table `names`: a numeric operand `N`, and `@N`, is returned unchanged;
a name `n` (an operand that is not numeric and does not begin with `@`) declared with
index `i` is rendered as the decimal `i`, and `@n` as `@` followed by it; an undeclared
non-empty name fails with `undeclared name: n`, the empty operand (when the empty string
is not declared) with `not enough operands`; and `resolveregister` returns every result
it returned unchanged. -/
theorem resolveregister_spec (names : List (String × Int)) :
    (∀ N, str.isnum N true = true →
      resolveregister N names = .ok N ∧ resolveregister ("@" ++ N) names = .ok ("@" ++ N)) ∧
    (∀ n i, str.isnum n true = false → n.data.head? ≠ some '@' → names.lookup n = some i →
      resolveregister n names = .ok (toString i) ∧
      resolveregister ("@" ++ n) names = .ok ("@" ++ toString i)) ∧
    (∀ n, str.isnum n true = false → n.data.head? ≠ some '@' → n ≠ "" →
      names.lookup n = Option.none →
      resolveregister n names = .error ("undeclared name: " ++ n) ∧
      resolveregister ("@" ++ n) names = .error ("undeclared name: " ++ n)) ∧
    (names.lookup "" = Option.none → resolveregister "" names = .error "not enough operands") ∧
    (∀ reg r, resolveregister reg names = .ok r → resolveregister r names = .ok r) := by
  refine ⟨?_, ?_, ?_, ?_, ?_⟩
  · intro N hN
    refine ⟨resolveregister_fixed N names (Or.inl hN), ?_⟩
    exact resolveregister_fixed _ names (Or.inr ⟨head_at_append N, by rw [sub_at_append]; exact hN⟩)
  · intro n i hn hat hl
    constructor
    · unfold resolveregister
      simp [hn, hat, hl]
    · unfold resolveregister
      simp [isnum_at_append, head_at_append, sub_at_append, hn, hl]
  · intro n hn hat hne hl
    constructor
    · unfold resolveregister
      simp [hn, hat, hl, hne]
    · unfold resolveregister
      simp [isnum_at_append, head_at_append, sub_at_append, hn, hl, hne]
  · intro hl
    unfold resolveregister
    simp [str.isnum, hl]
  · intro reg r h
    unfold resolveregister at h
    split at h
    · rename_i h1
      cases h
      exact resolveregister_fixed _ names (Or.inl h1)
    · split at h
      · rename_i h1 h2
        cases h
        simp only [Bool.and_eq_true, beq_iff_eq] at h2
        exact resolveregister_fixed _ names (Or.inr h2)
      · simp only at h
        split at h
        · rename_i index hl
          cases h
          by_cases hat : reg.data.head? = some '@'
          · simp only [hat, beq_self_eq_true, if_true]
            exact resolveregister_fixed _ names
              (Or.inr ⟨head_at_append _, by rw [sub_at_append]; exact isnum_int_toString index⟩)
          · have hb : (reg.data.head? == some '@') = false := by
              rw [beq_eq_false_iff_ne]
              exact hat
            simp only [hb, Bool.false_eq_true, if_false]
            have he : "" ++ toString index = toString index := by simp
            rw [he]
            exact resolveregister_fixed _ names (Or.inl (isnum_int_toString index))
        · exact absurd h (ite_error_ne_ok _ _ _ _)

/-- Witness for `resolveregister_spec`: the name `counter` is declared with index 3. -/
theorem resolveregister_spec_witness :
    resolveregister "counter" sampleNames = .ok "3" ∧
    resolveregister "@counter" sampleNames = .ok "@3" :=
  (resolveregister_spec sampleNames).2.1 "counter" 3 (by decide) (by decide) (by decide)

end ResolveRegister

/-! ## C36: every accepted mnemonic and the chain of `compile` -/

section CompileDispatch

set_option maxRecDepth 100000 in
theorem unimplemented_branch :
    ∀ k ∈ unimplementedMnemonics, k ∈ OP_SIZES.map Prod.fst ∧ branchOfMnemonic k = none := by
  decide

end CompileDispatch

/-! ## C32: `expandSource` -/

section ExpandSource

/-- The map `m` holds, for every position, the tag at that position of `tags`. -/
theorem lookup_mapAssign (m : List (Nat × Nat)) (tags : List Nat) (i : Nat)
    (h : ∀ k, m.lookup k = tags[k]?) :
    ∀ k, (mapAssign m tags.length i).lookup k = (tags ++ [i])[k]? := by
  intro k
  unfold mapAssign
  by_cases hk : k = tags.length
  · subst hk
    simp [List.lookup]
  · have hne : (k == tags.length) = false := by
      rw [beq_eq_false_iff_ne]
      exact hk
    simp only [List.lookup, hne]
    rw [h k]
    by_cases hlt : k < tags.length
    · rw [List.getElem?_append_left hlt]
    · have hgt : tags.length < k := by omega
      have h1 : tags[k]? = none := by simp; omega
      have h2 : (tags ++ [i])[k]? = none := by simp; omega
      rw [h1, h2]

theorem expandDecoded_spec (i indent : Nat) :
    ∀ (ds : List (List String)) (asm : List String) (m : List (Nat × Nat)) (tags : List Nat),
      tags.length = asm.length → (∀ k, m.lookup k = tags[k]?) →
      (expandDecoded i indent ds (asm, m)).1 =
        asm ++ ds.map (fun d => str.strmul ' ' indent ++ str.join d ' ') ∧
      ∀ k, (expandDecoded i indent ds (asm, m)).2.lookup k =
        (tags ++ List.replicate ds.length i)[k]? := by
  intro ds
  induction ds with
  | nil =>
    intro asm m tags _ h
    simp [expandDecoded, h]
  | cons d rest ih =>
    intro asm m tags hlen h
    have h1 := lookup_mapAssign m tags i h
    rw [hlen] at h1
    have := ih (asm ++ [str.strmul ' ' indent ++ str.join d ' ']) (mapAssign m asm.length i)
      (tags ++ [i]) (by simp [hlen]) h1
    simp only [expandDecoded]
    refine ⟨by rw [this.1]; simp, ?_⟩
    intro k
    rw [this.2 k]
    simp [List.replicate_succ]

theorem expandLoop_spec (decode_line : String → List (List String)) :
    ∀ (lines : List String) (i : Nat) (asm : List String) (m : List (Nat × Nat))
      (tags : List Nat),
      tags.length = asm.length → (∀ k, m.lookup k = tags[k]?) →
      (expandLoop decode_line lines i (asm, m)).1 =
        asm ++ (taggedFrom decode_line i lines).map Prod.snd ∧
      ∀ k, (expandLoop decode_line lines i (asm, m)).2.lookup k =
        (tags ++ (taggedFrom decode_line i lines).map Prod.fst)[k]? := by
  intro lines
  induction lines with
  | nil =>
    intro i asm m tags _ h
    simp [expandLoop, taggedFrom, h]
  | cons line rest ih =>
    intro i asm m tags hlen h
    by_cases hp : passesThrough (str.lstrip line) = true
    · have h1 := lookup_mapAssign m tags i h
      rw [hlen] at h1
      have := ih (i + 1) (asm ++ [line]) (mapAssign m asm.length i) (tags ++ [i])
        (by simp [hlen]) h1
      simp only [expandLoop, hp, if_true, taggedFrom, expansionOf]
      refine ⟨by rw [this.1]; simp, ?_⟩
      intro k
      rw [this.2 k]
      simp
    · have hd := expandDecoded_spec i (line.length - (str.lstrip line).length)
        (decode_line (str.lstrip line)) asm m tags hlen h
      have := ih (i + 1)
        (expandDecoded i (line.length - (str.lstrip line).length)
          (decode_line (str.lstrip line)) (asm, m)).1
        (expandDecoded i (line.length - (str.lstrip line).length)
          (decode_line (str.lstrip line)) (asm, m)).2
        (tags ++ List.replicate (decode_line (str.lstrip line)).length i)
        (by rw [hd.1]; simp [hlen]) hd.2
      simp only [expandLoop, hp, Bool.false_eq_true, if_false, taggedFrom, expansionOf]
      refine ⟨by rw [this.1, hd.1]; simp, ?_⟩
      intro k
      rw [this.2 k]
      congr 1
      simp only [List.map_append, List.map_map, List.append_assoc, List.append_cancel_left_eq]
      congr 1
      symm
      apply List.eq_replicate_iff.mpr
      simp

theorem taggedFrom_tags (decode_line : String → List (List String)) :
    ∀ (lines : List String) (i : Nat),
      ((taggedFrom decode_line i lines).map Prod.fst).Pairwise (fun a b => a ≤ b) ∧
      ∀ t ∈ (taggedFrom decode_line i lines).map Prod.fst, i ≤ t := by
  intro lines
  induction lines with
  | nil => intro i; simp [taggedFrom]
  | cons line rest ih =>
    intro i
    obtain ⟨hp, hb⟩ := ih (i + 1)
    have hfst : ((expansionOf decode_line line).map (fun text => (i, text))).map Prod.fst =
        List.replicate (expansionOf decode_line line).length i := by
      apply List.eq_replicate_iff.mpr
      simp
    simp only [taggedFrom, List.map_append, hfst]
    constructor
    · rw [List.pairwise_append]
      refine ⟨by simp, hp, ?_⟩
      intro a ha b hb2
      have : a = i := (List.mem_replicate.mp ha).2
      have := hb b hb2
      omega
    · intro t ht
      rcases List.mem_append.mp ht with h | h
      · have : t = i := (List.mem_replicate.mp h).2
        omega
      · have := hb t h
        omega

theorem taggedFrom_source (decode_line : String → List (List String)) :
    ∀ (lines : List String) (i j : Nat) (text : String),
      (j, text) ∈ taggedFrom decode_line i lines →
      i ≤ j ∧ ∃ line, lines[j - i]? = some line ∧ text ∈ expansionOf decode_line line := by
  intro lines
  induction lines with
  | nil => intro i j text h; simp [taggedFrom] at h
  | cons line rest ih =>
    intro i j text h
    simp only [taggedFrom, List.mem_append, List.mem_map, Prod.mk.injEq] at h
    rcases h with ⟨t, ht, hji, htt⟩ | h
    · subst hji
      subst htt
      exact ⟨le_refl _, line, by simp, ht⟩
    · obtain ⟨hle, l, hl, hmem⟩ := ih (i + 1) j text h
      refine ⟨by omega, l, ?_, hmem⟩
      have : j - i = (j - (i + 1)) + 1 := by omega
      rw [this, List.getElem?_cons_succ]
      exact hl

theorem taggedFrom_passes (decode_line : String → List (List String)) :
    ∀ (lines : List String) (i n : Nat) (line : String),
      lines[n]? = some line → passesThrough (str.lstrip line) = true →
      (i + n, line) ∈ taggedFrom decode_line i lines := by
  intro lines
  induction lines with
  | nil => intro i n line h; simp at h
  | cons l rest ih =>
    intro i n line h hp
    cases n with
    | zero =>
      simp only [List.getElem?_cons_zero, Option.some.injEq] at h
      subst h
      simp [taggedFrom, expansionOf, hp]
    | succ n =>
      simp only [List.getElem?_cons_succ] at h
      have := ih (i + 1) n line h hp
      simp only [taggedFrom, List.mem_append]
      right
      have he : i + (n + 1) = i + 1 + n := by omega
      rw [he]
      exact this

theorem passesThrough_of_no_paren (line : String) (h : str.contains line '(' = false) :
    passesThrough (str.lstrip line) = true := by
  have hs : str.contains (str.lstrip line) '(' = false := by
    unfold str.contains str.lstrip at *
    cases hc : (List.dropWhile str.isBlank line.data).contains '(' with
    | false => rfl
    | true =>
      have hm : '(' ∈ List.dropWhile str.isBlank line.data := List.elem_iff.mp hc
      have hm2 : '(' ∈ line.data := (List.dropWhile_sublist _).subset hm
      have hc2 : line.data.contains '(' = true := List.elem_iff.mpr hm2
      rw [hc2] at h
      exact absurd h (by decide)
  simp [passesThrough, hs]

/-- C32: `expandSource`, called with an empty map, returns expanded lines and a map such
that the map is defined exactly on the positions of the expanded lines, is
non-decreasing, sends each position to the index of a source line of whose expansion
the expanded line at that position is part (the source line itself, or one of its
decoded lines), and every source line without `(` stands unchanged at a position mapped
to its own index. -/
theorem expandSource_map (decode_line : String → List (List String)) (lines : List String) :
    (∀ k, ((expandSource decode_line lines []).2.lookup k).isSome = true ↔
      k < (expandSource decode_line lines []).1.length) ∧
    (∀ k1 k2 i1 i2, k1 ≤ k2 → (expandSource decode_line lines []).2.lookup k1 = some i1 →
      (expandSource decode_line lines []).2.lookup k2 = some i2 → i1 ≤ i2) ∧
    (∀ k i, (expandSource decode_line lines []).2.lookup k = some i →
      ∃ line text, lines[i]? = some line ∧
        (expandSource decode_line lines []).1[k]? = some text ∧
        text ∈ expansionOf decode_line line) ∧
    (∀ i line, lines[i]? = some line → str.contains line '(' = false →
      ∃ k, (expandSource decode_line lines []).1[k]? = some line ∧
        (expandSource decode_line lines []).2.lookup k = some i) := by
  obtain ⟨hasm, hmap⟩ := expandLoop_spec decode_line lines 0 [] [] [] rfl (by simp)
  have hasm2 : (expandSource decode_line lines []).1 =
      (taggedFrom decode_line 0 lines).map Prod.snd := by
    simpa [expandSource] using hasm
  have hmap2 : ∀ k, (expandSource decode_line lines []).2.lookup k =
      ((taggedFrom decode_line 0 lines).map Prod.fst)[k]? := by
    intro k
    simpa [expandSource] using hmap k
  have hpair : ∀ k i, (expandSource decode_line lines []).2.lookup k = some i →
      ∃ text, (taggedFrom decode_line 0 lines)[k]? = some (i, text) := by
    intro k i h
    rw [hmap2 k, List.getElem?_map] at h
    cases ht : (taggedFrom decode_line 0 lines)[k]? with
    | none => simp [ht] at h
    | some p =>
      obtain ⟨j, text⟩ := p
      simp only [ht, Option.map_some', Option.some.injEq] at h
      subst h
      exact ⟨text, rfl⟩
  refine ⟨?_, ?_, ?_, ?_⟩
  · intro k
    rw [hmap2 k, hasm2]
    by_cases hk : k < (taggedFrom decode_line 0 lines).length
    · simp [hk]
    · simp [hk]
      omega
  · intro k1 k2 i1 i2 hle h1 h2
    rw [hmap2 k1] at h1
    rw [hmap2 k2] at h2
    rcases Nat.lt_or_eq_of_le hle with hlt | heq
    · obtain ⟨hl1, he1⟩ := List.getElem?_eq_some_iff.mp h1
      obtain ⟨hl2, he2⟩ := List.getElem?_eq_some_iff.mp h2
      have hp := (taggedFrom_tags decode_line lines 0).1
      rw [List.pairwise_iff_getElem] at hp
      have := hp k1 k2 hl1 hl2 hlt
      rw [he1, he2] at this
      exact this
    · subst heq
      rw [h1] at h2
      cases h2
      exact le_refl _
  · intro k i h
    obtain ⟨text, ht⟩ := hpair k i h
    have hmem : (i, text) ∈ taggedFrom decode_line 0 lines :=
      List.mem_iff_getElem?.mpr ⟨k, ht⟩
    obtain ⟨_, line, hl, hin⟩ := taggedFrom_source decode_line lines 0 i text hmem
    refine ⟨line, text, by simpa using hl, ?_, hin⟩
    rw [hasm2, List.getElem?_map, ht]
    rfl
  · intro i line hl hc
    have hmem := taggedFrom_passes decode_line lines 0 i line hl
      (passesThrough_of_no_paren line hc)
    rw [Nat.zero_add] at hmem
    obtain ⟨k, hk⟩ := List.mem_iff_getElem?.mp hmem
    refine ⟨k, ?_, ?_⟩
    · rw [hasm2, List.getElem?_map, hk]
      rfl
    · rw [hmap2 k, List.getElem?_map, hk]
      rfl

/-- Witness for `expandSource_map`: the third line of a source whose second line is
expanded into two stands unchanged at position 3, which is mapped to 2. -/
theorem expandSource_map_witness :
    ∃ k, (expandSource sampleDecode ["izero 2", "  print (izero 1)", "halt"] []).1[k]? =
        some "halt" ∧
      (expandSource sampleDecode ["izero 2", "  print (izero 1)", "halt"] []).2.lookup k =
        some 2 :=
  (expandSource_map sampleDecode ["izero 2", "  print (izero 1)", "halt"]).2.2.2 2 "halt"
    rfl (by decide)

end ExpandSource

/-! ## C39: `filter` -/

section Filter

theorem opens_not_skipped (l : String) (h : opensDefinition l = true) :
    isSkippedDirective l = false := by
  unfold opensDefinition at h
  unfold isSkippedDirective
  simp only [str.startswith] at h ⊢
  rcases hd : l.data with _ | ⟨a, _ | ⟨b, _ | ⟨c, r⟩⟩⟩
  · rw [hd] at h
    simp [List.isPrefixOf] at h
  · rw [hd] at h
    simp [List.isPrefixOf] at h
  · rw [hd] at h
    simp [List.isPrefixOf] at h
  · rw [hd] at h
    simp only [List.isPrefixOf, Bool.or_eq_true, Bool.and_eq_true, beq_iff_eq] at h
    rcases h with (⟨_, hb, hc, _⟩ | ⟨_, hb, hc, _⟩) | ⟨_, hb, hc, _⟩ <;>
      subst hb <;> subst hc <;> simp [List.isPrefixOf]

theorem filterFrom_sublist :
    ∀ (lines : List String) (b : Bool) (out : List String), filterFrom b lines = some out →
      out.Sublist lines ∧ ∀ x ∈ out, isSkippedDirective x = false := by
  intro lines
  induction lines with
  | nil =>
    intro b out h
    cases b with
    | true => simp [filterFrom] at h
    | false =>
      simp only [filterFrom, Option.some.injEq] at h
      subst h
      simp
  | cons line rest ih =>
    intro b out h
    cases b with
    | true =>
      simp only [filterFrom] at h
      split at h
      · obtain ⟨hs, hx⟩ := ih false out h
        exact ⟨hs.cons line, hx⟩
      · obtain ⟨hs, hx⟩ := ih true out h
        exact ⟨hs.cons line, hx⟩
    | false =>
      simp only [filterFrom] at h
      split at h
      · obtain ⟨hs, hx⟩ := ih false out h
        exact ⟨hs.cons line, hx⟩
      · split at h
        · obtain ⟨hs, hx⟩ := ih true out h
          exact ⟨hs.cons line, hx⟩
        · rename_i hskip _
          cases hr : filterFrom false rest with
          | none => simp [hr] at h
          | some filtered =>
            simp only [hr, Option.map_some', Option.some.injEq] at h
            subst h
            obtain ⟨hs, hx⟩ := ih false filtered hr
            refine ⟨hs.cons₂ line, ?_⟩
            intro x hxm
            rcases List.mem_cons.mp hxm with hxe | hxm2
            · subst hxe
              simpa using hskip
            · exact hx x hxm2

theorem keptFrom_bounds :
    ∀ (lines : List String) (b : Bool) (i : Nat),
      (keptFrom b i lines).Pairwise (fun x y => x < y) ∧ ∀ j ∈ keptFrom b i lines, i ≤ j := by
  intro lines
  induction lines with
  | nil => intro b i; cases b <;> simp [keptFrom]
  | cons line rest ih =>
    intro b i
    have hf := ih false (i + 1)
    have ht := ih true (i + 1)
    cases b with
    | true =>
      simp only [keptFrom]
      split
      · exact ⟨hf.1, fun j hj => by have := hf.2 j hj; omega⟩
      · exact ⟨ht.1, fun j hj => by have := ht.2 j hj; omega⟩
    | false =>
      simp only [keptFrom]
      split
      · exact ⟨hf.1, fun j hj => by have := hf.2 j hj; omega⟩
      · split
        · exact ⟨ht.1, fun j hj => by have := ht.2 j hj; omega⟩
        · refine ⟨List.pairwise_cons.mpr ⟨fun j hj => by have := hf.2 j hj; omega, hf.1⟩, ?_⟩
          intro j hj
          rcases List.mem_cons.mp hj with h | h
          · omega
          · have := hf.2 j h
            omega

theorem drop_cons_step (lines : List String) (i : Nat) (line : String) (rest : List String)
    (h : lines.drop i = line :: rest) :
    lines[i]? = some line ∧ lines.drop (i + 1) = rest := by
  constructor
  · have := congrArg List.head? h
    simpa [List.head?_drop] using this
  · have := congrArg List.tail h
    simpa [List.tail_drop] using this

theorem filterFrom_kept (lines : List String) (H : ClosedDefinitions lines) :
    ∀ (suf : List String) (b : Bool) (i : Nat), lines.drop i = suf →
      (b = true → ∃ (a : Nat) (l : String), a < i ∧ lines[a]? = some l ∧
        opensDefinition l = true ∧ ∀ k : Nat, a < k → k < i → lines[k]? ≠ some ".end") →
      (b = false → ∀ (a : Nat) (l : String), a < i → lines[a]? = some l →
        opensDefinition l = true → ∃ k : Nat, a < k ∧ k < i ∧ lines[k]? = some ".end") →
      ∃ out, filterFrom b suf = some out ∧
        out.map some = (keptFrom b i suf).map (fun j => lines[j]?) ∧
        ∀ j ∈ keptFrom b i suf, ¬ InsideDefinition lines j := by
  intro suf
  induction suf with
  | nil =>
    intro b i hdrop ht _
    cases b with
    | false => exact ⟨[], rfl, rfl, by simp [keptFrom]⟩
    | true =>
      exfalso
      obtain ⟨a, l, hai, hl, hopen, hno⟩ := ht rfl
      obtain ⟨j, haj, hj⟩ := H a l hl hopen
      have hlen : lines.length ≤ i := List.drop_eq_nil_iff.mp hdrop
      have hjlt : j < lines.length := (List.getElem?_eq_some_iff.mp hj).1
      exact hno j haj (by omega) hj
  | cons line rest ih =>
    intro b i hdrop ht hf
    obtain ⟨hline, hrest⟩ := drop_cons_step lines i line rest hdrop
    cases b with
    | true =>
      obtain ⟨a, l, hai, hl, hopen, hno⟩ := ht rfl
      by_cases hend : line = ".end"
      · obtain ⟨out, ho, hm, hk⟩ := ih false (i + 1) hrest (by simp) (by
          intro _ a2 l2 ha2 hl2 hopen2
          by_cases hlt : a2 < i
          · exact ⟨i, hlt, by omega, by rw [hline, hend]⟩
          · have : a2 = i := by omega
            subst this
            rw [hline] at hl2
            cases hl2
            rw [hend] at hopen2
            exact absurd hopen2 (by decide))
        refine ⟨out, ?_, ?_, ?_⟩
        · simp only [filterFrom, hend, if_true]
          rw [← ho]
        · simp only [keptFrom, hend, if_true]
          exact hm
        · simp only [keptFrom, hend, if_true]
          exact hk
      · obtain ⟨out, ho, hm, hk⟩ := ih true (i + 1) hrest (by
          intro _
          refine ⟨a, l, by omega, hl, hopen, ?_⟩
          intro k hak hki
          by_cases hlt : k < i
          · exact hno k hak hlt
          · have : k = i := by omega
            subst this
            rw [hline]
            intro h
            exact hend (Option.some.inj h)) (by simp)
        refine ⟨out, ?_, ?_, ?_⟩
        · simp only [filterFrom, hend, if_false]
          exact ho
        · simp only [keptFrom, hend, if_false]
          exact hm
        · simp only [keptFrom, hend, if_false]
          exact hk
    | false =>
      have hfalse := hf rfl
      by_cases hskip : isSkippedDirective line = true
      · have hnot : opensDefinition line ≠ true := by
          intro ho
          rw [opens_not_skipped line ho] at hskip
          exact absurd hskip (by decide)
        obtain ⟨out, ho, hm, hk⟩ := ih false (i + 1) hrest (by simp) (by
          intro _ a2 l2 ha2 hl2 hopen2
          by_cases hlt : a2 < i
          · obtain ⟨k, h1, h2, h3⟩ := hfalse a2 l2 hlt hl2 hopen2
            exact ⟨k, h1, by omega, h3⟩
          · have : a2 = i := by omega
            subst this
            rw [hline] at hl2
            cases hl2
            exact absurd hopen2 hnot)
        refine ⟨out, ?_, ?_, ?_⟩
        · simp only [filterFrom, hskip, if_true]
          exact ho
        · simp only [keptFrom, hskip, if_true]
          exact hm
        · simp only [keptFrom, hskip, if_true]
          exact hk
      · by_cases hopen : opensDefinition line = true
        · obtain ⟨out, ho, hm, hk⟩ := ih true (i + 1) hrest (by
            intro _
            exact ⟨i, line, by omega, hline, hopen, fun k h1 h2 => by omega⟩) (by simp)
          refine ⟨out, ?_, ?_, ?_⟩
          · simp only [filterFrom, hskip, hopen, if_true, Bool.false_eq_true, if_false]
            exact ho
          · simp only [keptFrom, hskip, hopen, if_true, Bool.false_eq_true, if_false]
            exact hm
          · simp only [keptFrom, hskip, hopen, if_true, Bool.false_eq_true, if_false]
            exact hk
        · obtain ⟨out, ho, hm, hk⟩ := ih false (i + 1) hrest (by simp) (by
            intro _ a2 l2 ha2 hl2 hopen2
            by_cases hlt : a2 < i
            · obtain ⟨k, h1, h2, h3⟩ := hfalse a2 l2 hlt hl2 hopen2
              exact ⟨k, h1, by omega, h3⟩
            · have : a2 = i := by omega
              subst this
              rw [hline] at hl2
              cases hl2
              exact absurd hopen2 hopen)
          refine ⟨line :: out, ?_, ?_, ?_⟩
          · simp only [filterFrom, hskip, hopen, Bool.false_eq_true, if_false, ho,
              Option.map_some']
          · simp only [keptFrom, hskip, hopen, Bool.false_eq_true, if_false, List.map_cons,
              hline, hm]
          · simp only [keptFrom, hskip, hopen, Bool.false_eq_true, if_false]
            intro j hj
            rcases List.mem_cons.mp hj with h | h
            · subst h
              rintro ⟨a, l, hal, hl, hop, hno⟩
              by_cases hlt : a < j
              · obtain ⟨k, h1, h2, h3⟩ := hfalse a l hlt hl hop
                exact hno k h1 h2 h3
              · have : a = j := by omega
                subst this
                rw [hline] at hl
                cases hl
                exact hopen hop
            · exact hk j h

/-- C39: when each line that opens a definition (`.function:`, `.block:`, `.class:`) is
followed later by a line equal to `.end`, `filter` does not index past the end of the
list: it returns a list, which is a subsequence of its input, holds none of the skipped
directive lines, and is made of the lines at increasing positions none of which lies
inside a definition. -/
theorem filter_closed (lines : List String) (H : ClosedDefinitions lines) :
    ∃ out, filter lines = some out ∧ out.Sublist lines ∧
      (∀ l ∈ out, isSkippedDirective l = false) ∧
      ∃ idx : List Nat, idx.Pairwise (fun x y => x < y) ∧
        out.map some = idx.map (fun j => lines[j]?) ∧
        ∀ j ∈ idx, ¬ InsideDefinition lines j := by
  obtain ⟨out, ho, hm, hk⟩ := filterFrom_kept lines H lines false 0 rfl (by simp)
    (by intro _ a l ha; omega)
  have hs := filterFrom_sublist lines false out ho
  exact ⟨out, ho, hs.1, hs.2, keptFrom false 0 lines, (keptFrom_bounds lines false 0).1, hm, hk⟩

theorem sampleSource_closed : ClosedDefinitions sampleSource := by
  intro i l h ho
  rcases i with _ | _ | _ | _ | _ | _ | _ | i <;>
    simp only [sampleSource, List.getElem?_cons_succ, List.getElem?_cons_zero,
      List.getElem?_nil, Option.some.injEq] at h
  all_goals first
    | (subst h; exact absurd ho (by decide))
    | exact ⟨5, by omega, rfl⟩
    | exact absurd h (by simp)

/-- Witness for `filter_closed`: a source with one function definition; `filter` keeps
the two instruction lines outside it. -/
theorem filter_closed_witness :
    filter sampleSource = some ["izero 1", "halt"] ∧
    ∃ out, filter sampleSource = some out ∧ out.Sublist sampleSource ∧
      (∀ l ∈ out, isSkippedDirective l = false) ∧
      ∃ idx : List Nat, idx.Pairwise (fun x y => x < y) ∧
        out.map some = idx.map (fun j => sampleSource[j]?) ∧
        ∀ j ∈ idx, ¬ InsideDefinition sampleSource j :=
  ⟨by decide, filter_closed sampleSource sampleSource_closed⟩

end Filter

/-! ## C38: progress of the disassembler -/

section DisassemblerProgress

theorem decodeLoop_sample :
    decodeLoop (fun _ => "") sampleOpcodeOf [1, 0, 0, 0, 0, 0, 2] 0 7 7 0 [] =
      some (.ok (["    izero 0", "    halt"], false)) := by
  rfl

end DisassemblerProgress

/-! ## C35: the next instruction according to the engine and to the disassembler -/

section NextInstruction

theorem text_length (bytes : List Nat) : (text bytes).length = bytes.length := by
  simp [text, String.length]

theorem cstring_drop (buf : List Nat) (a k : Nat) :
    cstring (buf.drop a) k = cstring buf (a + k) := by
  simp [cstring, List.drop_drop, Nat.add_comm]

theorem instruction_fixed (showFloat : Nat → String) (op : OPCODE) (buf : List Nat)
    (name : String) (size : Nat) (hn : OP_NAMES.lookup op = some name)
    (hv : OP_VARIABLE_LENGTH.contains op = false) (hs : OP_SIZES.lookup name = some size)
    (hpos : 1 ≤ size) :
    ∃ text, disassembler.instruction showFloat op buf = .ok (text, size) := by
  unfold disassembler.instruction disassembler.scanLength
  simp only [hn, hv, Bool.not_false, if_true, hs, Option.map_some']
  exact ⟨_, by rw [Nat.sub_add_cancel hpos]⟩

theorem echo_next (cpu : CPU) (addr a : Nat) (h : (cpu.echo addr).outcome = .next a) :
    a = addr + CPU.operandSize := by
  unfold CPU.echo at h
  repeat' split at h
  all_goals simp_all

set_option maxRecDepth 100000 in
theorem echo_agrees (showFloat : Nat → String) :
    AgreesWithDisassembler showFloat OPCODE.ECHO CPU.echo := by
  intro cpu p a h
  have hn := echo_next cpu (p + 1) a h
  obtain ⟨text, ht⟩ := instruction_fixed showFloat OPCODE.ECHO (cpu.bytecode.drop (p + 1))
    "echo" 6 (by decide) (by decide) (by decide) (by norm_num)
  refine ⟨text, 6, ht, ?_⟩
  simp only [CPU.operandSize, sizeof_bool, sizeof_int] at hn
  omega

theorem print_next (cpu : CPU) (addr a : Nat) (h : (cpu.print addr).outcome = .next a) :
    a = addr + CPU.operandSize := by
  unfold CPU.print CPU.echo at h
  repeat' split at h
  all_goals simp_all

set_option maxRecDepth 100000 in
theorem print_agrees (showFloat : Nat → String) :
    AgreesWithDisassembler showFloat OPCODE.PRINT CPU.print := by
  intro cpu p a h
  have hn := print_next cpu (p + 1) a h
  obtain ⟨text, ht⟩ := instruction_fixed showFloat OPCODE.PRINT (cpu.bytecode.drop (p + 1))
    "print" 6 (by decide) (by decide) (by decide) (by norm_num)
  refine ⟨text, 6, ht, ?_⟩
  simp only [CPU.operandSize, sizeof_bool, sizeof_int] at hn
  omega

theorem free_next (cpu : CPU) (addr a : Nat) (h : (cpu.free addr).outcome = .next a) :
    a = addr + CPU.operandSize := by
  unfold CPU.free at h
  repeat' split at h
  all_goals simp_all

set_option maxRecDepth 100000 in
theorem free_agrees (showFloat : Nat → String) :
    AgreesWithDisassembler showFloat OPCODE.FREE CPU.free := by
  intro cpu p a h
  have hn := free_next cpu (p + 1) a h
  obtain ⟨text, ht⟩ := instruction_fixed showFloat OPCODE.FREE (cpu.bytecode.drop (p + 1))
    "free" 6 (by decide) (by decide) (by decide) (by norm_num)
  refine ⟨text, 6, ht, ?_⟩
  simp only [CPU.operandSize, sizeof_bool, sizeof_int] at hn
  omega

theorem empty_next (cpu : CPU) (addr a : Nat) (h : (cpu.empty addr).outcome = .next a) :
    a = addr + CPU.operandSize := by
  unfold CPU.empty at h
  repeat' split at h
  all_goals simp_all

set_option maxRecDepth 100000 in
theorem empty_agrees (showFloat : Nat → String) :
    AgreesWithDisassembler showFloat OPCODE.EMPTY CPU.empty := by
  intro cpu p a h
  have hn := empty_next cpu (p + 1) a h
  obtain ⟨text, ht⟩ := instruction_fixed showFloat OPCODE.EMPTY (cpu.bytecode.drop (p + 1))
    "empty" 6 (by decide) (by decide) (by decide) (by norm_num)
  refine ⟨text, 6, ht, ?_⟩
  simp only [CPU.operandSize, sizeof_bool, sizeof_int] at hn
  omega

theorem tmpri_next (cpu : CPU) (addr a : Nat) (h : (cpu.tmpri addr).outcome = .next a) :
    a = addr + CPU.operandSize := by
  unfold CPU.tmpri at h
  repeat' split at h
  all_goals simp_all

set_option maxRecDepth 100000 in
theorem tmpri_agrees (showFloat : Nat → String) :
    AgreesWithDisassembler showFloat OPCODE.TMPRI CPU.tmpri := by
  intro cpu p a h
  have hn := tmpri_next cpu (p + 1) a h
  obtain ⟨text, ht⟩ := instruction_fixed showFloat OPCODE.TMPRI (cpu.bytecode.drop (p + 1))
    "tmpri" 6 (by decide) (by decide) (by decide) (by norm_num)
  refine ⟨text, 6, ht, ?_⟩
  simp only [CPU.operandSize, sizeof_bool, sizeof_int] at hn
  omega

theorem tmpro_next (cpu : CPU) (addr a : Nat) (h : (cpu.tmpro addr).outcome = .next a) :
    a = addr + CPU.operandSize := by
  unfold CPU.tmpro at h
  repeat' split at h
  all_goals simp_all

set_option maxRecDepth 100000 in
theorem tmpro_agrees (showFloat : Nat → String) :
    AgreesWithDisassembler showFloat OPCODE.TMPRO CPU.tmpro := by
  intro cpu p a h
  have hn := tmpro_next cpu (p + 1) a h
  obtain ⟨text, ht⟩ := instruction_fixed showFloat OPCODE.TMPRO (cpu.bytecode.drop (p + 1))
    "tmpro" 6 (by decide) (by decide) (by decide) (by norm_num)
  refine ⟨text, 6, ht, ?_⟩
  simp only [CPU.operandSize, sizeof_bool, sizeof_int] at hn
  omega

theorem pull_next (cpu : CPU) (addr a : Nat) (h : (cpu.pull addr).outcome = .next a) :
    a = addr + CPU.operandSize := by
  unfold CPU.pull at h
  repeat' split at h
  all_goals simp_all

set_option maxRecDepth 100000 in
theorem pull_agrees (showFloat : Nat → String) :
    AgreesWithDisassembler showFloat OPCODE.PULL CPU.pull := by
  intro cpu p a h
  have hn := pull_next cpu (p + 1) a h
  obtain ⟨text, ht⟩ := instruction_fixed showFloat OPCODE.PULL (cpu.bytecode.drop (p + 1))
    "pull" 6 (by decide) (by decide) (by decide) (by norm_num)
  refine ⟨text, 6, ht, ?_⟩
  simp only [CPU.operandSize, sizeof_bool, sizeof_int] at hn
  omega

theorem vmthrow_next (cpu : CPU) (addr a : Nat) (h : (cpu.vmthrow addr).outcome = .next a) :
    a = addr + CPU.operandSize := by
  unfold CPU.vmthrow at h
  repeat' split at h
  all_goals simp_all

set_option maxRecDepth 100000 in
theorem vmthrow_agrees (showFloat : Nat → String) :
    AgreesWithDisassembler showFloat OPCODE.THROW CPU.vmthrow := by
  intro cpu p a h
  have hn := vmthrow_next cpu (p + 1) a h
  obtain ⟨text, ht⟩ := instruction_fixed showFloat OPCODE.THROW (cpu.bytecode.drop (p + 1))
    "throw" 6 (by decide) (by decide) (by decide) (by norm_num)
  refine ⟨text, 6, ht, ?_⟩
  simp only [CPU.operandSize, sizeof_bool, sizeof_int] at hn
  omega

theorem move_next (cpu : CPU) (addr a : Nat) (h : (cpu.move addr).outcome = .next a) :
    a = addr + 2 * CPU.operandSize := by
  unfold CPU.move CPU.moveWith at h
  repeat' split at h
  all_goals simp_all

set_option maxRecDepth 100000 in
theorem move_agrees (showFloat : Nat → String) :
    AgreesWithDisassembler showFloat OPCODE.MOVE CPU.move := by
  intro cpu p a h
  have hn := move_next cpu (p + 1) a h
  obtain ⟨text, ht⟩ := instruction_fixed showFloat OPCODE.MOVE (cpu.bytecode.drop (p + 1))
    "move" 11 (by decide) (by decide) (by decide) (by norm_num)
  refine ⟨text, 11, ht, ?_⟩
  simp only [CPU.operandSize, sizeof_bool, sizeof_int] at hn
  omega

theorem copy_next (cpu : CPU) (addr a : Nat) (h : (cpu.copy addr).outcome = .next a) :
    a = addr + 2 * CPU.operandSize := by
  unfold CPU.copy CPU.copyWith at h
  repeat' split at h
  all_goals simp_all

set_option maxRecDepth 100000 in
theorem copy_agrees (showFloat : Nat → String) :
    AgreesWithDisassembler showFloat OPCODE.COPY CPU.copy := by
  intro cpu p a h
  have hn := copy_next cpu (p + 1) a h
  obtain ⟨text, ht⟩ := instruction_fixed showFloat OPCODE.COPY (cpu.bytecode.drop (p + 1))
    "copy" 11 (by decide) (by decide) (by decide) (by norm_num)
  refine ⟨text, 11, ht, ?_⟩
  simp only [CPU.operandSize, sizeof_bool, sizeof_int] at hn
  omega

theorem ref_next (cpu : CPU) (addr a : Nat) (h : (cpu.ref addr).outcome = .next a) :
    a = addr + 2 * CPU.operandSize := by
  unfold CPU.ref CPU.refWith at h
  repeat' split at h
  all_goals simp_all

set_option maxRecDepth 100000 in
theorem ref_agrees (showFloat : Nat → String) :
    AgreesWithDisassembler showFloat OPCODE.REF CPU.ref := by
  intro cpu p a h
  have hn := ref_next cpu (p + 1) a h
  obtain ⟨text, ht⟩ := instruction_fixed showFloat OPCODE.REF (cpu.bytecode.drop (p + 1))
    "ref" 11 (by decide) (by decide) (by decide) (by norm_num)
  refine ⟨text, 11, ht, ?_⟩
  simp only [CPU.operandSize, sizeof_bool, sizeof_int] at hn
  omega

theorem swap_next (cpu : CPU) (addr a : Nat) (h : (cpu.swap addr).outcome = .next a) :
    a = addr + 2 * CPU.operandSize := by
  unfold CPU.swap CPU.swapWith at h
  repeat' split at h
  all_goals simp_all

set_option maxRecDepth 100000 in
theorem swap_agrees (showFloat : Nat → String) :
    AgreesWithDisassembler showFloat OPCODE.SWAP CPU.swap := by
  intro cpu p a h
  have hn := swap_next cpu (p + 1) a h
  obtain ⟨text, ht⟩ := instruction_fixed showFloat OPCODE.SWAP (cpu.bytecode.drop (p + 1))
    "swap" 11 (by decide) (by decide) (by decide) (by norm_num)
  refine ⟨text, 11, ht, ?_⟩
  simp only [CPU.operandSize, sizeof_bool, sizeof_int] at hn
  omega

theorem isnull_next (cpu : CPU) (addr a : Nat) (h : (cpu.isnull addr).outcome = .next a) :
    a = addr + 2 * CPU.operandSize := by
  unfold CPU.isnull CPU.isnullWith at h
  repeat' split at h
  all_goals simp_all

set_option maxRecDepth 100000 in
theorem isnull_agrees (showFloat : Nat → String) :
    AgreesWithDisassembler showFloat OPCODE.ISNULL CPU.isnull := by
  intro cpu p a h
  have hn := isnull_next cpu (p + 1) a h
  obtain ⟨text, ht⟩ := instruction_fixed showFloat OPCODE.ISNULL (cpu.bytecode.drop (p + 1))
    "isnull" 11 (by decide) (by decide) (by decide) (by norm_num)
  refine ⟨text, 11, ht, ?_⟩
  simp only [CPU.operandSize, sizeof_bool, sizeof_int] at hn
  omega

theorem frame_next (cpu : CPU) (addr a : Nat) (h : (cpu.frame addr).outcome = .next a) :
    a = addr + 2 * CPU.operandSize := by
  unfold CPU.frame at h
  repeat' split at h
  all_goals simp_all

set_option maxRecDepth 100000 in
theorem frame_agrees (showFloat : Nat → String) :
    AgreesWithDisassembler showFloat OPCODE.FRAME CPU.frame := by
  intro cpu p a h
  have hn := frame_next cpu (p + 1) a h
  obtain ⟨text, ht⟩ := instruction_fixed showFloat OPCODE.FRAME (cpu.bytecode.drop (p + 1))
    "frame" 11 (by decide) (by decide) (by decide) (by norm_num)
  refine ⟨text, 11, ht, ?_⟩
  simp only [CPU.operandSize, sizeof_bool, sizeof_int] at hn
  omega

theorem param_next (cpu : CPU) (addr a : Nat) (h : (cpu.param addr).outcome = .next a) :
    a = addr + 2 * CPU.operandSize := by
  unfold CPU.param CPU.paramWith at h
  repeat' split at h
  all_goals simp_all

set_option maxRecDepth 100000 in
theorem param_agrees (showFloat : Nat → String) :
    AgreesWithDisassembler showFloat OPCODE.PARAM CPU.param := by
  intro cpu p a h
  have hn := param_next cpu (p + 1) a h
  obtain ⟨text, ht⟩ := instruction_fixed showFloat OPCODE.PARAM (cpu.bytecode.drop (p + 1))
    "param" 11 (by decide) (by decide) (by decide) (by norm_num)
  refine ⟨text, 11, ht, ?_⟩
  simp only [CPU.operandSize, sizeof_bool, sizeof_int] at hn
  omega

theorem paref_next (cpu : CPU) (addr a : Nat) (h : (cpu.paref addr).outcome = .next a) :
    a = addr + 2 * CPU.operandSize := by
  unfold CPU.paref CPU.parefWith at h
  repeat' split at h
  all_goals simp_all

set_option maxRecDepth 100000 in
theorem paref_agrees (showFloat : Nat → String) :
    AgreesWithDisassembler showFloat OPCODE.PAREF CPU.paref := by
  intro cpu p a h
  have hn := paref_next cpu (p + 1) a h
  obtain ⟨text, ht⟩ := instruction_fixed showFloat OPCODE.PAREF (cpu.bytecode.drop (p + 1))
    "paref" 11 (by decide) (by decide) (by decide) (by norm_num)
  refine ⟨text, 11, ht, ?_⟩
  simp only [CPU.operandSize, sizeof_bool, sizeof_int] at hn
  omega

theorem arg_next (cpu : CPU) (addr a : Nat) (h : (cpu.arg addr).outcome = .next a) :
    a = addr + 2 * CPU.operandSize := by
  unfold CPU.arg at h
  repeat' split at h
  all_goals simp_all

set_option maxRecDepth 100000 in
theorem arg_agrees (showFloat : Nat → String) :
    AgreesWithDisassembler showFloat OPCODE.ARG CPU.arg := by
  intro cpu p a h
  have hn := arg_next cpu (p + 1) a h
  obtain ⟨text, ht⟩ := instruction_fixed showFloat OPCODE.ARG (cpu.bytecode.drop (p + 1))
    "arg" 11 (by decide) (by decide) (by decide) (by norm_num)
  refine ⟨text, 11, ht, ?_⟩
  simp only [CPU.operandSize, sizeof_bool, sizeof_int] at hn
  omega

theorem ress_next (cpu : CPU) (addr a : Nat) (h : (cpu.ress addr).outcome = .next a) :
    a = addr + sizeof_int := by
  unfold CPU.ress at h
  simp only at h
  split_ifs at h
  · simpa using h.symm
  · split at h
    · simp at h
    · simpa using h.symm
  · split at h
    · simp at h
    · simpa using h.symm

set_option maxRecDepth 100000 in
theorem ress_agrees (showFloat : Nat → String) :
    AgreesWithDisassembler showFloat OPCODE.RESS CPU.ress := by
  intro cpu p a h
  have hn := ress_next cpu (p + 1) a h
  obtain ⟨text, ht⟩ := instruction_fixed showFloat OPCODE.RESS (cpu.bytecode.drop (p + 1))
    "ress" 5 (by decide) (by decide) (by decide) (by norm_num)
  refine ⟨text, 5, ht, ?_⟩
  simp only [CPU.operandSize, sizeof_bool, sizeof_int] at hn
  omega

theorem vmcatch_next (cpu : CPU) (addr a : Nat) (h : (cpu.vmcatch addr).outcome = .next a) :
    a = addr + ((cpu.readString addr).length + 1) +
      ((cpu.readString (addr + ((cpu.readString addr).length + 1))).length + 1) := by
  unfold CPU.vmcatch at h
  simp only at h
  split at h
  · simp at h
  · simp at h
  · simpa using h.symm

theorem vmclass_next (cpu : CPU) (addr a : Nat) (h : (cpu.vmclass addr).outcome = .next a) :
    a = addr + CPU.operandSize + ((cpu.readString (addr + CPU.operandSize)).length + 1) := by
  unfold CPU.vmclass at h
  simp only at h
  split at h
  · simp at h
  · split at h
    · simp at h
    · simpa using h.symm

theorem eximport_next (loads : String → Bool) (cpu : CPU) (addr a : Nat)
    (h : (cpu.eximport loads addr).outcome = .next a) :
    a = addr + (cpu.readString addr).length := by
  unfold CPU.eximport at h
  simp only at h
  split_ifs at h
  simpa using h.symm

set_option maxRecDepth 100000 in
theorem vmcatch_agrees (showFloat : Nat → String) :
    AgreesWithDisassembler showFloat OPCODE.CATCH CPU.vmcatch := by
  intro cpu p a h
  have hn := vmcatch_next cpu (p + 1) a h
  have h1 : OP_NAMES.lookup OPCODE.CATCH = some "catch" := by decide
  have h2 : OP_VARIABLE_LENGTH.contains OPCODE.CATCH = true := by decide
  have hsz : ∃ text, disassembler.instruction showFloat OPCODE.CATCH
      (cpu.bytecode.drop (p + 1)) = .ok (text, (cstring cpu.bytecode (p + 1)).length + 1 +
        (cstring cpu.bytecode (p + 1 + ((cstring cpu.bytecode (p + 1)).length + 1))).length +
        1 + 1) := by
    simp only [disassembler.instruction, disassembler.scanLength, h1, h2, Bool.not_true,
      Bool.false_eq_true, if_false, reduceCtorEq, or_self, or_false, false_or, if_true,
      cstring_drop, Nat.add_zero]
    exact ⟨_, rfl⟩
  obtain ⟨text, ht⟩ := hsz
  refine ⟨text, _, ht, ?_⟩
  simp only [CPU.readString, text_length] at hn
  omega

set_option maxRecDepth 100000 in
theorem vmclass_agrees (showFloat : Nat → String) :
    AgreesWithDisassembler showFloat OPCODE.CLASS CPU.vmclass := by
  intro cpu p a h
  have hn := vmclass_next cpu (p + 1) a h
  have h1 : OP_NAMES.lookup OPCODE.CLASS = some "class" := by decide
  have h2 : OP_VARIABLE_LENGTH.contains OPCODE.CLASS = true := by decide
  have hsz : ∃ text, disassembler.instruction showFloat OPCODE.CLASS
      (cpu.bytecode.drop (p + 1)) = .ok (text, sizeof_bool + sizeof_int +
        (cstring cpu.bytecode (p + 1 + (sizeof_bool + sizeof_int))).length + 1 + 1) := by
    simp only [disassembler.instruction, disassembler.scanLength, h1, h2, Bool.not_true,
      Bool.false_eq_true, if_false, reduceCtorEq, or_self, or_false, false_or, or_true,
      true_or, if_true, cstring_drop]
    exact ⟨_, rfl⟩
  obtain ⟨text, ht⟩ := hsz
  refine ⟨text, _, ht, ?_⟩
  simp only [CPU.readString, text_length, CPU.operandSize] at hn
  simp only [sizeof_bool, sizeof_int] at hn ⊢
  omega

set_option maxRecDepth 100000 in
theorem import_size (showFloat : Nat → String) (buf : List Nat) :
    ∃ text, disassembler.instruction showFloat OPCODE.IMPORT buf =
      .ok (text, (cstring buf 0).length + 1 + 1) := by
  have h1 : OP_NAMES.lookup OPCODE.IMPORT = some "import" := by decide
  have h2 : OP_VARIABLE_LENGTH.contains OPCODE.IMPORT = true := by decide
  simp only [disassembler.instruction, disassembler.scanLength, h1, h2, Bool.not_true,
    Bool.false_eq_true, if_false, reduceCtorEq, or_self, or_false, false_or, or_true,
    true_or, if_true]
  exact ⟨_, rfl⟩

/-- C35: for `echo`, `print`, `move`, `copy`, `ref`, `swap`, `free`, `empty`, `isnull`,
`ress`, `tmpri`, `tmpro`, `frame`, `param`, `paref`, `arg`, `catch`, `pull`, `throw` and
`class`, the address the handler returns is the address of the opcode byte plus the size
`disassembler::instruction` reports for the same bytes. For `import` it is not: the
handler `CPU::eximport` returns one byte less, the address of the NUL that ends the module
name; for `import "m"` at address 0 the handler returns 2 and the disassembler reports
the size 3. -/
theorem engine_disassembler_next (showFloat : Nat → String) (loads : String → Bool) :
    (AgreesWithDisassembler showFloat OPCODE.ECHO CPU.echo ∧
      AgreesWithDisassembler showFloat OPCODE.PRINT CPU.print ∧
      AgreesWithDisassembler showFloat OPCODE.MOVE CPU.move ∧
      AgreesWithDisassembler showFloat OPCODE.COPY CPU.copy ∧
      AgreesWithDisassembler showFloat OPCODE.REF CPU.ref ∧
      AgreesWithDisassembler showFloat OPCODE.SWAP CPU.swap ∧
      AgreesWithDisassembler showFloat OPCODE.FREE CPU.free ∧
      AgreesWithDisassembler showFloat OPCODE.EMPTY CPU.empty ∧
      AgreesWithDisassembler showFloat OPCODE.ISNULL CPU.isnull ∧
      AgreesWithDisassembler showFloat OPCODE.RESS CPU.ress ∧
      AgreesWithDisassembler showFloat OPCODE.TMPRI CPU.tmpri ∧
      AgreesWithDisassembler showFloat OPCODE.TMPRO CPU.tmpro ∧
      AgreesWithDisassembler showFloat OPCODE.FRAME CPU.frame ∧
      AgreesWithDisassembler showFloat OPCODE.PARAM CPU.param ∧
      AgreesWithDisassembler showFloat OPCODE.PAREF CPU.paref ∧
      AgreesWithDisassembler showFloat OPCODE.ARG CPU.arg ∧
      AgreesWithDisassembler showFloat OPCODE.CATCH CPU.vmcatch ∧
      AgreesWithDisassembler showFloat OPCODE.PULL CPU.pull ∧
      AgreesWithDisassembler showFloat OPCODE.THROW CPU.vmthrow ∧
      AgreesWithDisassembler showFloat OPCODE.CLASS CPU.vmclass) ∧
    (∀ (cpu : CPU) (p a : Nat), (cpu.eximport loads (p + 1)).outcome = .next a →
      ∃ text size,
        disassembler.instruction showFloat OPCODE.IMPORT (cpu.bytecode.drop (p + 1)) =
          .ok (text, size) ∧
        a + 1 = p + size) ∧
    ((sampleCPUWith importM [sampleCaller] Option.none).eximport (fun _ => true) 1).outcome =
      .next 2 ∧
    ∃ text, disassembler.instruction showFloat OPCODE.IMPORT (importM.drop 1) =
      .ok (text, 3) := by
  refine ⟨⟨
      echo_agrees showFloat, print_agrees showFloat, move_agrees showFloat, copy_agrees
      showFloat, ref_agrees showFloat, swap_agrees showFloat, free_agrees showFloat,
      empty_agrees showFloat, isnull_agrees showFloat, ress_agrees showFloat, tmpri_agrees
      showFloat, tmpro_agrees showFloat, frame_agrees showFloat, param_agrees showFloat,
      paref_agrees showFloat, arg_agrees showFloat, vmcatch_agrees showFloat, pull_agrees
      showFloat, vmthrow_agrees showFloat, vmclass_agrees showFloat⟩,
    ?_, by decide, import_size showFloat (importM.drop 1)⟩
  intro cpu p a h
  have hn := eximport_next loads cpu (p + 1) a h
  obtain ⟨text, ht⟩ := import_size showFloat (cpu.bytecode.drop (p + 1))
  refine ⟨text, _, ht, ?_⟩
  have hc : cstring (cpu.bytecode.drop (p + 1)) 0 = cstring cpu.bytecode (p + 1) := by
    rw [cstring_drop]
  rw [hc]
  simp only [CPU.readString, text_length] at hn
  omega

/-- Witness for `engine_disassembler_next`: `import "m"` at address 0, where the handler
returns 2. -/
theorem engine_disassembler_next_witness :
    ∃ text size,
      disassembler.instruction (fun _ => "") OPCODE.IMPORT
          ((sampleCPUWith importM [sampleCaller] Option.none).bytecode.drop (0 + 1)) =
        .ok (text, size) ∧
      2 + 1 = 0 + size :=
  (engine_disassembler_next (fun _ => "") (fun _ => true)).2.1
    (sampleCPUWith importM [sampleCaller] Option.none) 0 2 (by decide)

end NextInstruction

end Viua
